import Mathlib

/-! # Mapcrafter configuration loader (`mapcraftercore/config`)

A shallow embedding of `MapcrafterConfig::parse` (mapcrafterconfig.cpp) and of
`MapSection` (sections/map.cpp), with theorems about the multi-pass orchestration:
root keys, global sections, unknown-type scan, world pass, map pass, marker pass.

Conventions of the embedding:
* a C++ object mutated in place becomes a value that is passed in and returned;
* `std::string` and `fs::path` are `String`; `int` is `Int` (no arithmetic is done on it,
  only comparisons with small constants); `double` values are only stored, never
  computed with, and are carried as rationals;
* a function that throws `std::invalid_argument` returns `Except String _`, the string
  being `e.what()`;
* collaborators that live outside the two source files (filesystem queries, the INI
  reader, the generic string converters, the world and marker section classes) are
  parameters, gathered in `Env` and `Sections`.
-/

namespace Mapcrafter

/-! ## Validation messages (validation.h) -/

/-- Severity of a validation message: the spec knows exactly two. -/
inductive Severity where
  | warning
  | error
  deriving DecidableEq, Repr

/-- Modelled from the spec: `ValidationMessage`, a severity-tagged text (validation.h is
not among the sources). -/
structure ValidationMessage where
  type : Severity
  message : String
  deriving DecidableEq, Repr

/-- `ValidationMessage::error(message)`. -/
def ValidationMessage.error (message : String) : ValidationMessage :=
  ⟨Severity.error, message⟩

/-- `ValidationMessage::warning(message)`. -/
def ValidationMessage.warning (message : String) : ValidationMessage :=
  ⟨Severity.warning, message⟩

/-- `ValidationList`: the ordered messages of one scope. -/
abbrev ValidationList := List ValidationMessage

/-- `ValidationMap`: the ordered sequence of (scope label, messages). -/
abbrev ValidationMap := List (String × ValidationList)

/-- `makeValidationList(msg)`: the one-element list. -/
def makeValidationList (msg : ValidationMessage) : ValidationList := [msg]

/-- Whether a message list holds an Error-severity message. -/
def hasError (msgs : ValidationList) : Bool :=
  msgs.any (fun m => decide (m.type = Severity.error))

/-- Whether a report holds an Error-severity message in any scope. -/
def reportHasError (validation : ValidationMap) : Bool :=
  validation.any (fun e => hasError e.2)

/-- Modelled from the spec: `isValid(validation)`, the result of a section parse. The spec
makes an Error what fails a scope and says a Warning never does, so a list is valid exactly
when it holds no Error. -/
def isValid (msgs : ValidationList) : Bool := !hasError msgs

/-! ## TypedField (`Field<T>`, validation.h) -/

/-- Modelled from the spec: `Field<T>` (spec 3 and 4.1; validation.h is not among the
sources). Attributes as the spec lists them: an optional default, an optional explicit
value, and the flag saying that a value was explicitly set. -/
structure Field (T : Type) where
  defaultValue : Option T
  value : Option T
  hasValue : Bool
  deriving DecidableEq, Repr

namespace Field

variable {T : Type}

/-- A field is constructed with no value. -/
def new : Field T := ⟨none, none, false⟩

/-- Spec 4.1 `setDefault`: sets the fallback value; does not mark the field as set. -/
def setDefault (f : Field T) (v : T) : Field T :=
  { f with defaultValue := some v }

/-- The setter used by the orchestrator after a successful `load` (stores an explicit
value). -/
def setValue (f : Field T) (v : T) : Field T :=
  { f with value := some v, hasValue := true }

/-- Spec 4.1 `load`: converts `rawValue` with the type-specific converter `conv`. On
success the value is stored and marked set and the result is `true`; on failure exactly one
Error "<key> is invalid: <reason>" is appended, the field is left untouched and the result
is `false`. -/
def load (conv : String → Except String T) (f : Field T) (key rawValue : String)
    (validation : ValidationList) : Bool × Field T × ValidationList :=
  match conv rawValue with
  | Except.ok v => (true, { f with value := some v, hasValue := true }, validation)
  | Except.error reason =>
      (false, f, validation ++ [ValidationMessage.error (key ++ " is invalid: " ++ reason)])

/-- Spec 4.1 `require`: `true` if a value or a default exists; otherwise appends an Error
with `message` and returns `false`. -/
def require (f : Field T) (validation : ValidationList) (message : String) :
    Bool × ValidationList :=
  if f.value.isSome || f.defaultValue.isSome then (true, validation)
  else (false, validation ++ [ValidationMessage.error message])

/-- The explicit value if there is one, else the default, else nothing. -/
def getValue? (f : Field T) : Option T :=
  match f.value with
  | some v => some v
  | none => f.defaultValue

/-- Spec 4.1 `getValue`. The spec leaves the result undefined when neither a value nor a
default exists; the C++ object then still holds the value it was constructed with, which
is the argument `init`. -/
def getValue (f : Field T) (init : T) : T := (f.getValue?).getD init

end Field

deriving instance DecidableEq for Except

/-! ## Leaf converters defined in the two source files -/

/-- `Color`: the hex text and its three channels (`int` members). -/
structure Color where
  hex : String
  red : Int
  green : Int
  blue : Int
  deriving DecidableEq, Repr

/-- C `isxdigit` in the "C" locale: `0-9`, `a-f`, `A-F`. -/
def isxdigit (c : Char) : Bool :=
  (48 ≤ c.toNat && c.toNat ≤ 57) || (97 ≤ c.toNat && c.toNat ≤ 102) ||
    (65 ≤ c.toNat && c.toNat ≤ 70)

/-- Value of one hexadecimal digit (0 for any other character). -/
def hexDigitValue (c : Char) : Int :=
  if 48 ≤ c.toNat && c.toNat ≤ 57 then (c.toNat : Int) - 48
  else if 97 ≤ c.toNat && c.toNat ≤ 102 then (c.toNat : Int) - 87
  else if 65 ≤ c.toNat && c.toNat ≤ 70 then (c.toNat : Int) - 55
  else 0

/-- `std::stoi("0x" + digits, nullptr, 16)` for `digits` made of hexadecimal digits only,
which is how `as<Color>` calls it (after the `isxdigit` loop): the base-16 value. -/
def stoiHex (digits : List Char) : Int :=
  digits.foldl (fun acc c => 16 * acc + hexDigitValue c) 0

/-- `from.substr(pos, len)` on the characters of the string. -/
def substr (s : String) (pos len : Nat) : List Char := (s.data.drop pos).take len

/-- `isxdigit(from[i])`. `from.size()` counts bytes, so `from[i]` is a byte; once the size is
known to be 7, byte `i` is a hexadecimal digit exactly when the string has a character at
index `i` and that character is one (a multi-byte character would put a byte that is no
digit among the bytes 1..6). -/
def xdigitAt (s : String) (i : Nat) : Bool :=
  match s.data.get? i with
  | some c => isxdigit c
  | none => false

/-- `util::as<Color>` (mapcrafterconfig.cpp 28-43). -/
def asColor (frm : String) : Except String Color :=
  let error_message := "Hex color must be in the format '#rrggbb'."
  if frm.utf8ByteSize ≠ 7 then Except.error error_message
  else if (List.range' 1 6).any (fun i => !xdigitAt frm i) then Except.error error_message
  else
    Except.ok
      { hex := frm
        red := stoiHex (substr frm 1 2)
        green := stoiHex (substr frm 3 2)
        blue := stoiHex (substr frm 5 2) }

/-- `config::ImageFormat`. -/
inductive ImageFormat where
  | PNG
  | JPEG
  deriving DecidableEq, Repr

/-- `util::as<config::ImageFormat>` (map.cpp 27-34). -/
def asImageFormat (frm : String) : Except String ImageFormat :=
  if frm = "png" then Except.ok ImageFormat.PNG
  else if frm = "jpeg" then Except.ok ImageFormat.JPEG
  else Except.error "Must be 'png' or 'jpeg'!"

/-! ## The INI reader (iniconfig.h), consumed as an already parsed structure -/

/-- Modelled from the spec: `INIConfigSection` (spec 6): a name, a type (empty for the
root) and the ordered (key, rawValue) pairs. -/
structure INIConfigSection where
  type : String
  name : String
  entries : List (String × String)
  deriving DecidableEq, Repr

/-- Modelled from the spec: `getNameType()`, the text "type:name" that the orchestrator
compares with "global:worlds" and its siblings. -/
def INIConfigSection.getNameType (s : INIConfigSection) : String :=
  s.type ++ ":" ++ s.name

/-- Modelled from the spec: `INIConfig` (spec 6): the root section and the ordered
sequence of all other sections. -/
structure INIConfig where
  root : INIConfigSection
  sections : List INIConfigSection
  deriving DecidableEq, Repr

/-- Modelled from the spec: `hasSection(type, name)`. -/
def INIConfig.hasSection (config : INIConfig) (type name : String) : Bool :=
  config.sections.any (fun s => decide (s.type = type) && decide (s.name = name))

/-- Modelled from the spec: `getSection(type, name)`, the first section with that type and
name (an empty section when there is none; the orchestrator asks only after
`hasSection`). -/
def INIConfig.getSection (config : INIConfig) (type name : String) : INIConfigSection :=
  (config.sections.find? (fun s => decide (s.type = type) && decide (s.name = name))).getD
    ⟨type, name, []⟩

/-! ## Collaborators outside the sources -/

/-- The collaborators of the loader that are not defined in the two source files:
the INI reader, the filesystem queries, `BOOST_FS_ABSOLUTE`, the generic `util::as<T>`
converters and `stringToRotation`. -/
structure Env where
  /-- `INIConfig::loadFile(filename, msg)`: the parsed file, or the message it sets. -/
  loadFile : String → Except ValidationMessage INIConfig
  /-- `fs::path(filename).parent_path()`. -/
  parentPath : String → String
  /-- `util::findTemplateDir()`, empty when none is found. -/
  findTemplateDir : String
  /-- `util::findTextureDir()`, empty when none is found. -/
  findTextureDir : String
  /-- `fs::is_directory(path)`. -/
  isDirectory : String → Bool
  /-- `BOOST_FS_ABSOLUTE(path, base)`. -/
  absolute : String → String → String
  /-- `util::as<std::string>`. -/
  asString : String → Except String String
  /-- `util::as<fs::path>`. -/
  asPath : String → Except String String
  /-- `util::as<int>`. -/
  asInt : String → Except String Int
  /-- `util::as<double>`. -/
  asDouble : String → Except String Rat
  /-- `util::as<bool>`. -/
  asBool : String → Except String Bool
  /-- `stringToRotation(elem)`: the rotation index, or -1. -/
  stringToRotation : String → Int

/-! ## The three-phase section contract (the section base class) -/

/-- The virtual interface of a section class over its object type: the three phases of
spec 4.2, and the base-class step that records the declared name before them. -/
structure SectionClass (σ : Type) where
  /-- Stores the declared name of the raw section in the object (`section_name`). -/
  setSectionName : σ → String → σ
  /-- Phase 1, `preParse(section, validation)`. -/
  preParse : σ → INIConfigSection → ValidationList → σ × ValidationList
  /-- Phase 2, `parseField(key, value, validation)`; `false` for an unrecognised key. -/
  parseField : σ → String → String → ValidationList → Bool × σ × ValidationList
  /-- Phase 3, `postParse(section, validation)`. -/
  postParse : σ → INIConfigSection → ValidationList → σ × ValidationList

/-- Modelled from the spec: one turn of the key loop of the section parse (spec 4.2): the
key is dispatched to `parseField`, and a key it does not recognise gives the Warning
"Unknown configuration option '<key>'!". -/
def parseEntry {σ : Type} (C : SectionClass σ) (acc : σ × ValidationList)
    (entry : String × String) : σ × ValidationList :=
  let r := C.parseField acc.1 entry.1 entry.2 acc.2
  if r.1 then (r.2.1, r.2.2)
  else (r.2.1, r.2.2 ++ [ValidationMessage.warning
    ("Unknown configuration option '" ++ entry.1 ++ "'!")])

/-- Modelled from the spec: the section parse of the base class (spec 4.2), which is not
among the sources: record the declared name, `preParse`, `parseField` once per key in file
order, `postParse`; the result is `true` exactly when the messages hold no Error (spec 4.3
step 7 and spec 7). -/
def sectionParse {σ : Type} (C : SectionClass σ) (self : σ) (sec : INIConfigSection)
    (validation : ValidationList) : Bool × σ × ValidationList :=
  let self := C.setSectionName self sec.name
  let a := C.preParse self sec validation
  let b := sec.entries.foldl (parseEntry C) a
  let c := C.postParse b.1 sec b.2
  (isValid c.2, c.1, c.2)

/-! ## MapSection (sections/map.cpp) -/

/-- `MapSection`: the members of the base class (`section_name`, `global`) and those of
the class itself. `rotations_set` is a `std::set<int>`, kept as a strictly increasing
list. -/
structure MapSection where
  section_name : String
  global : Bool
  config_dir : String
  name_short : String
  name_long : String
  world : Field String
  rendermode : Field String
  rotations : Field String
  texture_dir : Field String
  texture_size : Field Int
  image_format : Field ImageFormat
  jpeg_quality : Field Int
  lighting_intensity : Field Rat
  render_unknown_blocks : Field Bool
  render_leaves_transparent : Field Bool
  render_biomes : Field Bool
  use_image_mtimes : Field Bool
  rotations_set : List Int
  deriving DecidableEq, Repr

/-- `std::set<int>::insert`: ordered insertion without duplicates. -/
def setInsert (r : Int) : List Int → List Int
  | [] => [r]
  | x :: xs => if r < x then r :: x :: xs else if r = x then x :: xs else x :: setInsert r xs

/-- C `isspace` in the "C" locale: space, `\t`, `\n`, `\v`, `\f`, `\r`. -/
def isspace (c : Char) : Bool := c.toNat = 32 || (9 ≤ c.toNat && c.toNat ≤ 13)

/-- The tokens that `while (ss >> elem)` reads from a stream holding `cs`: the maximal runs
of non-space characters, in order. `cur` is the run being read, reversed. -/
def tokensAux : List Char → List Char → List String
  | [], cur => if cur = [] then [] else [String.mk cur.reverse]
  | c :: cs, cur =>
      if isspace c then
        (if cur = [] then tokensAux cs [] else String.mk cur.reverse :: tokensAux cs [])
      else tokensAux cs (c :: cur)

/-- The whitespace-separated tokens of a string. -/
def tokens (s : String) : List String := tokensAux s.data []

namespace MapSection

/-- `MapSection::MapSection(bool global)`: every field without a value. The values the
constructor gives to `texture_size` (12), `render_unknown_blocks`, `render_leaves_transparent`
and `render_biomes` (false) are what their accessors return while the field is unset. -/
def new (global : Bool) : MapSection :=
  { section_name := "", global := global, config_dir := "", name_short := "", name_long := "",
    world := Field.new, rendermode := Field.new, rotations := Field.new,
    texture_dir := Field.new, texture_size := Field.new, image_format := Field.new,
    jpeg_quality := Field.new, lighting_intensity := Field.new,
    render_unknown_blocks := Field.new, render_leaves_transparent := Field.new,
    render_biomes := Field.new, use_image_mtimes := Field.new, rotations_set := [] }

/-- `setGlobal(global)` of the base class. -/
def setGlobal (self : MapSection) (global : Bool) : MapSection := { self with global := global }

/-- `MapSection::setConfigDir` (map.cpp 51-53). -/
def setConfigDir (self : MapSection) (config_dir : String) : MapSection :=
  { self with config_dir := config_dir }

/-- `MapSection::getShortName`. -/
def getShortName (self : MapSection) : String := self.name_short

/-- `MapSection::getLongName`. -/
def getLongName (self : MapSection) : String := self.name_long

/-- `MapSection::getWorld`. -/
def getWorld (self : MapSection) : String := self.world.getValue ""

/-- `MapSection::getRendermode`. -/
def getRendermode (self : MapSection) : String := self.rendermode.getValue ""

/-- `MapSection::getRotations`. -/
def getRotations (self : MapSection) : List Int := self.rotations_set

/-- `MapSection::getTextureDir`. -/
def getTextureDir (self : MapSection) : String := self.texture_dir.getValue ""

/-- `MapSection::getTextureSize`. -/
def getTextureSize (self : MapSection) : Int := self.texture_size.getValue 12

/-- `MapSection::getJPEGQuality`. -/
def getJPEGQuality (self : MapSection) : Int := self.jpeg_quality.getValue 0

/-- `MapSection::preParse` (map.cpp 55-78). -/
def preParse (env : Env) (self : MapSection) (_sec : INIConfigSection)
    (validation : ValidationList) : MapSection × ValidationList :=
  let self := { self with name_short := self.section_name }
  let self := { self with name_long := self.name_short }
  let self := { self with rendermode := self.rendermode.setDefault "daylight" }
  let self := { self with rotations := self.rotations.setDefault "top-left" }
  let texture_dir_found := env.findTextureDir
  let self :=
    if texture_dir_found ≠ "" then
      { self with texture_dir := self.texture_dir.setDefault texture_dir_found }
    else self
  let self := { self with texture_size := self.texture_size.setDefault 12 }
  let self := { self with image_format := self.image_format.setDefault ImageFormat.PNG }
  let self := { self with jpeg_quality := self.jpeg_quality.setDefault 85 }
  let self := { self with lighting_intensity := self.lighting_intensity.setDefault 1 }
  let self := { self with
    render_unknown_blocks := self.render_unknown_blocks.setDefault false }
  let self := { self with
    render_leaves_transparent := self.render_leaves_transparent.setDefault true }
  let self := { self with render_biomes := self.render_biomes.setDefault true }
  let self := { self with use_image_mtimes := self.use_image_mtimes.setDefault true }
  (self, validation)

/-- `MapSection::parseField` (map.cpp 80-128). -/
def parseField (env : Env) (self : MapSection) (key value : String)
    (validation : ValidationList) : Bool × MapSection × ValidationList :=
  if key = "name" then
    (true, { self with name_long := value }, validation)
  else if key = "world" then
    let r := self.world.load env.asString key value validation
    (true, { self with world := r.2.1 }, r.2.2)
  else if key = "rendermode" then
    let r := self.rendermode.load env.asString key value validation
    let self := { self with rendermode := r.2.1 }
    if r.1 then
      let rm := self.rendermode.getValue ""
      if rm ≠ "plain" ∧ rm ≠ "daylight" ∧ rm ≠ "nightlight" ∧ rm ≠ "cave" then
        (true, self, r.2.2 ++ [ValidationMessage.error
          "'rendermode' must be one of: 'plain', 'daylight', 'nightlight', 'cave'"])
      else (true, self, r.2.2)
    else (true, self, r.2.2)
  else if key = "rotations" then
    let r := self.rotations.load env.asString key value validation
    (true, { self with rotations := r.2.1 }, r.2.2)
  else if key = "texture_dir" then
    let r := self.texture_dir.load env.asPath key value validation
    let self := { self with texture_dir := r.2.1 }
    if r.1 then
      let self := { self with texture_dir :=
        self.texture_dir.setValue (env.absolute (self.texture_dir.getValue "") self.config_dir) }
      if !env.isDirectory (self.texture_dir.getValue "") then
        (true, self, r.2.2 ++ [ValidationMessage.error
          ("'texture_dir' must be an existing directory! '"
            ++ self.texture_dir.getValue "" ++ "' does not exist!")])
      else (true, self, r.2.2)
    else (true, self, r.2.2)
  else if key = "texture_size" then
    let r := self.texture_size.load env.asInt key value validation
    let self := { self with texture_size := r.2.1 }
    if r.1 && (decide (self.texture_size.getValue 12 ≤ 0)
        || decide (self.texture_size.getValue 12 > 32)) then
      (true, self, r.2.2 ++ [ValidationMessage.error
        "'texture_size' must a number between 1 and 32!"])
    else (true, self, r.2.2)
  else if key = "image_format" then
    let r := self.image_format.load asImageFormat key value validation
    (true, { self with image_format := r.2.1 }, r.2.2)
  else if key = "jpeg_quality" then
    let r := self.jpeg_quality.load env.asInt key value validation
    let self := { self with jpeg_quality := r.2.1 }
    if r.1 && (decide (self.jpeg_quality.getValue 0 < 0)
        || decide (self.jpeg_quality.getValue 0 > 100)) then
      (true, self, r.2.2 ++ [ValidationMessage.error
        "'jpeg_quality' must be a number between 0 and 100!"])
    else (true, self, r.2.2)
  else if key = "lighting_intensity" then
    let r := self.lighting_intensity.load env.asDouble key value validation
    (true, { self with lighting_intensity := r.2.1 }, r.2.2)
  else if key = "render_unknown_blocks" then
    let r := self.render_unknown_blocks.load env.asBool key value validation
    (true, { self with render_unknown_blocks := r.2.1 }, r.2.2)
  else if key = "render_leaves_transparent" then
    let r := self.render_leaves_transparent.load env.asBool key value validation
    (true, { self with render_leaves_transparent := r.2.1 }, r.2.2)
  else if key = "render_biomes" then
    let r := self.render_biomes.load env.asBool key value validation
    (true, { self with render_biomes := r.2.1 }, r.2.2)
  else if key = "use_image_mtimes" then
    let r := self.use_image_mtimes.load env.asBool key value validation
    (true, { self with use_image_mtimes := r.2.1 }, r.2.2)
  else (false, self, validation)

/-- One turn of the token loop of `postParse` (map.cpp 138-144): a valid rotation is
inserted in the set, an invalid one gives an Error. -/
def rotationStep (env : Env) (acc : List Int × ValidationList) (elem : String) :
    List Int × ValidationList :=
  let r := env.stringToRotation elem
  if r ≠ -1 then (setInsert r acc.1, acc.2)
  else (acc.1, acc.2 ++ [ValidationMessage.error ("Invalid rotation '" ++ elem ++ "'!")])

/-- `MapSection::postParse` (map.cpp 130-151). -/
def postParse (env : Env) (self : MapSection) (_sec : INIConfigSection)
    (validation : ValidationList) : MapSection × ValidationList :=
  let self := { self with rotations_set := [] }
  let str := self.rotations.getValue ""
  let t := (tokens str).foldl (rotationStep env) (self.rotations_set, validation)
  let self := { self with rotations_set := t.1 }
  let validation := t.2
  if !self.global then
    let validation := (self.world.require validation "You have to specify a world ('world')!").2
    let validation := (self.texture_dir.require validation
      "You have to specify a texture directory ('texture_dir')!").2
    (self, validation)
  else (self, validation)

/-- `MapSection` as a section class: the base class stores `section_name`, the three
phases are those of map.cpp. -/
def cls (env : Env) : SectionClass MapSection where
  setSectionName := fun self n => { self with section_name := n }
  preParse := preParse env
  parseField := parseField env
  postParse := postParse env

/-- `MapSection::parse` (inherited from the base class). -/
def parse (env : Env) (self : MapSection) (sec : INIConfigSection)
    (validation : ValidationList) : Bool × MapSection × ValidationList :=
  sectionParse (cls env) self sec validation

end MapSection

/-! ## MapcrafterConfig (mapcrafterconfig.cpp) -/

/-- The world and marker section classes, whose sources (sections/world.cpp,
sections/marker.cpp) are not available: their object types `W` and `M` and the operations
the orchestrator uses on them. -/
structure Sections (W M : Type) where
  /-- `WorldSection` as a section class. -/
  world : SectionClass W
  /-- `WorldSection::setGlobal`. -/
  worldSetGlobal : W → Bool → W
  /-- `WorldSection::setConfigDir`. -/
  worldSetConfigDir : W → String → W
  /-- `MarkerSection` as a section class. -/
  marker : SectionClass M
  /-- `MarkerSection::setGlobal`. -/
  markerSetGlobal : M → Bool → M
  /-- `MarkerSection::getShortName`. -/
  markerShortName : M → String

/-- `MapcrafterConfig`: the general fields, the three global sections, and the accepted
worlds (`std::map`, kept as a list of pairs with distinct keys), maps and markers
(`std::vector`). -/
structure MapcrafterConfig (W M : Type) where
  output_dir : Field String
  template_dir : Field String
  background_color : Field Color
  world_global : W
  map_global : MapSection
  marker_global : M
  worlds : List (String × W)
  maps : List MapSection
  markers : List M

/-- `worlds.count(key)` as a truth value. -/
def mapCount {β : Type} (m : List (String × β)) (key : String) : Bool :=
  m.any (fun e => decide (e.1 = key))

/-- `worlds[key] = v`: replaces the value under an existing key, else adds the pair. -/
def mapSet {β : Type} : List (String × β) → String → β → List (String × β)
  | [], key, v => [(key, v)]
  | e :: rest, key, v => if e.1 = key then (key, v) :: rest else e :: mapSet rest key v

/-- `worlds.find(key)`: the value stored under a key, if any. -/
def mapFind {β : Type} : List (String × β) → String → Option β
  | [], _ => none
  | e :: rest, key => if e.1 = key then some e.2 else mapFind rest key

/-- What `parse` leaves behind: its return value, the configuration object and the
validation report. -/
structure PState (W M : Type) where
  ok : Bool
  cfg : MapcrafterConfig W M
  validation : ValidationMap

namespace MapcrafterConfig

variable {W M : Type}

/-- `MapcrafterConfig::MapcrafterConfig()` (mapcrafterconfig.cpp 51-53): `world_global` and
`map_global` are constructed as global sections, nothing is loaded and the collections are
empty. `w0` is the world section as its constructor builds it for `global = true` and `k0`
the marker section as its default constructor builds it. -/
def new (w0 : W) (k0 : M) : MapcrafterConfig W M :=
  { output_dir := Field.new, template_dir := Field.new, background_color := Field.new,
    world_global := w0, map_global := MapSection.new true, marker_global := k0,
    worlds := [], maps := [], markers := [] }

/-- `MapcrafterConfig::hasWorld` (285-287). -/
def hasWorld (c : MapcrafterConfig W M) (world : String) : Bool := mapCount c.worlds world

/-- `MapcrafterConfig::hasMap` (298-303). -/
def hasMap (c : MapcrafterConfig W M) (map : String) : Bool :=
  c.maps.any (fun m => decide (m.getShortName = map))

/-- `MapcrafterConfig::hasMarker` (316-321). -/
def hasMarker (K : Sections W M) (c : MapcrafterConfig W M) (marker : String) : Bool :=
  c.markers.any (fun m => decide (K.markerShortName m = marker))

/-- One turn of the root-key loop (78-99). -/
def rootEntry (env : Env) (config_dir : String)
    (acc : MapcrafterConfig W M × ValidationList) (entry : String × String) :
    MapcrafterConfig W M × ValidationList :=
  let c := acc.1
  let general_msgs := acc.2
  let key := entry.1
  let value := entry.2
  if key = "output_dir" then
    let r := c.output_dir.load env.asPath key value general_msgs
    let c := { c with output_dir := r.2.1 }
    if r.1 then
      ({ c with output_dir :=
          c.output_dir.setValue (env.absolute (c.output_dir.getValue "") config_dir) }, r.2.2)
    else (c, r.2.2)
  else if key = "template_dir" then
    let r := c.template_dir.load env.asPath key value general_msgs
    let c := { c with template_dir := r.2.1 }
    if r.1 then
      let c := { c with template_dir :=
        c.template_dir.setValue (env.absolute (c.template_dir.getValue "") config_dir) }
      if !env.isDirectory (c.template_dir.getValue "") then
        (c, r.2.2 ++ [ValidationMessage.error
          ("'template_dir' must be an existing directory! '"
            ++ c.template_dir.getValue "" ++ "' does not exist!")])
      else (c, r.2.2)
    else (c, r.2.2)
  else if key = "background_color" then
    let r := c.background_color.load asColor key value general_msgs
    ({ c with background_color := r.2.1 }, r.2.2)
  else
    (c, general_msgs ++ [ValidationMessage.warning
      ("Unknown configuration option '" ++ key ++ "'!")])

/-- The root keys (68-107): defaults, the key loop, the two `require` calls and the
"Configuration file" scope. Only a failed `output_dir.require` clears `ok`. -/
def parseGeneral (env : Env) (config : INIConfig) (config_dir : String)
    (c : MapcrafterConfig W M) (validation : ValidationMap) : PState W M :=
  let ok := true
  let general_msgs : ValidationList := []
  let has_default_template := decide (env.findTemplateDir ≠ "")
  let c :=
    if has_default_template then
      { c with template_dir := c.template_dir.setDefault env.findTemplateDir }
    else c
  let c := { c with
    background_color := c.background_color.setDefault ⟨"#DDDDDD", 0xDD, 0xDD, 0xDD⟩ }
  let a := config.root.entries.foldl (rootEntry env config_dir) (c, general_msgs)
  let r := a.1.output_dir.require a.2 "You have to specify an output directory ('output_dir')!"
  let ok := if !r.1 then false else ok
  let general_msgs :=
    if !has_default_template then
      (a.1.template_dir.require r.2
        "You have to specify a template directory ('template_dir')!").2
    else r.2
  let validation :=
    if general_msgs ≠ [] then validation ++ [("Configuration file", general_msgs)]
    else validation
  ⟨ok, a.1, validation⟩

/-- The body of `if (config.hasSection("global", "worlds"))` up to the scope entry
(110-114). -/
def globalWorlds (K : Sections W M) (config : INIConfig) (config_dir : String)
    (st : PState W M) : PState W M :=
  let msgs : ValidationList := []
  let world_global := K.worldSetConfigDir st.cfg.world_global config_dir
  let r := sectionParse K.world world_global (config.getSection "global" "worlds") msgs
  let ok := r.1 && st.ok
  let validation :=
    if r.2.2 ≠ [] then st.validation ++ [("Global world configuration", r.2.2)]
    else st.validation
  ⟨ok, { st.cfg with world_global := r.2.1 }, validation⟩

/-- The body of `if (config.hasSection("global", "maps"))` up to the scope entry
(120-124). -/
def globalMaps (env : Env) (config : INIConfig) (config_dir : String)
    (st : PState W M) : PState W M :=
  let msgs : ValidationList := []
  let map_global := st.cfg.map_global.setConfigDir config_dir
  let r := MapSection.parse env map_global (config.getSection "global" "maps") msgs
  let ok := r.1 && st.ok
  let validation :=
    if r.2.2 ≠ [] then st.validation ++ [("Global map configuration", r.2.2)]
    else st.validation
  ⟨ok, { st.cfg with map_global := r.2.1 }, validation⟩

/-- The body of `if (config.hasSection("global", "markers"))` up to the scope entry
(130-133). -/
def globalMarkers (K : Sections W M) (config : INIConfig) (st : PState W M) : PState W M :=
  let msgs : ValidationList := []
  let r := sectionParse K.marker st.cfg.marker_global (config.getSection "global" "markers") msgs
  let ok := r.1 && st.ok
  let validation :=
    if r.2.2 ≠ [] then st.validation ++ [("Global marker configuration", r.2.2)]
    else st.validation
  ⟨ok, { st.cfg with marker_global := r.2.1 }, validation⟩

/-- Lines 109-117: the flag says whether `return false` was taken. -/
def stageWorlds (K : Sections W M) (config : INIConfig) (config_dir : String)
    (st : PState W M) : Bool × PState W M :=
  if config.hasSection "global" "worlds" then
    let s := globalWorlds K config config_dir st
    (!s.ok, s)
  else (false, st)

/-- Lines 119-127: the flag says whether `return false` was taken. -/
def stageMaps (env : Env) (config : INIConfig) (config_dir : String)
    (st : PState W M) : Bool × PState W M :=
  if config.hasSection "global" "maps" then
    let s := globalMaps env config config_dir st
    (!s.ok, s)
  else (false, st)

/-- Lines 129-136: the flag says whether `return false` was taken. -/
def stageMarkers (K : Sections W M) (config : INIConfig) (st : PState W M) :
    Bool × PState W M :=
  if config.hasSection "global" "markers" then
    let s := globalMarkers K config st
    (!s.ok, s)
  else (false, st)

/-- The three global sections (109-136). The flag says whether one of the three
`return false` statements was taken; the state is the one reached at that point. -/
def parseGlobals (env : Env) (K : Sections W M) (config : INIConfig) (config_dir : String)
    (st : PState W M) : Bool × PState W M :=
  let a := stageWorlds K config config_dir st
  if a.1 then a
  else
    let b := stageMaps env config config_dir a.2
    if b.1 then b
    else stageMarkers K config b.2

/-- One turn of the unknown-type scan (140-147). -/
def unknownStep (validation : ValidationMap) (it : INIConfigSection) : ValidationMap :=
  if it.type ≠ "world" ∧ it.type ≠ "map" ∧ it.type ≠ "marker"
      ∧ it.getNameType ≠ "global:worlds"
      ∧ it.getNameType ≠ "global:maps"
      ∧ it.getNameType ≠ "global:markers" then
    validation ++ [("Section '" ++ it.name ++ "' with type '" ++ it.type ++ "'",
      makeValidationList (ValidationMessage.warning "Unknown section type!"))]
  else validation

/-- The world section object built for a raw section (152-156): a copy of the global
world section, made non-global, given the config directory, then parsed. -/
def buildWorld (K : Sections W M) (config_dir : String) (world_global : W)
    (it : INIConfigSection) : Bool × W × ValidationList :=
  let msgs : ValidationList := []
  let world := world_global
  let world := K.worldSetGlobal world false
  let world := K.worldSetConfigDir world config_dir
  sectionParse K.world world it msgs

/-- One turn of the world loop (149-166). -/
def worldStep (K : Sections W M) (config_dir : String) (st : PState W M)
    (it : INIConfigSection) : PState W M :=
  if it.type ≠ "world" then st
  else
    let r := buildWorld K config_dir st.cfg.world_global it
    let ok := r.1 && st.ok
    let world := r.2.1
    let msgs := r.2.2
    let t : Bool × MapcrafterConfig W M × ValidationList :=
      if st.cfg.hasWorld it.name then
        (false, st.cfg,
          msgs ++ [ValidationMessage.error ("World name '" ++ it.name ++ "' already used!")])
      else (ok, { st.cfg with worlds := mapSet st.cfg.worlds it.name world }, msgs)
    let validation :=
      if t.2.2 ≠ [] then st.validation ++ [("World section '" ++ it.name ++ "'", t.2.2)]
      else st.validation
    ⟨t.1, t.2.1, validation⟩

/-- The map section object built for a raw section (171-175): a copy of the global map
section, made non-global, given the config directory, then parsed. -/
def buildMap (env : Env) (config_dir : String) (map_global : MapSection)
    (it : INIConfigSection) : Bool × MapSection × ValidationList :=
  let msgs : ValidationList := []
  let map := map_global
  let map := map.setGlobal false
  let map := map.setConfigDir config_dir
  MapSection.parse env map it msgs

/-- One turn of the map loop (168-188). -/
def mapStep (env : Env) (config_dir : String) (st : PState W M)
    (it : INIConfigSection) : PState W M :=
  if it.type ≠ "map" then st
  else
    let r := buildMap env config_dir st.cfg.map_global it
    let ok := r.1 && st.ok
    let map := r.2.1
    let msgs := r.2.2
    let t : Bool × MapcrafterConfig W M × ValidationList :=
      if st.cfg.hasMap it.name then
        (false, st.cfg,
          msgs ++ [ValidationMessage.error ("Map name '" ++ it.name ++ "' already used!")])
      else if map.getWorld ≠ "" ∧ st.cfg.hasWorld map.getWorld = false then
        (false, st.cfg,
          msgs ++ [ValidationMessage.error ("World '" ++ map.getWorld ++ "' does not exist!")])
      else (ok, { st.cfg with maps := st.cfg.maps ++ [map] }, msgs)
    let validation :=
      if t.2.2 ≠ [] then st.validation ++ [("Map section '" ++ it.name ++ "'", t.2.2)]
      else st.validation
    ⟨t.1, t.2.1, validation⟩

/-- The marker section object built for a raw section (193-196): a copy of the global
marker section, made non-global, then parsed. -/
def buildMarker (K : Sections W M) (marker_global : M) (it : INIConfigSection) :
    Bool × M × ValidationList :=
  let msgs : ValidationList := []
  let marker := marker_global
  let marker := K.markerSetGlobal marker false
  sectionParse K.marker marker it msgs

/-- One turn of the marker loop (190-206). -/
def markerStep (K : Sections W M) (st : PState W M) (it : INIConfigSection) : PState W M :=
  if it.type ≠ "marker" then st
  else
    let r := buildMarker K st.cfg.marker_global it
    let ok := r.1 && st.ok
    let marker := r.2.1
    let msgs := r.2.2
    let t : Bool × MapcrafterConfig W M × ValidationList :=
      if hasMarker K st.cfg it.name then
        (false, st.cfg,
          msgs ++ [ValidationMessage.error ("Marker name '" ++ it.name ++ "' already used!")])
      else (ok, { st.cfg with markers := st.cfg.markers ++ [marker] }, msgs)
    let validation :=
      if t.2.2 ≠ [] then st.validation ++ [("Marker section '" ++ it.name ++ "'", t.2.2)]
      else st.validation
    ⟨t.1, t.2.1, validation⟩

/-- The unknown-type scan (140-147). -/
def unknownScan (sections : List INIConfigSection) (st : PState W M) : PState W M :=
  { st with validation := sections.foldl unknownStep st.validation }

/-- The world loop (149-166). -/
def worldPass (K : Sections W M) (config_dir : String) (sections : List INIConfigSection)
    (st : PState W M) : PState W M :=
  sections.foldl (worldStep K config_dir) st

/-- The map loop (168-188). -/
def mapPass (env : Env) (config_dir : String) (sections : List INIConfigSection)
    (st : PState W M) : PState W M :=
  sections.foldl (mapStep env config_dir) st

/-- The marker loop (190-206). -/
def markerPass (K : Sections W M) (sections : List INIConfigSection) (st : PState W M) :
    PState W M :=
  sections.foldl (markerStep K) st

/-- Lines 138-208: the unknown-type scan and the three passes over `config.getSections()`;
the `ok` of the result is what `return ok` returns. -/
def parseNamed (env : Env) (K : Sections W M) (config_dir : String)
    (sections : List INIConfigSection) (st : PState W M) : PState W M :=
  markerPass K sections
    (mapPass env config_dir sections
      (worldPass K config_dir sections (unknownScan sections st)))

/-- `MapcrafterConfig::parse(filename, validation)` (58-209) on the configuration object
`c`, appending to the report `validation`. -/
def parse (env : Env) (K : Sections W M) (filename : String) (c : MapcrafterConfig W M)
    (validation : ValidationMap) : PState W M :=
  match env.loadFile filename with
  | Except.error msg =>
      ⟨false, c, validation ++ [("Configuration file", makeValidationList msg)]⟩
  | Except.ok config =>
      let config_dir := env.parentPath filename
      let st := parseGeneral env config config_dir c validation
      let g := parseGlobals env K config config_dir st
      if g.1 then { g.2 with ok := false }
      else parseNamed env K config_dir config.sections g.2

end MapcrafterConfig

/-! ## A concrete environment

An instance of the collaborators, used to run the loader on sample files. -/

namespace Sample

/-- Decimal digits to a number; `none` on any other character or on the empty text. -/
def digits? : List Char → Option Nat
  | [] => none
  | cs => cs.foldl (fun acc c =>
      match acc with
      | none => none
      | some n => if 48 ≤ c.toNat && c.toNat ≤ 57 then some (10 * n + (c.toNat - 48)) else none)
      (some 0)

/-- A decimal integer with an optional leading minus sign. -/
def asInt (s : String) : Except String Int :=
  match s.data with
  | '-' :: cs =>
      (match digits? cs with
       | some n => Except.ok (-(n : Int))
       | none => Except.error "not a number")
  | cs =>
      (match digits? cs with
       | some n => Except.ok (n : Int)
       | none => Except.error "not a number")

/-- A non-negative decimal integer as a rational. -/
def asDouble (s : String) : Except String Rat :=
  match digits? s.data with
  | some n => Except.ok (n : Rat)
  | none => Except.error "not a number"

/-- The words "true" and "false". -/
def asBool (s : String) : Except String Bool :=
  if s = "true" then Except.ok true
  else if s = "false" then Except.ok false
  else Except.error "not a boolean"

/-- The four rotation names, in the order of `ROTATION_NAMES`. -/
def stringToRotation (s : String) : Int :=
  if s = "top-left" then 0
  else if s = "top-right" then 1
  else if s = "bottom-right" then 2
  else if s = "bottom-left" then 3
  else -1

/-- The environment in which every file name loads as `config`, every path is already
absolute, every directory but "/nowhere" exists, a default template directory is found and
no default texture directory is. -/
def env (config : INIConfig) : Env where
  loadFile := fun _ => Except.ok config
  parentPath := fun _ => "/etc/mapcrafter"
  findTemplateDir := "/usr/share/mapcrafter/template"
  findTextureDir := ""
  isDirectory := fun p => decide (p ≠ "/nowhere")
  absolute := fun p _ => p
  asString := fun s => Except.ok s
  asPath := fun s => Except.ok s
  asInt := asInt
  asDouble := asDouble
  asBool := asBool
  stringToRotation := stringToRotation

/-- A small section object for the world and marker classes of the sample: the members of
the base class, a short name and one path field. -/
structure Sec where
  section_name : String
  global : Bool
  config_dir : String
  name_short : String
  input_dir : Field String
  deriving DecidableEq, Repr

/-- The sample section class: `preParse` takes the short name from the declared name,
`parseField` knows the key `input_dir`, `postParse` requires it in a non-global section. -/
def secClass : SectionClass Sec where
  setSectionName := fun self n => { self with section_name := n }
  preParse := fun self _ v => ({ self with name_short := self.section_name }, v)
  parseField := fun self key value v =>
    if key = "input_dir" then
      let r := self.input_dir.load (fun s => Except.ok s) key value v
      (true, { self with input_dir := r.2.1 }, r.2.2)
    else (false, self, v)
  postParse := fun self _ v =>
    if !self.global then
      (self, (self.input_dir.require v "You have to specify an input directory ('input_dir')!").2)
    else (self, v)

/-- The world and marker classes of the sample. -/
def sections : Sections Sec Sec where
  world := secClass
  worldSetGlobal := fun self g => { self with global := g }
  worldSetConfigDir := fun self d => { self with config_dir := d }
  marker := secClass
  markerSetGlobal := fun self g => { self with global := g }
  markerShortName := fun self => self.name_short

/-- A freshly constructed section object of the sample. -/
def sec0 (global : Bool) : Sec := ⟨"", global, "", "", Field.new⟩

/-- A freshly constructed configuration object of the sample. -/
def fresh : MapcrafterConfig Sec Sec := MapcrafterConfig.new (sec0 true) (sec0 false)

/-- Runs `parse` on a fresh configuration and an empty report, in the sample environment
where every file name loads as `config`. -/
def run (config : INIConfig) : PState Sec Sec :=
  MapcrafterConfig.parse (env config) sections "mapcrafter.conf" fresh []

/-- A file with an output directory and a background colour that is no hex colour. -/
def badColorFile : INIConfig :=
  ⟨⟨"", "", [("output_dir", "/out"), ("background_color", "red")]⟩, []⟩

/-- A file with an output directory and a template directory that does not exist. -/
def badTemplateFile : INIConfig :=
  ⟨⟨"", "", [("output_dir", "/out"), ("template_dir", "/nowhere")]⟩, []⟩

/-- A file with one world and one map whose `texture_size` is out of range. -/
def bigTextureFile : INIConfig :=
  ⟨⟨"", "", [("output_dir", "/out")]⟩,
    [⟨"world", "w1", [("input_dir", "/data/w1")]⟩,
     ⟨"map", "m1", [("world", "w1"), ("texture_dir", "/textures"), ("texture_size", "64")]⟩]⟩

/-- Scenario A of the spec: an output directory, one world, one map that refers to it. -/
def scenarioA : INIConfig :=
  ⟨⟨"", "", [("output_dir", "/tmp/out")]⟩,
    [⟨"world", "w1", [("input_dir", "/data/w1")]⟩,
     ⟨"map", "m1", [("world", "w1"), ("texture_dir", "/textures")]⟩]⟩

/-- A file whose global map section has a `texture_size` out of range, followed by two
world sections of the same name. -/
def globalErrorFile : INIConfig :=
  ⟨⟨"", "", [("output_dir", "/out")]⟩,
    [⟨"global", "maps", [("texture_size", "64")]⟩,
     ⟨"world", "w", [("input_dir", "/a")]⟩,
     ⟨"world", "w", [("input_dir", "/b")]⟩]⟩

/-- A file without `output_dir`, with an empty section `global:maps`, one world section and
one map section that has an unknown key. -/
def noOutputDirFile : INIConfig :=
  ⟨⟨"", "", []⟩,
    [⟨"global", "maps", []⟩,
     ⟨"world", "w1", [("input_dir", "/data/w1")]⟩,
     ⟨"map", "m1", [("world", "w1"), ("texture_dir", "/t"), ("foo", "bar")]⟩]⟩

/-- The same file with `output_dir` specified. -/
def withOutputDirFile : INIConfig :=
  ⟨⟨"", "", [("output_dir", "/out")]⟩,
    [⟨"global", "maps", []⟩,
     ⟨"world", "w1", [("input_dir", "/data/w1")]⟩,
     ⟨"map", "m1", [("world", "w1"), ("texture_dir", "/t"), ("foo", "bar")]⟩]⟩

/-- The file without `output_dir` and without the empty section `global:maps`. -/
def noOutputDirNoGlobalFile : INIConfig :=
  ⟨⟨"", "", []⟩,
    [⟨"world", "w1", [("input_dir", "/data/w1")]⟩,
     ⟨"map", "m1", [("world", "w1"), ("texture_dir", "/t"), ("foo", "bar")]⟩]⟩

/-- A file with one map section that does not say which world it shows. -/
def missingWorldFile : INIConfig :=
  ⟨⟨"", "", [("output_dir", "/out")]⟩, [⟨"map", "m1", [("texture_dir", "/t")]⟩]⟩

/-- A file whose global map section has a `texture_size` out of range, followed by a world
and a map that refers to a world that is not in the file. -/
def globalErrorDanglingFile : INIConfig :=
  ⟨⟨"", "", [("output_dir", "/out")]⟩,
    [⟨"global", "maps", [("texture_size", "64")]⟩,
     ⟨"world", "w1", [("input_dir", "/data/w1")]⟩,
     ⟨"map", "m1", [("world", "missing"), ("texture_dir", "/textures")]⟩]⟩

/-- A world section named `w`. -/
def worldW1 : INIConfigSection := ⟨"world", "w", [("input_dir", "/a")]⟩

/-- A second world section named `w`. -/
def worldW2 : INIConfigSection := ⟨"world", "w", [("input_dir", "/b")]⟩

/-- A world section named `v`. -/
def worldV : INIConfigSection := ⟨"world", "v", [("input_dir", "/c")]⟩

/-- A file with two world sections of the same name and a third world after them. -/
def twoWorldsFile : INIConfig := ⟨⟨"", "", [("output_dir", "/out")]⟩, [worldW1, worldW2, worldV]⟩

/-- A map section without a `texture_size` key. -/
def mapPlain : INIConfigSection := ⟨"map", "m1", [("world", "w1"), ("texture_dir", "/t")]⟩

/-- A map section with `texture_size = 8`. -/
def mapEight : INIConfigSection :=
  ⟨"map", "m2", [("world", "w1"), ("texture_dir", "/t"), ("texture_size", "8")]⟩

/-- A file whose global map section sets `texture_size = 16`, with one map that does not
set it and one that sets it to 8. -/
def inheritFile : INIConfig :=
  ⟨⟨"", "", [("output_dir", "/out")]⟩,
    [⟨"global", "maps", [("texture_size", "16")]⟩,
     ⟨"world", "w1", [("input_dir", "/data/w1")]⟩, mapPlain, mapEight]⟩

/-- The first map stored for `inheritFile`. -/
def mapInherited : MapSection := (run inheritFile).cfg.maps.headD (MapSection.new false)

/-- The map stored for `bigTextureFile`. -/
def mapBig : MapSection := (run bigTextureFile).cfg.maps.headD (MapSection.new false)

/-- A file with two maps of the same name and three markers, two of the same name. -/
def namesFile : INIConfig :=
  ⟨⟨"", "", [("output_dir", "/out")]⟩,
    [⟨"map", "m", [("texture_dir", "/t"), ("world", "")]⟩,
     ⟨"map", "m", [("texture_dir", "/t"), ("world", "")]⟩,
     ⟨"marker", "a", [("input_dir", "/a")]⟩,
     ⟨"marker", "a", [("input_dir", "/a")]⟩,
     ⟨"marker", "b", [("input_dir", "/b")]⟩]⟩

/-- The map section of scenario B. -/
def mapB : INIConfigSection :=
  ⟨"map", "m1", [("world", "missing"), ("texture_dir", "/textures")]⟩

/-- The world section of scenarios A and B. -/
def worldAB : INIConfigSection := ⟨"world", "w1", [("input_dir", "/data/w1")]⟩

/-- Scenario B of the spec: as scenario A, but the map refers to a world that is not in
the file. -/
def scenarioB : INIConfig := ⟨⟨"", "", [("output_dir", "/tmp/out")]⟩, [worldAB, mapB]⟩

/-- The map stored by scenario A. -/
def mapA : MapSection := (run scenarioA).cfg.maps.headD (MapSection.new false)

/-- A map section object whose `rotations` field holds a list with two invalid tokens and a
repeated valid one, and which carries a rotations set inherited from elsewhere. -/
def mapRotations : MapSection :=
  { MapSection.new false with
    rotations := (Field.new : Field String).setValue "top-right  sideways top-left\ttop-right up"
    rotations_set := [3] }

/-- A file whose global map section has a `texture_size` out of range, followed by a section
of unknown type. -/
def globalErrorUnknownFile : INIConfig :=
  ⟨⟨"", "", [("output_dir", "/out")]⟩,
    [⟨"global", "maps", [("texture_size", "64")]⟩, ⟨"foo", "bar", []⟩]⟩

/-- A file with a world, a section of unknown type and a map with an unknown key. -/
def unknownSectionFile : INIConfig :=
  ⟨⟨"", "", [("output_dir", "/out")]⟩,
    [⟨"world", "w1", [("input_dir", "/data/w1")]⟩,
     ⟨"foo", "bar", [("x", "y")]⟩,
     ⟨"map", "m1", [("world", "w1"), ("texture_dir", "/t"), ("foo", "bar")]⟩]⟩

/-- A file with an unknown root key between two known ones, the second of them invalid. -/
def unknownKeyFile : INIConfig :=
  ⟨⟨"", "", [("output_dir", "/out"), ("foo", "bar"), ("background_color", "red")]⟩,
    [⟨"world", "w1", [("input_dir", "/data/w1")]⟩]⟩

/-- A file whose only root key besides `output_dir` is unknown. -/
def onlyUnknownKeyFile : INIConfig :=
  ⟨⟨"", "", [("output_dir", "/out"), ("foo", "bar")]⟩,
    [⟨"world", "w1", [("input_dir", "/data/w1")]⟩]⟩

/-- A file whose global map section has a `texture_size` out of range, followed by a world
and two map sections of the same name that both refer to that world. -/
def globalErrorMapsFile : INIConfig :=
  ⟨⟨"", "", [("output_dir", "/out")]⟩,
    [⟨"global", "maps", [("texture_size", "64")]⟩,
     ⟨"world", "w1", [("input_dir", "/data/w1")]⟩,
     ⟨"map", "m", [("world", "w1"), ("texture_dir", "/t")]⟩,
     ⟨"map", "m", [("world", "w1"), ("texture_dir", "/t")]⟩]⟩

/-- A map section named `m` whose world does not exist. -/
def mapDangling : INIConfigSection :=
  ⟨"map", "m", [("world", "missing"), ("texture_dir", "/t")]⟩

/-- A map section named `m` of the world `w1`. -/
def mapFirst : INIConfigSection := ⟨"map", "m", [("world", "w1"), ("texture_dir", "/t")]⟩

/-- Another map section named `m` of the world `w1`, with another texture directory. -/
def mapSecond : INIConfigSection := ⟨"map", "m", [("world", "w1"), ("texture_dir", "/u")]⟩

/-- A map section named `k` that comes before the world section of the file. -/
def mapEarly : INIConfigSection := ⟨"map", "k", [("world", "w1"), ("texture_dir", "/t")]⟩

/-- A file with a map `k`, the world `w1`, and three map sections named `m`: the first
refers to a world that does not exist, the other two to `w1`. -/
def sameNameMapsFile : INIConfig :=
  ⟨⟨"", "", [("output_dir", "/out")]⟩, [mapEarly, worldAB, mapDangling, mapFirst, mapSecond]⟩

end Sample

/-! ## Predicates used in the statements -/

/-- The state in which the map loop reaches the section that follows `pre` in the section
list `L`, when the named passes were entered in state `st`: the unknown-type scan and the
world loop have run over `L`, the map loop over `pre`. -/
def MapcrafterConfig.beforeMap {W M : Type} (env : Env) (K : Sections W M) (d : String)
    (L pre : List INIConfigSection) (st : PState W M) : PState W M :=
  pre.foldl (MapcrafterConfig.mapStep env d)
    (MapcrafterConfig.worldPass K d L (MapcrafterConfig.unknownScan L st))

/-- The labels of the scopes that are recorded before the named sections are looked at:
the root keys and the three global sections. -/
def isGlobalLabel (label : String) : Prop :=
  label = "Configuration file" ∨ label = "Global world configuration" ∨
    label = "Global map configuration" ∨ label = "Global marker configuration"

/-- The value of the last entry of a raw section with the given key, if it has one. -/
def lastValue : List (String × String) → String → Option String
  | [], _ => none
  | e :: rest, key =>
      match lastValue rest key with
      | some v => some v
      | none => if e.1 = key then some e.2 else none

namespace MapcrafterConfig

variable {W M : Type}

/-- The state `st'` comes after `st` in the named passes: the global sections and
general fields are the same, the report was only appended to, a cleared `ok` stays
cleared, and what was stored is still stored, in place. -/
structure After (st st' : PState W M) : Prop where
  world_global : st'.cfg.world_global = st.cfg.world_global
  map_global : st'.cfg.map_global = st.cfg.map_global
  marker_global : st'.cfg.marker_global = st.cfg.marker_global
  output_dir : st'.cfg.output_dir = st.cfg.output_dir
  template_dir : st'.cfg.template_dir = st.cfg.template_dir
  background_color : st'.cfg.background_color = st.cfg.background_color
  report : ∃ ext, st'.validation = st.validation ++ ext
  ok : st.ok = false → st'.ok = false
  worlds : ∀ k w, mapFind st.cfg.worlds k = some w → mapFind st'.cfg.worlds k = some w
  maps : ∃ ext, st'.cfg.maps = st.cfg.maps ++ ext
  markers : ∃ ext, st'.cfg.markers = st.cfg.markers ++ ext

/-- The stored world `e` (a pair of `worlds`) is the object built from a world section of the
file under its declared name, the scope of that section holds exactly the messages of its
section parse (no scope when there are none), and an Error among them has cleared `ok`. -/
def AcceptedWorld (K : Sections W M) (d : String) (L : List INIConfigSection)
    (st : PState W M) (e : String × W) : Prop :=
  ∃ it ∈ L, it.type = "world" ∧ e.1 = it.name ∧
    e.2 = (buildWorld K d st.cfg.world_global it).2.1 ∧
    ((buildWorld K d st.cfg.world_global it).2.2 = [] ∨
      ("World section '" ++ it.name ++ "'", (buildWorld K d st.cfg.world_global it).2.2)
        ∈ st.validation) ∧
    (hasError (buildWorld K d st.cfg.world_global it).2.2 = true → st.ok = false)

/-- The stored map `m` is the object built from a map section of the file, the scope of
that section holds exactly the messages of its section parse (no scope when there are
none), and an Error among them has cleared `ok`. -/
def AcceptedMap (env : Env) (d : String) (L : List INIConfigSection)
    (st : PState W M) (m : MapSection) : Prop :=
  ∃ it ∈ L, it.type = "map" ∧
    m = (buildMap env d st.cfg.map_global it).2.1 ∧
    ((buildMap env d st.cfg.map_global it).2.2 = [] ∨
      ("Map section '" ++ it.name ++ "'", (buildMap env d st.cfg.map_global it).2.2)
        ∈ st.validation) ∧
    (hasError (buildMap env d st.cfg.map_global it).2.2 = true → st.ok = false)

/-- The stored marker `m` is the object built from a marker section of the file, the scope
of that section holds exactly the messages of its section parse (no scope when there are
none), and an Error among them has cleared `ok`. -/
def AcceptedMarker (K : Sections W M) (L : List INIConfigSection)
    (st : PState W M) (m : M) : Prop :=
  ∃ it ∈ L, it.type = "marker" ∧
    m = (buildMarker K st.cfg.marker_global it).2.1 ∧
    ((buildMarker K st.cfg.marker_global it).2.2 = [] ∨
      ("Marker section '" ++ it.name ++ "'", (buildMarker K st.cfg.marker_global it).2.2)
        ∈ st.validation) ∧
    (hasError (buildMarker K st.cfg.marker_global it).2.2 = true → st.ok = false)

end MapcrafterConfig

/-- The report `v'` is the report `v` with scope entries appended, each of which holds at
least one message. -/
def Grows (v v' : ValidationMap) : Prop :=
  ∃ ext : ValidationMap, v' = v ++ ext ∧ ∀ e ∈ ext, e.2 ≠ []

/-- A cleared `ok` is backed by an Error in the report. -/
def FailureReported {W M : Type} (st : PState W M) : Prop :=
  st.ok = false → reportHasError st.validation = true

/-- The Errors that the token loop of `MapSection::postParse` is said to give for a
rotations string: one "Invalid rotation '<token>'!" per whitespace-separated token for which
`stringToRotation` returns -1, in token order. -/
def invalidRotationErrors (env : Env) (str : String) : ValidationList :=
  ((tokens str).filter (fun t => decide (env.stringToRotation t = -1))).map
    (fun t => ValidationMessage.error ("Invalid rotation '" ++ t ++ "'!"))

/-- A field has neither a loaded value nor a default. -/
def Field.isUnset {T : Type} (f : Field T) : Bool := f.value.isNone && f.defaultValue.isNone

/-- The value of a hexadecimal digit as the spec words it: its place among the sixteen
digits `0123456789abcdef`, upper and lower case alike. -/
def base16Digit (c : Char) : Nat := "0123456789abcdef".data.indexOf c.toLower

/-- The base-16 value of a pair of characters. -/
def base16Pair (a b : Char) : Int := 16 * (base16Digit a : Int) + (base16Digit b : Int)

/-- The rest of `parse` once the root keys are done (lines 109-208): the global sections,
then either `return false` or the named passes. -/
def MapcrafterConfig.afterRoot {W M : Type} (env : Env) (K : Sections W M) (config : INIConfig)
    (d : String) (st : PState W M) : PState W M :=
  if (MapcrafterConfig.parseGlobals env K config d st).1 then
    { (MapcrafterConfig.parseGlobals env K config d st).2 with ok := false }
  else
    MapcrafterConfig.parseNamed env K d config.sections
      (MapcrafterConfig.parseGlobals env K config d st).2

/-- A part of `parse` does not read the report: what it returns, what it stores and what
it appends are the same whatever the report holds when it starts. -/
def ReportBlind {W M : Type} (f : PState W M → PState W M) : Prop :=
  ∀ (ok : Bool) (cfg : MapcrafterConfig W M) (v : ValidationMap),
    f ⟨ok, cfg, v⟩ =
      ⟨(f ⟨ok, cfg, []⟩).ok, (f ⟨ok, cfg, []⟩).cfg, v ++ (f ⟨ok, cfg, []⟩).validation⟩

/-- A section of unknown type: its type is none of world, map, marker and its type:name is
none of global:worlds, global:maps, global:markers. -/
def isUnknownSection (s : INIConfigSection) : Bool :=
  decide (s.type ≠ "world" ∧ s.type ≠ "map" ∧ s.type ≠ "marker"
    ∧ s.getNameType ≠ "global:worlds" ∧ s.getNameType ≠ "global:maps"
    ∧ s.getNameType ≠ "global:markers")

/-- The scope said to be recorded for a section of unknown type. -/
def unknownScope (s : INIConfigSection) : String × ValidationList :=
  ("Section '" ++ s.name ++ "' with type '" ++ s.type ++ "'",
    [ValidationMessage.warning "Unknown section type!"])

/-- The file without its sections of unknown type. -/
def withoutUnknown (config : INIConfig) : INIConfig :=
  { config with sections := config.sections.filter (fun s => !isUnknownSection s) }

/-- The file without the root entry that follows `pre`. -/
def withRootEntries (config : INIConfig) (entries : List (String × String)) : INIConfig :=
  { config with root := { config.root with entries := entries } }

/-- The labels of the scopes of world, map and marker sections. -/
def isNamedLabel (label : String) : Prop :=
  ∃ name : String, label = "World section '" ++ name ++ "'" ∨
    label = "Map section '" ++ name ++ "'" ∨ label = "Marker section '" ++ name ++ "'"

/-- The environment of the sample in which the file `stripped.conf` is `config` without its
sections of unknown type, and every other file name loads as `config`. -/
def Sample.envStripped (config : INIConfig) : Env :=
  { Sample.env config with
    loadFile := fun f =>
      if f = "stripped.conf" then Except.ok (withoutUnknown config) else Except.ok config }

/-- A stage that may end the parse does not read the report: whether it ends the parse,
what it returns, what it stores and what it appends are the same whatever the report holds
when it starts. -/
def StageBlind {W M : Type} (s : PState W M → Bool × PState W M) : Prop :=
  ∀ (ok : Bool) (cfg : MapcrafterConfig W M) (v : ValidationMap),
    s ⟨ok, cfg, v⟩ =
      ((s ⟨ok, cfg, []⟩).1,
        ⟨(s ⟨ok, cfg, []⟩).2.ok, (s ⟨ok, cfg, []⟩).2.cfg, v ++ (s ⟨ok, cfg, []⟩).2.validation⟩)

/-- The environment of the sample in which the file `removed.conf` is `config` with the
root entries `entries`, and every other file name loads as `config`. -/
def Sample.envRemoved (config : INIConfig) (entries : List (String × String)) : Env :=
  { Sample.env config with
    loadFile := fun f =>
      if f = "removed.conf" then Except.ok (withRootEntries config entries)
      else Except.ok config }

/-- The world-existence check of the map loop (181-183) on the map object built for the
section `it` from the global map section `G`, against the worlds `worlds`: it is passed when
the map names no world or names a stored one. -/
def mapWorldOK {W : Type} (env : Env) (d : String) (G : MapSection)
    (worlds : List (String × W)) (it : INIConfigSection) : Bool :=
  decide ((MapcrafterConfig.buildMap env d G it).2.1.getWorld = "") ||
    mapCount worlds (MapcrafterConfig.buildMap env d G it).2.1.getWorld

/-- Whether the sections `pre` hold a map section of the name `name` that passes the
world-existence check `worldOK`. -/
def passedEarlier (worldOK : INIConfigSection → Bool) (pre : List INIConfigSection)
    (name : String) : Bool :=
  pre.any (fun x => decide (x.type = "map") && decide (x.name = name) && worldOK x)

/-- Follows the words of the specification: the map sections of a file that are stored, in
file order. Going through the sections after the sections `pre`, a section is kept when it
is of type `map`, passes the world-existence check `worldOK`, and no earlier map section of
its name passes it ("among map sections sharing a name, only the earliest one that passes
the world-existence check is stored"). -/
def storedMapSections (worldOK : INIConfigSection → Bool) :
    List INIConfigSection → List INIConfigSection → List INIConfigSection
  | _, [] => []
  | pre, s :: rest =>
      if s.type = "map" ∧ worldOK s = true ∧ passedEarlier worldOK pre s.name = false then
        s :: storedMapSections worldOK (pre ++ [s]) rest
      else storedMapSections worldOK (pre ++ [s]) rest

/-- What a turn records for a section whose cross-section checks pass: the messages of its
own section parse under its label, and nothing when there are none. -/
def ownScope (label : String) (msgs : ValidationList) : ValidationMap :=
  if msgs ≠ [] then [(label, msgs)] else []

/-- The state in which the world loop starts (line 149), for a file that loaded as `config`
and a parse that got past the global sections. -/
def MapcrafterConfig.beforeWorlds {W M : Type} (env : Env) (K : Sections W M)
    (config : INIConfig) (d : String) (c : MapcrafterConfig W M) : PState W M :=
  MapcrafterConfig.unknownScan config.sections
    (MapcrafterConfig.parseGlobals env K config d
      (MapcrafterConfig.parseGeneral env config d c [])).2

/-- The state in which the map loop starts (line 168). -/
def MapcrafterConfig.beforeMaps {W M : Type} (env : Env) (K : Sections W M)
    (config : INIConfig) (d : String) (c : MapcrafterConfig W M) : PState W M :=
  MapcrafterConfig.worldPass K d config.sections (MapcrafterConfig.beforeWorlds env K config d c)

/-- The state in which the marker loop starts (line 190). -/
def MapcrafterConfig.beforeMarkers {W M : Type} (env : Env) (K : Sections W M)
    (config : INIConfig) (d : String) (c : MapcrafterConfig W M) : PState W M :=
  MapcrafterConfig.mapPass env d config.sections (MapcrafterConfig.beforeMaps env K config d c)

/-- The entry `e` of the worlds was stored by the turn of a world section `it` of the world
loop over `L` started in `S0`, and that turn passed the cross-section check: when the loop
reached `it` (after the sections `pre`) no world was stored under its name, the turn added
`e` (the declared name with the object built for `it`) to the worlds and recorded exactly
the messages of the section parse of `it`, so no "already used" Error; the final report
`fin.validation` has that at its place, and an Error among those messages makes the final
`ok` false. -/
def MapcrafterConfig.StoredWorld {W M : Type} (K : Sections W M) (d : String)
    (L : List INIConfigSection) (S0 fin : PState W M) (e : String × W) : Prop :=
  ∃ pre it post, L = pre ++ it :: post ∧ it.type = "world" ∧
    e = (it.name, (buildWorld K d S0.cfg.world_global it).2.1) ∧
    (pre.foldl (worldStep K d) S0).cfg.hasWorld it.name = false ∧
    (worldStep K d (pre.foldl (worldStep K d) S0) it).cfg.worlds =
      (pre.foldl (worldStep K d) S0).cfg.worlds ++ [e] ∧
    (worldStep K d (pre.foldl (worldStep K d) S0) it).validation =
      (pre.foldl (worldStep K d) S0).validation ++
        ownScope ("World section '" ++ it.name ++ "'")
          (buildWorld K d S0.cfg.world_global it).2.2 ∧
    (∃ rest, fin.validation =
      (pre.foldl (worldStep K d) S0).validation ++
        ownScope ("World section '" ++ it.name ++ "'")
          (buildWorld K d S0.cfg.world_global it).2.2 ++ rest) ∧
    (hasError (buildWorld K d S0.cfg.world_global it).2.2 = true → fin.ok = false)

/-- The map `m` was stored by the turn of a map section `it` of the map loop over `L`
started in `S0`, and that turn passed both cross-section checks: when the loop reached `it`
(after the sections `pre`) no stored map had its name, and the world of the object built for
`it` was empty or a key of the worlds; the turn appended `m`, that object, to the maps and
recorded exactly the messages of the section parse of `it`, so no "already used" and no
"does not exist" Error; the final report `fin.validation` has that at its place, and an
Error among those messages makes the final `ok` false. -/
def MapcrafterConfig.StoredMap {W M : Type} (env : Env) (d : String)
    (L : List INIConfigSection) (S0 fin : PState W M) (m : MapSection) : Prop :=
  ∃ pre it post, L = pre ++ it :: post ∧ it.type = "map" ∧
    m = (buildMap env d S0.cfg.map_global it).2.1 ∧
    (pre.foldl (mapStep env d) S0).cfg.hasMap it.name = false ∧
    (m.getWorld = "" ∨ (pre.foldl (mapStep env d) S0).cfg.hasWorld m.getWorld = true) ∧
    (mapStep env d (pre.foldl (mapStep env d) S0) it).cfg.maps =
      (pre.foldl (mapStep env d) S0).cfg.maps ++ [m] ∧
    (mapStep env d (pre.foldl (mapStep env d) S0) it).validation =
      (pre.foldl (mapStep env d) S0).validation ++
        ownScope ("Map section '" ++ it.name ++ "'")
          (buildMap env d S0.cfg.map_global it).2.2 ∧
    (∃ rest, fin.validation =
      (pre.foldl (mapStep env d) S0).validation ++
        ownScope ("Map section '" ++ it.name ++ "'")
          (buildMap env d S0.cfg.map_global it).2.2 ++ rest) ∧
    (hasError (buildMap env d S0.cfg.map_global it).2.2 = true → fin.ok = false)

/-- The marker `m` was stored by the turn of a marker section `it` of the marker loop over
`L` started in `S0`, and that turn passed the cross-section check: when the loop reached
`it` (after the sections `pre`) no stored marker had its name; the turn appended `m`, the
object built for `it`, to the markers and recorded exactly the messages of the section
parse of `it`, so no "already used" Error; the final report `fin.validation` has that at
its place, and an Error among those messages makes the final `ok` false. -/
def MapcrafterConfig.StoredMarker {W M : Type} (K : Sections W M)
    (L : List INIConfigSection) (S0 fin : PState W M) (m : M) : Prop :=
  ∃ pre it post, L = pre ++ it :: post ∧ it.type = "marker" ∧
    m = (buildMarker K S0.cfg.marker_global it).2.1 ∧
    hasMarker K (pre.foldl (markerStep K) S0).cfg it.name = false ∧
    (markerStep K (pre.foldl (markerStep K) S0) it).cfg.markers =
      (pre.foldl (markerStep K) S0).cfg.markers ++ [m] ∧
    (markerStep K (pre.foldl (markerStep K) S0) it).validation =
      (pre.foldl (markerStep K) S0).validation ++
        ownScope ("Marker section '" ++ it.name ++ "'")
          (buildMarker K S0.cfg.marker_global it).2.2 ∧
    (∃ rest, fin.validation =
      (pre.foldl (markerStep K) S0).validation ++
        ownScope ("Marker section '" ++ it.name ++ "'")
          (buildMarker K S0.cfg.marker_global it).2.2 ++ rest) ∧
    (hasError (buildMarker K S0.cfg.marker_global it).2.2 = true → fin.ok = false)

end Mapcrafter

/-! # Theorems -/

namespace Mapcrafter

/-! ## The section parse of a map, field by field -/

namespace MapSection

theorem parseField_name_short (env : Env) (self : MapSection) (key value : String)
    (validation : ValidationList) :
    (parseField env self key value validation).2.1.name_short = self.name_short := by
  unfold parseField
  simp only [apply_ite Prod.snd, apply_ite Prod.fst, apply_ite MapSection.name_short, ite_self]

theorem parseEntry_name_short (env : Env) (acc : MapSection × ValidationList)
    (entry : String × String) :
    (parseEntry (cls env) acc entry).1.name_short = acc.1.name_short := by
  unfold parseEntry
  simp only []
  split_ifs <;> exact parseField_name_short env acc.1 entry.1 entry.2 acc.2

theorem postParse_name_short (env : Env) (self : MapSection) (sec : INIConfigSection)
    (validation : ValidationList) :
    (postParse env self sec validation).1.name_short = self.name_short := by
  unfold postParse
  simp only []
  split_ifs <;> rfl

theorem preParse_name_short (env : Env) (self : MapSection) (sec : INIConfigSection)
    (validation : ValidationList) :
    (preParse env self sec validation).1.name_short = self.section_name := by
  unfold preParse
  simp only []
  split_ifs <;> rfl

/-- A parsed map section carries the declared name of its raw section as short name. -/
theorem parse_getShortName (env : Env) (self : MapSection) (sec : INIConfigSection)
    (validation : ValidationList) :
    (parse env self sec validation).2.1.getShortName = sec.name := by
  unfold parse sectionParse getShortName
  simp only []
  rw [show ((cls env).postParse
      (List.foldl (parseEntry (cls env))
        ((cls env).preParse ((cls env).setSectionName self sec.name) sec validation)
        sec.entries).1 sec _).1.name_short = _ from postParse_name_short env _ sec _]
  have hfold : ∀ (l : List (String × String)) (acc : MapSection × ValidationList),
      (List.foldl (parseEntry (cls env)) acc l).1.name_short = acc.1.name_short := by
    intro l
    induction l with
    | nil => intro acc; rfl
    | cons e es ih =>
        intro acc
        rw [List.foldl_cons, ih, parseEntry_name_short]
  rw [hfold]
  exact preParse_name_short env _ sec validation

/-! ### The field `texture_size` through a section parse -/

theorem parseField_texture_size_other (env : Env) (self : MapSection) (key value : String)
    (validation : ValidationList) (h : key ≠ "texture_size") :
    (parseField env self key value validation).2.1.texture_size = self.texture_size := by
  unfold parseField
  simp only [apply_ite Prod.snd, apply_ite Prod.fst, apply_ite MapSection.texture_size, ite_self,
    h, if_false]

theorem parseField_texture_size_load (env : Env) (self : MapSection) (value : String)
    (validation : ValidationList) :
    (parseField env self "texture_size" value validation).2.1.texture_size
      = (self.texture_size.load env.asInt "texture_size" value validation).2.1 := by
  unfold parseField
  simp only [apply_ite Prod.snd, apply_ite Prod.fst, apply_ite MapSection.texture_size, ite_self]
  simp

theorem parseEntry_fst (env : Env) (acc : MapSection × ValidationList)
    (entry : String × String) :
    (parseEntry (cls env) acc entry).1 = (parseField env acc.1 entry.1 entry.2 acc.2).2.1 := by
  unfold parseEntry
  simp only []
  split_ifs <;> rfl

theorem fold_texture_size_absent (env : Env) (l : List (String × String))
    (acc : MapSection × ValidationList) (h : lastValue l "texture_size" = none) :
    (l.foldl (parseEntry (cls env)) acc).1.texture_size = acc.1.texture_size := by
  induction l generalizing acc with
  | nil => rfl
  | cons e rest ih =>
      have hrest : lastValue rest "texture_size" = none := by
        cases hr : lastValue rest "texture_size" with
        | none => rfl
        | some v => simp [lastValue, hr] at h
      have he : e.1 ≠ "texture_size" := by
        intro he
        simp [lastValue, hrest, he] at h
      rw [List.foldl_cons, ih _ hrest, parseEntry_fst]
      exact parseField_texture_size_other env acc.1 e.1 e.2 acc.2 he

theorem fold_texture_size_present (env : Env) (l : List (String × String))
    (acc : MapSection × ValidationList) (v : String) (n : Int)
    (h : lastValue l "texture_size" = some v) (hn : env.asInt v = Except.ok n) :
    (l.foldl (parseEntry (cls env)) acc).1.texture_size.value = some n := by
  induction l generalizing acc with
  | nil => simp [lastValue] at h
  | cons e rest ih =>
      rw [List.foldl_cons]
      cases hr : lastValue rest "texture_size" with
      | some v' =>
          have hv : v' = v := by simpa [lastValue, hr] using h
          exact ih _ (hv ▸ hr)
      | none =>
          have hkey : e.1 = "texture_size" := by
            by_contra hne
            simp [lastValue, hr, hne] at h
          have hval : e.2 = v := by simpa [lastValue, hr, hkey] using h
          rw [fold_texture_size_absent env rest _ hr, parseEntry_fst, hkey,
            parseField_texture_size_load, hval]
          simp [Field.load, hn]

theorem postParse_texture_size (env : Env) (self : MapSection) (sec : INIConfigSection)
    (validation : ValidationList) :
    (postParse env self sec validation).1.texture_size = self.texture_size := by
  unfold postParse
  simp only []
  split_ifs <;> rfl

theorem preParse_texture_size (env : Env) (self : MapSection) (sec : INIConfigSection)
    (validation : ValidationList) :
    (preParse env self sec validation).1.texture_size = self.texture_size.setDefault 12 := by
  unfold preParse
  simp only []
  split_ifs <;> rfl

/-- The `texture_size` field after a section parse is what the key loop leaves of the
field as `preParse` set it up. -/
theorem parse_texture_size (env : Env) (self : MapSection) (sec : INIConfigSection)
    (validation : ValidationList) :
    (parse env self sec validation).2.1.texture_size
      = (sec.entries.foldl (parseEntry (cls env))
          (preParse env { self with section_name := sec.name } sec validation)).1.texture_size :=
  postParse_texture_size env _ sec _

/-- A section without a `texture_size` key keeps the value it started with, or 12. -/
theorem parse_getTextureSize_absent (env : Env) (self : MapSection) (sec : INIConfigSection)
    (validation : ValidationList) (h : lastValue sec.entries "texture_size" = none) :
    (parse env self sec validation).2.1.getTextureSize
      = (match self.texture_size.value with
         | some g => g
         | none => 12) := by
  unfold getTextureSize
  rw [parse_texture_size, fold_texture_size_absent env _ _ h, preParse_texture_size]
  cases hv : self.texture_size.value <;>
    simp [Field.getValue, Field.getValue?, Field.setDefault, hv]

/-- A section whose last `texture_size` key converts to `n` has the value `n`. -/
theorem parse_texture_size_present (env : Env) (self : MapSection) (sec : INIConfigSection)
    (validation : ValidationList) (v : String) (n : Int)
    (h : lastValue sec.entries "texture_size" = some v) (hn : env.asInt v = Except.ok n) :
    (parse env self sec validation).2.1.texture_size.value = some n := by
  rw [parse_texture_size]
  exact fold_texture_size_present env _ _ v n h hn

theorem getTextureSize_of_value (m : MapSection) (n : Int)
    (h : m.texture_size.value = some n) : m.getTextureSize = n := by
  simp [getTextureSize, Field.getValue, Field.getValue?, h]

end MapSection

namespace MapcrafterConfig

variable {W M : Type}

/-! ## The steps of the three loops, case by case -/

theorem worldStep_skip (K : Sections W M) (d : String) (st : PState W M)
    (it : INIConfigSection) (h : it.type ≠ "world") : worldStep K d st it = st := by
  simp [worldStep, h]

theorem worldStep_dup (K : Sections W M) (d : String) (st : PState W M)
    (it : INIConfigSection) (h : it.type = "world") (hd : st.cfg.hasWorld it.name = true) :
    worldStep K d st it =
      ⟨false, st.cfg, st.validation ++ [("World section '" ++ it.name ++ "'",
        (buildWorld K d st.cfg.world_global it).2.2 ++
          [ValidationMessage.error ("World name '" ++ it.name ++ "' already used!")])]⟩ := by
  simp [worldStep, h, hd]

theorem worldStep_new (K : Sections W M) (d : String) (st : PState W M)
    (it : INIConfigSection) (h : it.type = "world") (hd : st.cfg.hasWorld it.name = false) :
    worldStep K d st it =
      ⟨(buildWorld K d st.cfg.world_global it).1 && st.ok,
        { st.cfg with
          worlds := mapSet st.cfg.worlds it.name (buildWorld K d st.cfg.world_global it).2.1 },
        if (buildWorld K d st.cfg.world_global it).2.2 ≠ [] then
          st.validation ++ [("World section '" ++ it.name ++ "'",
            (buildWorld K d st.cfg.world_global it).2.2)]
        else st.validation⟩ := by
  simp [worldStep, h, hd]

theorem mapStep_skip (env : Env) (d : String) (st : PState W M)
    (it : INIConfigSection) (h : it.type ≠ "map") : mapStep env d st it = st := by
  simp [mapStep, h]

theorem mapStep_dup (env : Env) (d : String) (st : PState W M)
    (it : INIConfigSection) (h : it.type = "map") (hd : st.cfg.hasMap it.name = true) :
    mapStep env d st it =
      ⟨false, st.cfg, st.validation ++ [("Map section '" ++ it.name ++ "'",
        (buildMap env d st.cfg.map_global it).2.2 ++
          [ValidationMessage.error ("Map name '" ++ it.name ++ "' already used!")])]⟩ := by
  simp [mapStep, h, hd]

theorem mapStep_dangling (env : Env) (d : String) (st : PState W M)
    (it : INIConfigSection) (h : it.type = "map") (hd : st.cfg.hasMap it.name = false)
    (hw : (buildMap env d st.cfg.map_global it).2.1.getWorld ≠ "")
    (hn : st.cfg.hasWorld (buildMap env d st.cfg.map_global it).2.1.getWorld = false) :
    mapStep env d st it =
      ⟨false, st.cfg, st.validation ++ [("Map section '" ++ it.name ++ "'",
        (buildMap env d st.cfg.map_global it).2.2 ++
          [ValidationMessage.error ("World '" ++
            (buildMap env d st.cfg.map_global it).2.1.getWorld ++ "' does not exist!")])]⟩ := by
  simp [mapStep, h, hd, hw, hn]

theorem mapStep_new (env : Env) (d : String) (st : PState W M)
    (it : INIConfigSection) (h : it.type = "map") (hd : st.cfg.hasMap it.name = false)
    (hw : (buildMap env d st.cfg.map_global it).2.1.getWorld = "" ∨
      st.cfg.hasWorld (buildMap env d st.cfg.map_global it).2.1.getWorld = true) :
    mapStep env d st it =
      ⟨(buildMap env d st.cfg.map_global it).1 && st.ok,
        { st.cfg with maps := st.cfg.maps ++ [(buildMap env d st.cfg.map_global it).2.1] },
        if (buildMap env d st.cfg.map_global it).2.2 ≠ [] then
          st.validation ++ [("Map section '" ++ it.name ++ "'",
            (buildMap env d st.cfg.map_global it).2.2)]
        else st.validation⟩ := by
  have hc : ¬ ((buildMap env d st.cfg.map_global it).2.1.getWorld ≠ "" ∧
      st.cfg.hasWorld (buildMap env d st.cfg.map_global it).2.1.getWorld = false) := by
    rintro ⟨h1, h2⟩
    rcases hw with hw | hw
    · exact h1 hw
    · rw [hw] at h2; exact Bool.noConfusion h2
  simp only [mapStep, h, hd]
  simp [hc]

theorem markerStep_skip (K : Sections W M) (st : PState W M)
    (it : INIConfigSection) (h : it.type ≠ "marker") : markerStep K st it = st := by
  simp [markerStep, h]

theorem markerStep_dup (K : Sections W M) (st : PState W M)
    (it : INIConfigSection) (h : it.type = "marker") (hd : hasMarker K st.cfg it.name = true) :
    markerStep K st it =
      ⟨false, st.cfg, st.validation ++ [("Marker section '" ++ it.name ++ "'",
        (buildMarker K st.cfg.marker_global it).2.2 ++
          [ValidationMessage.error ("Marker name '" ++ it.name ++ "' already used!")])]⟩ := by
  simp [markerStep, h, hd]

theorem markerStep_new (K : Sections W M) (st : PState W M)
    (it : INIConfigSection) (h : it.type = "marker") (hd : hasMarker K st.cfg it.name = false) :
    markerStep K st it =
      ⟨(buildMarker K st.cfg.marker_global it).1 && st.ok,
        { st.cfg with markers := st.cfg.markers ++ [(buildMarker K st.cfg.marker_global it).2.1] },
        if (buildMarker K st.cfg.marker_global it).2.2 ≠ [] then
          st.validation ++ [("Marker section '" ++ it.name ++ "'",
            (buildMarker K st.cfg.marker_global it).2.2)]
        else st.validation⟩ := by
  simp [markerStep, h, hd]

/-! ## The association list behind `worlds` -/

theorem mapFind_mapSet {β : Type} (m : List (String × β)) (k k' : String) (v : β) :
    mapFind (mapSet m k v) k' = if k' = k then some v else mapFind m k' := by
  induction m with
  | nil =>
      by_cases h : k' = k
      · simp [mapSet, mapFind, h]
      · have h' : ¬ k = k' := fun e => h e.symm
        simp [mapSet, mapFind, h, h']
  | cons e rest ih =>
      by_cases he : e.1 = k
      · by_cases h : k' = k
        · simp [mapSet, mapFind, he, h]
        · have h' : ¬ k = k' := fun e => h e.symm
          simp [mapSet, mapFind, he, h, h']
      · by_cases h : k' = k
        · subst h
          simp [mapSet, mapFind, he, ih]
        · simp [mapSet, mapFind, he, h, ih]

theorem mapCount_eq_isSome {β : Type} (m : List (String × β)) (k : String) :
    mapCount m k = (mapFind m k).isSome := by
  induction m with
  | nil => simp [mapCount, mapFind]
  | cons e rest ih =>
      by_cases he : e.1 = k
      · simp [mapCount, mapFind, he]
      · simp only [mapCount, List.any_cons, mapFind, he, decide_False, Bool.false_or,
          if_false] at ih ⊢
        exact ih

theorem mapFind_of_mapCount_false {β : Type} (m : List (String × β)) (k : String)
    (h : mapCount m k = false) : mapFind m k = none := by
  rw [mapCount_eq_isSome] at h
  cases hf : mapFind m k with
  | none => rfl
  | some v => rw [hf] at h; exact Bool.noConfusion h

/-! ## What a step may change -/

theorem after_refl (st : PState W M) : After st st :=
  ⟨rfl, rfl, rfl, rfl, rfl, rfl, ⟨[], by simp⟩, id, fun _ _ h => h, ⟨[], by simp⟩, ⟨[], by simp⟩⟩

theorem after_trans {a b c : PState W M} (h1 : After a b) (h2 : After b c) : After a c := by
  obtain ⟨e1, he1⟩ := h1.report
  obtain ⟨e2, he2⟩ := h2.report
  obtain ⟨m1, hm1⟩ := h1.maps
  obtain ⟨m2, hm2⟩ := h2.maps
  obtain ⟨k1, hk1⟩ := h1.markers
  obtain ⟨k2, hk2⟩ := h2.markers
  exact
    { world_global := h2.world_global.trans h1.world_global
      map_global := h2.map_global.trans h1.map_global
      marker_global := h2.marker_global.trans h1.marker_global
      output_dir := h2.output_dir.trans h1.output_dir
      template_dir := h2.template_dir.trans h1.template_dir
      background_color := h2.background_color.trans h1.background_color
      report := ⟨e1 ++ e2, by rw [he2, he1, List.append_assoc]⟩
      ok := fun h => h2.ok (h1.ok h)
      worlds := fun k w h => h2.worlds k w (h1.worlds k w h)
      maps := ⟨m1 ++ m2, by rw [hm2, hm1, List.append_assoc]⟩
      markers := ⟨k1 ++ k2, by rw [hk2, hk1, List.append_assoc]⟩ }

theorem after_foldl {α : Type} (f : PState W M → α → PState W M)
    (hf : ∀ st x, After st (f st x)) (l : List α) (st : PState W M) :
    After st (l.foldl f st) := by
  induction l generalizing st with
  | nil => exact after_refl st
  | cons x xs ih => exact after_trans (hf st x) (ih (f st x))

theorem worldStep_after (K : Sections W M) (d : String) (st : PState W M)
    (it : INIConfigSection) : After st (worldStep K d st it) := by
  by_cases h : it.type = "world"
  · cases hd : st.cfg.hasWorld it.name with
    | true =>
        rw [worldStep_dup K d st it h hd]
        exact ⟨rfl, rfl, rfl, rfl, rfl, rfl, ⟨_, rfl⟩, fun _ => rfl, fun _ _ h => h,
          ⟨[], by simp⟩, ⟨[], by simp⟩⟩
    | false =>
        rw [worldStep_new K d st it h hd]
        refine ⟨rfl, rfl, rfl, rfl, rfl, rfl, ?_, ?_, ?_, ⟨[], by simp⟩, ⟨[], by simp⟩⟩
        · by_cases hm : (buildWorld K d st.cfg.world_global it).2.2 = []
          · exact ⟨[], by simp [hm]⟩
          · exact ⟨_, by simp only [ne_eq, hm, not_false_eq_true, if_true]; rfl⟩
        · intro hok
          simp [hok]
        · intro k w hk
          show mapFind (mapSet st.cfg.worlds it.name _) k = some w
          rw [mapFind_mapSet]
          have hnone := mapFind_of_mapCount_false st.cfg.worlds it.name hd
          by_cases hkk : k = it.name
          · rw [hkk, hnone] at hk
            exact Option.noConfusion hk
          · simp [hkk, hk]
  · rw [worldStep_skip K d st it h]
    exact after_refl st

theorem mapStep_after (env : Env) (d : String) (st : PState W M)
    (it : INIConfigSection) : After st (mapStep env d st it) := by
  by_cases h : it.type = "map"
  · cases hd : st.cfg.hasMap it.name with
    | true =>
        rw [mapStep_dup env d st it h hd]
        exact ⟨rfl, rfl, rfl, rfl, rfl, rfl, ⟨_, rfl⟩, fun _ => rfl, fun _ _ h => h,
          ⟨[], by simp⟩, ⟨[], by simp⟩⟩
    | false =>
        by_cases hw : (buildMap env d st.cfg.map_global it).2.1.getWorld = "" ∨
            st.cfg.hasWorld (buildMap env d st.cfg.map_global it).2.1.getWorld = true
        · rw [mapStep_new env d st it h hd hw]
          refine ⟨rfl, rfl, rfl, rfl, rfl, rfl, ?_, ?_, fun _ _ h => h, ⟨_, rfl⟩, ⟨[], by simp⟩⟩
          · by_cases hm : (buildMap env d st.cfg.map_global it).2.2 = []
            · exact ⟨[], by simp [hm]⟩
            · exact ⟨_, by simp only [ne_eq, hm, not_false_eq_true, if_true]; rfl⟩
          · intro hok
            simp [hok]
        · have hw1 : (buildMap env d st.cfg.map_global it).2.1.getWorld ≠ "" :=
            fun e => hw (Or.inl e)
          have hw2 : st.cfg.hasWorld (buildMap env d st.cfg.map_global it).2.1.getWorld
              = false := by
            cases hh : st.cfg.hasWorld (buildMap env d st.cfg.map_global it).2.1.getWorld with
            | true => exact absurd (Or.inr hh) hw
            | false => rfl
          rw [mapStep_dangling env d st it h hd hw1 hw2]
          exact ⟨rfl, rfl, rfl, rfl, rfl, rfl, ⟨_, rfl⟩, fun _ => rfl, fun _ _ h => h,
            ⟨[], by simp⟩, ⟨[], by simp⟩⟩
  · rw [mapStep_skip env d st it h]
    exact after_refl st

theorem markerStep_after (K : Sections W M) (st : PState W M)
    (it : INIConfigSection) : After st (markerStep K st it) := by
  by_cases h : it.type = "marker"
  · cases hd : hasMarker K st.cfg it.name with
    | true =>
        rw [markerStep_dup K st it h hd]
        exact ⟨rfl, rfl, rfl, rfl, rfl, rfl, ⟨_, rfl⟩, fun _ => rfl, fun _ _ h => h,
          ⟨[], by simp⟩, ⟨[], by simp⟩⟩
    | false =>
        rw [markerStep_new K st it h hd]
        refine ⟨rfl, rfl, rfl, rfl, rfl, rfl, ?_, ?_, fun _ _ h => h, ⟨[], by simp⟩, ⟨_, rfl⟩⟩
        · by_cases hm : (buildMarker K st.cfg.marker_global it).2.2 = []
          · exact ⟨[], by simp [hm]⟩
          · exact ⟨_, by simp only [ne_eq, hm, not_false_eq_true, if_true]; rfl⟩
        · intro hok
          simp [hok]
  · rw [markerStep_skip K st it h]
    exact after_refl st

/-! ## What a pass may change -/

theorem foldl_invariant {α σ : Type} (P : σ → Prop) (f : σ → α → σ) (l : List α)
    (h : ∀ s x, x ∈ l → P s → P (f s x)) (s : σ) (hs : P s) : P (l.foldl f s) := by
  induction l generalizing s with
  | nil => exact hs
  | cons x xs ih =>
      exact ih (fun s y hy => h s y (List.mem_cons_of_mem x hy)) (f s x)
        (h s x (List.mem_cons_self x xs) hs)

theorem unknownStep_append (validation : ValidationMap) (it : INIConfigSection) :
    ∃ ext, unknownStep validation it = validation ++ ext := by
  unfold unknownStep
  split
  · exact ⟨_, rfl⟩
  · exact ⟨[], by simp⟩

theorem unknownFold_append (l : List INIConfigSection) (validation : ValidationMap) :
    ∃ ext, l.foldl unknownStep validation = validation ++ ext := by
  induction l generalizing validation with
  | nil => exact ⟨[], by simp⟩
  | cons x xs ih =>
      obtain ⟨e1, h1⟩ := unknownStep_append validation x
      obtain ⟨e2, h2⟩ := ih (unknownStep validation x)
      exact ⟨e1 ++ e2, by rw [List.foldl_cons, h2, h1, List.append_assoc]⟩

theorem unknownScan_after (l : List INIConfigSection) (st : PState W M) :
    After st (unknownScan l st) :=
  ⟨rfl, rfl, rfl, rfl, rfl, rfl, unknownFold_append l st.validation, id, fun _ _ h => h,
    ⟨[], by simp [unknownScan]⟩, ⟨[], by simp [unknownScan]⟩⟩

theorem worldPass_after (K : Sections W M) (d : String) (l : List INIConfigSection)
    (st : PState W M) : After st (worldPass K d l st) :=
  after_foldl (worldStep K d) (worldStep_after K d) l st

theorem mapPass_after (env : Env) (d : String) (l : List INIConfigSection)
    (st : PState W M) : After st (mapPass env d l st) :=
  after_foldl (mapStep env d) (mapStep_after env d) l st

theorem markerPass_after (K : Sections W M) (l : List INIConfigSection)
    (st : PState W M) : After st (markerPass K l st) :=
  after_foldl (markerStep K) (markerStep_after K) l st

theorem parseNamed_after (env : Env) (K : Sections W M) (d : String)
    (l : List INIConfigSection) (st : PState W M) : After st (parseNamed env K d l st) :=
  after_trans (unknownScan_after l st)
    (after_trans (worldPass_after K d l _)
      (after_trans (mapPass_after env d l _) (markerPass_after K l _)))

theorem worldStep_maps (K : Sections W M) (d : String) (st : PState W M)
    (it : INIConfigSection) :
    (worldStep K d st it).cfg.maps = st.cfg.maps ∧
      (worldStep K d st it).cfg.markers = st.cfg.markers := by
  by_cases h : it.type = "world"
  · cases hd : st.cfg.hasWorld it.name with
    | true => rw [worldStep_dup K d st it h hd]; exact ⟨rfl, rfl⟩
    | false => rw [worldStep_new K d st it h hd]; exact ⟨rfl, rfl⟩
  · rw [worldStep_skip K d st it h]; exact ⟨rfl, rfl⟩

theorem mapStep_worlds (env : Env) (d : String) (st : PState W M)
    (it : INIConfigSection) :
    (mapStep env d st it).cfg.worlds = st.cfg.worlds ∧
      (mapStep env d st it).cfg.markers = st.cfg.markers := by
  by_cases h : it.type = "map"
  · cases hd : st.cfg.hasMap it.name with
    | true => rw [mapStep_dup env d st it h hd]; exact ⟨rfl, rfl⟩
    | false =>
        by_cases hw : (buildMap env d st.cfg.map_global it).2.1.getWorld = "" ∨
            st.cfg.hasWorld (buildMap env d st.cfg.map_global it).2.1.getWorld = true
        · rw [mapStep_new env d st it h hd hw]; exact ⟨rfl, rfl⟩
        · have hw1 : (buildMap env d st.cfg.map_global it).2.1.getWorld ≠ "" :=
            fun e => hw (Or.inl e)
          have hw2 : st.cfg.hasWorld (buildMap env d st.cfg.map_global it).2.1.getWorld
              = false := by
            cases hh : st.cfg.hasWorld (buildMap env d st.cfg.map_global it).2.1.getWorld with
            | true => exact absurd (Or.inr hh) hw
            | false => rfl
          rw [mapStep_dangling env d st it h hd hw1 hw2]; exact ⟨rfl, rfl⟩
  · rw [mapStep_skip env d st it h]; exact ⟨rfl, rfl⟩

theorem markerStep_worlds (K : Sections W M) (st : PState W M) (it : INIConfigSection) :
    (markerStep K st it).cfg.worlds = st.cfg.worlds ∧
      (markerStep K st it).cfg.maps = st.cfg.maps := by
  by_cases h : it.type = "marker"
  · cases hd : hasMarker K st.cfg it.name with
    | true => rw [markerStep_dup K st it h hd]; exact ⟨rfl, rfl⟩
    | false => rw [markerStep_new K st it h hd]; exact ⟨rfl, rfl⟩
  · rw [markerStep_skip K st it h]; exact ⟨rfl, rfl⟩

theorem worldPass_maps (K : Sections W M) (d : String) (l : List INIConfigSection)
    (st : PState W M) :
    (worldPass K d l st).cfg.maps = st.cfg.maps ∧
      (worldPass K d l st).cfg.markers = st.cfg.markers :=
  foldl_invariant (fun s : PState W M => s.cfg.maps = st.cfg.maps ∧ s.cfg.markers = st.cfg.markers)
    (worldStep K d) l
    (fun s x _ hs => ⟨(worldStep_maps K d s x).1.trans hs.1, (worldStep_maps K d s x).2.trans hs.2⟩)
    st ⟨rfl, rfl⟩

theorem mapPass_worlds (env : Env) (d : String) (l : List INIConfigSection)
    (st : PState W M) :
    (mapPass env d l st).cfg.worlds = st.cfg.worlds ∧
      (mapPass env d l st).cfg.markers = st.cfg.markers :=
  foldl_invariant
    (fun s : PState W M => s.cfg.worlds = st.cfg.worlds ∧ s.cfg.markers = st.cfg.markers)
    (mapStep env d) l
    (fun s x _ hs =>
      ⟨(mapStep_worlds env d s x).1.trans hs.1, (mapStep_worlds env d s x).2.trans hs.2⟩)
    st ⟨rfl, rfl⟩

theorem markerPass_worlds (K : Sections W M) (l : List INIConfigSection) (st : PState W M) :
    (markerPass K l st).cfg.worlds = st.cfg.worlds ∧
      (markerPass K l st).cfg.maps = st.cfg.maps :=
  foldl_invariant (fun s : PState W M => s.cfg.worlds = st.cfg.worlds ∧ s.cfg.maps = st.cfg.maps)
    (markerStep K) l
    (fun s x _ hs =>
      ⟨(markerStep_worlds K s x).1.trans hs.1, (markerStep_worlds K s x).2.trans hs.2⟩)
    st ⟨rfl, rfl⟩

/-! ## Case analysis on a step -/

theorem worldStep_cases (K : Sections W M) (d : String) (st : PState W M)
    (it : INIConfigSection) (P : PState W M → Prop)
    (skip : it.type ≠ "world" → P st)
    (dup : it.type = "world" → st.cfg.hasWorld it.name = true →
      P ⟨false, st.cfg, st.validation ++ [("World section '" ++ it.name ++ "'",
        (buildWorld K d st.cfg.world_global it).2.2 ++
          [ValidationMessage.error ("World name '" ++ it.name ++ "' already used!")])]⟩)
    (new : it.type = "world" → st.cfg.hasWorld it.name = false →
      P ⟨(buildWorld K d st.cfg.world_global it).1 && st.ok,
        { st.cfg with
          worlds := mapSet st.cfg.worlds it.name (buildWorld K d st.cfg.world_global it).2.1 },
        if (buildWorld K d st.cfg.world_global it).2.2 ≠ [] then
          st.validation ++ [("World section '" ++ it.name ++ "'",
            (buildWorld K d st.cfg.world_global it).2.2)]
        else st.validation⟩) :
    P (worldStep K d st it) := by
  by_cases h : it.type = "world"
  · cases hd : st.cfg.hasWorld it.name with
    | true => rw [worldStep_dup K d st it h hd]; exact dup h hd
    | false => rw [worldStep_new K d st it h hd]; exact new h hd
  · rw [worldStep_skip K d st it h]; exact skip h

theorem mapStep_cases (env : Env) (d : String) (st : PState W M)
    (it : INIConfigSection) (P : PState W M → Prop)
    (skip : it.type ≠ "map" → P st)
    (dup : it.type = "map" → st.cfg.hasMap it.name = true →
      P ⟨false, st.cfg, st.validation ++ [("Map section '" ++ it.name ++ "'",
        (buildMap env d st.cfg.map_global it).2.2 ++
          [ValidationMessage.error ("Map name '" ++ it.name ++ "' already used!")])]⟩)
    (dangling : it.type = "map" → st.cfg.hasMap it.name = false →
      (buildMap env d st.cfg.map_global it).2.1.getWorld ≠ "" →
      st.cfg.hasWorld (buildMap env d st.cfg.map_global it).2.1.getWorld = false →
      P ⟨false, st.cfg, st.validation ++ [("Map section '" ++ it.name ++ "'",
        (buildMap env d st.cfg.map_global it).2.2 ++
          [ValidationMessage.error ("World '" ++
            (buildMap env d st.cfg.map_global it).2.1.getWorld ++ "' does not exist!")])]⟩)
    (new : it.type = "map" → st.cfg.hasMap it.name = false →
      ((buildMap env d st.cfg.map_global it).2.1.getWorld = "" ∨
        st.cfg.hasWorld (buildMap env d st.cfg.map_global it).2.1.getWorld = true) →
      P ⟨(buildMap env d st.cfg.map_global it).1 && st.ok,
        { st.cfg with maps := st.cfg.maps ++ [(buildMap env d st.cfg.map_global it).2.1] },
        if (buildMap env d st.cfg.map_global it).2.2 ≠ [] then
          st.validation ++ [("Map section '" ++ it.name ++ "'",
            (buildMap env d st.cfg.map_global it).2.2)]
        else st.validation⟩) :
    P (mapStep env d st it) := by
  by_cases h : it.type = "map"
  · cases hd : st.cfg.hasMap it.name with
    | true => rw [mapStep_dup env d st it h hd]; exact dup h hd
    | false =>
        by_cases hw : (buildMap env d st.cfg.map_global it).2.1.getWorld = "" ∨
            st.cfg.hasWorld (buildMap env d st.cfg.map_global it).2.1.getWorld = true
        · rw [mapStep_new env d st it h hd hw]; exact new h hd hw
        · have hw1 : (buildMap env d st.cfg.map_global it).2.1.getWorld ≠ "" :=
            fun e => hw (Or.inl e)
          have hw2 : st.cfg.hasWorld (buildMap env d st.cfg.map_global it).2.1.getWorld
              = false := by
            cases hh : st.cfg.hasWorld (buildMap env d st.cfg.map_global it).2.1.getWorld with
            | true => exact absurd (Or.inr hh) hw
            | false => rfl
          rw [mapStep_dangling env d st it h hd hw1 hw2]; exact dangling h hd hw1 hw2
  · rw [mapStep_skip env d st it h]; exact skip h

theorem markerStep_cases (K : Sections W M) (st : PState W M)
    (it : INIConfigSection) (P : PState W M → Prop)
    (skip : it.type ≠ "marker" → P st)
    (dup : it.type = "marker" → hasMarker K st.cfg it.name = true →
      P ⟨false, st.cfg, st.validation ++ [("Marker section '" ++ it.name ++ "'",
        (buildMarker K st.cfg.marker_global it).2.2 ++
          [ValidationMessage.error ("Marker name '" ++ it.name ++ "' already used!")])]⟩)
    (new : it.type = "marker" → hasMarker K st.cfg it.name = false →
      P ⟨(buildMarker K st.cfg.marker_global it).1 && st.ok,
        { st.cfg with markers := st.cfg.markers ++ [(buildMarker K st.cfg.marker_global it).2.1] },
        if (buildMarker K st.cfg.marker_global it).2.2 ≠ [] then
          st.validation ++ [("Marker section '" ++ it.name ++ "'",
            (buildMarker K st.cfg.marker_global it).2.2)]
        else st.validation⟩) :
    P (markerStep K st it) := by
  by_cases h : it.type = "marker"
  · cases hd : hasMarker K st.cfg it.name with
    | true => rw [markerStep_dup K st it h hd]; exact dup h hd
    | false => rw [markerStep_new K st it h hd]; exact new h hd
  · rw [markerStep_skip K st it h]; exact skip h

theorem mapSet_of_absent {β : Type} (m : List (String × β)) (k : String) (v : β)
    (h : mapCount m k = false) : mapSet m k v = m ++ [(k, v)] := by
  induction m with
  | nil => rfl
  | cons e rest ih =>
      have he : ¬ e.1 = k := by
        intro he
        simp [mapCount, he] at h
      have hr : mapCount rest k = false := by
        simp only [mapCount, List.any_cons, he, decide_False, Bool.false_or] at h
        exact h
      simp [mapSet, he, ih hr]

theorem sectionParse_fst {σ : Type} (C : SectionClass σ) (self : σ) (sec : INIConfigSection)
    (validation : ValidationList) :
    (sectionParse C self sec validation).1 = !hasError (sectionParse C self sec validation).2.2 :=
  rfl

theorem mem_scope_or {label : String} {msgs : ValidationList} (validation : ValidationMap) :
    msgs = [] ∨ (label, msgs) ∈
      (if msgs ≠ [] then validation ++ [(label, msgs)] else validation) := by
  by_cases h : msgs = []
  · exact Or.inl h
  · right
    simp [h]

/-! ## Every stored section is the parse of a section of the file -/

theorem acceptedWorld_after {K : Sections W M} {d : String} {L : List INIConfigSection}
    {st st' : PState W M} {e : String × W} (h : AcceptedWorld K d L st e)
    (ha : After st st') : AcceptedWorld K d L st' e := by
  obtain ⟨it, hit, ht, hn, hm, hs, ho⟩ := h
  obtain ⟨ext, hext⟩ := ha.report
  refine ⟨it, hit, ht, hn, ?_, ?_, ?_⟩
  · rw [ha.world_global]; exact hm
  · rw [ha.world_global, hext]
    rcases hs with hs | hs
    · exact Or.inl hs
    · exact Or.inr (List.mem_append_left _ hs)
  · rw [ha.world_global]
    intro he
    exact ha.ok (ho he)

theorem acceptedMap_after {env : Env} {d : String} {L : List INIConfigSection}
    {st st' : PState W M} {m : MapSection} (h : AcceptedMap env d L st m)
    (ha : After st st') : AcceptedMap env d L st' m := by
  obtain ⟨it, hit, ht, hm, hs, ho⟩ := h
  obtain ⟨ext, hext⟩ := ha.report
  refine ⟨it, hit, ht, ?_, ?_, ?_⟩
  · rw [ha.map_global]; exact hm
  · rw [ha.map_global, hext]
    rcases hs with hs | hs
    · exact Or.inl hs
    · exact Or.inr (List.mem_append_left _ hs)
  · rw [ha.map_global]
    intro he
    exact ha.ok (ho he)

theorem acceptedMarker_after {K : Sections W M} {L : List INIConfigSection}
    {st st' : PState W M} {m : M} (h : AcceptedMarker K L st m)
    (ha : After st st') : AcceptedMarker K L st' m := by
  obtain ⟨it, hit, ht, hm, hs, ho⟩ := h
  obtain ⟨ext, hext⟩ := ha.report
  refine ⟨it, hit, ht, ?_, ?_, ?_⟩
  · rw [ha.marker_global]; exact hm
  · rw [ha.marker_global, hext]
    rcases hs with hs | hs
    · exact Or.inl hs
    · exact Or.inr (List.mem_append_left _ hs)
  · rw [ha.marker_global]
    intro he
    exact ha.ok (ho he)

theorem and_ok_false_of_hasError {msgs : ValidationList} {b : Bool}
    (h : hasError msgs = true) : ((!hasError msgs) && b) = false := by
  simp [h]

theorem worldStep_accepted (K : Sections W M) (d : String) (L : List INIConfigSection)
    (st : PState W M) (it : INIConfigSection) (hL : it ∈ L)
    (hinv : ∀ e ∈ st.cfg.worlds, AcceptedWorld K d L st e) :
    ∀ e ∈ (worldStep K d st it).cfg.worlds, AcceptedWorld K d L (worldStep K d st it) e := by
  have ha := worldStep_after K d st it
  revert ha
  refine worldStep_cases K d st it
    (fun st' => After st st' → ∀ e ∈ st'.cfg.worlds, AcceptedWorld K d L st' e) ?_ ?_ ?_
  · intro _ _ e he
    exact hinv e he
  · intro _ _ ha e he
    exact acceptedWorld_after (hinv e he) ha
  · intro ht hd ha e he
    have hset := mapSet_of_absent st.cfg.worlds it.name
      (buildWorld K d st.cfg.world_global it).2.1 hd
    have he' : e ∈ st.cfg.worlds ++ [(it.name, (buildWorld K d st.cfg.world_global it).2.1)] := by
      rw [← hset]; exact he
    rcases List.mem_append.mp he' with h1 | h1
    · exact acceptedWorld_after (hinv e h1) ha
    · have hee : e = (it.name, (buildWorld K d st.cfg.world_global it).2.1) := by
        simpa using h1
      subst hee
      exact ⟨it, hL, ht, rfl, rfl, mem_scope_or st.validation,
        fun herr => and_ok_false_of_hasError herr⟩

theorem mapStep_accepted (env : Env) (d : String) (L : List INIConfigSection)
    (st : PState W M) (it : INIConfigSection) (hL : it ∈ L)
    (hinv : ∀ m ∈ st.cfg.maps, AcceptedMap env d L st m) :
    ∀ m ∈ (mapStep env d st it).cfg.maps, AcceptedMap env d L (mapStep env d st it) m := by
  have ha := mapStep_after env d st it
  revert ha
  refine mapStep_cases env d st it
    (fun st' => After st st' → ∀ m ∈ st'.cfg.maps, AcceptedMap env d L st' m) ?_ ?_ ?_ ?_
  · intro _ _ m hm
    exact hinv m hm
  · intro _ _ ha m hm
    exact acceptedMap_after (hinv m hm) ha
  · intro _ _ _ _ ha m hm
    exact acceptedMap_after (hinv m hm) ha
  · intro ht _ _ ha m hm
    rcases List.mem_append.mp hm with h1 | h1
    · exact acceptedMap_after (hinv m h1) ha
    · have hmm : m = (buildMap env d st.cfg.map_global it).2.1 := by simpa using h1
      subst hmm
      exact ⟨it, hL, ht, rfl, mem_scope_or st.validation,
        fun herr => and_ok_false_of_hasError herr⟩

theorem markerStep_accepted (K : Sections W M) (L : List INIConfigSection)
    (st : PState W M) (it : INIConfigSection) (hL : it ∈ L)
    (hinv : ∀ m ∈ st.cfg.markers, AcceptedMarker K L st m) :
    ∀ m ∈ (markerStep K st it).cfg.markers, AcceptedMarker K L (markerStep K st it) m := by
  have ha := markerStep_after K st it
  revert ha
  refine markerStep_cases K st it
    (fun st' => After st st' → ∀ m ∈ st'.cfg.markers, AcceptedMarker K L st' m) ?_ ?_ ?_
  · intro _ _ m hm
    exact hinv m hm
  · intro _ _ ha m hm
    exact acceptedMarker_after (hinv m hm) ha
  · intro ht _ ha m hm
    rcases List.mem_append.mp hm with h1 | h1
    · exact acceptedMarker_after (hinv m h1) ha
    · have hmm : m = (buildMarker K st.cfg.marker_global it).2.1 := by simpa using h1
      subst hmm
      exact ⟨it, hL, ht, rfl, mem_scope_or st.validation,
        fun herr => and_ok_false_of_hasError herr⟩

/-- After the named passes, entered with empty collections, every stored world, map and
marker is accepted in the sense of the three predicates. -/
theorem parseNamed_accepted (env : Env) (K : Sections W M) (d : String)
    (L : List INIConfigSection) (st : PState W M)
    (hw : st.cfg.worlds = []) (hm : st.cfg.maps = []) (hk : st.cfg.markers = []) :
    (∀ e ∈ (parseNamed env K d L st).cfg.worlds,
        AcceptedWorld K d L (parseNamed env K d L st) e) ∧
    (∀ m ∈ (parseNamed env K d L st).cfg.maps,
        AcceptedMap env d L (parseNamed env K d L st) m) ∧
    (∀ m ∈ (parseNamed env K d L st).cfg.markers,
        AcceptedMarker K L (parseNamed env K d L st) m) := by
  have s1w : (unknownScan L st).cfg.worlds = [] := hw
  have s1m : (unknownScan L st).cfg.maps = [] := hm
  have s1k : (unknownScan L st).cfg.markers = [] := hk
  have s2 : ∀ e ∈ (worldPass K d L (unknownScan L st)).cfg.worlds,
      AcceptedWorld K d L (worldPass K d L (unknownScan L st)) e :=
    foldl_invariant (fun s : PState W M => ∀ e ∈ s.cfg.worlds, AcceptedWorld K d L s e)
      (worldStep K d) L (fun s x hx hs => worldStep_accepted K d L s x hx hs) _
      (by intro e he; rw [s1w] at he; exact absurd he (List.not_mem_nil e))
  have s2m : (worldPass K d L (unknownScan L st)).cfg.maps = [] :=
    (worldPass_maps K d L _).1.trans s1m
  have s2k : (worldPass K d L (unknownScan L st)).cfg.markers = [] :=
    (worldPass_maps K d L _).2.trans s1k
  have s3 : ∀ m ∈ (mapPass env d L (worldPass K d L (unknownScan L st))).cfg.maps,
      AcceptedMap env d L (mapPass env d L (worldPass K d L (unknownScan L st))) m :=
    foldl_invariant (fun s : PState W M => ∀ m ∈ s.cfg.maps, AcceptedMap env d L s m)
      (mapStep env d) L (fun s x hx hs => mapStep_accepted env d L s x hx hs) _
      (by intro m hm'; rw [s2m] at hm'; exact absurd hm' (List.not_mem_nil m))
  have s3k : (mapPass env d L (worldPass K d L (unknownScan L st))).cfg.markers = [] :=
    (mapPass_worlds env d L _).2.trans s2k
  have s4 : ∀ m ∈ (parseNamed env K d L st).cfg.markers,
      AcceptedMarker K L (parseNamed env K d L st) m :=
    foldl_invariant (fun s : PState W M => ∀ m ∈ s.cfg.markers, AcceptedMarker K L s m)
      (markerStep K) L (fun s x hx hs => markerStep_accepted K L s x hx hs) _
      (by intro m hm'; rw [s3k] at hm'; exact absurd hm' (List.not_mem_nil m))
  refine ⟨?_, ?_, s4⟩
  · intro e he
    have hwe : (parseNamed env K d L st).cfg.worlds
        = (worldPass K d L (unknownScan L st)).cfg.worlds :=
      (markerPass_worlds K L _).1.trans (mapPass_worlds env d L _).1
    rw [hwe] at he
    exact acceptedWorld_after (s2 e he)
      (after_trans (mapPass_after env d L _) (markerPass_after K L _))
  · intro m hm'
    have hme : (parseNamed env K d L st).cfg.maps
        = (mapPass env d L (worldPass K d L (unknownScan L st))).cfg.maps :=
      (markerPass_worlds K L _).2
    rw [hme] at hm'
    exact acceptedMap_after (s3 m hm') (markerPass_after K L _)

/-! ## The root keys and the global sections leave the collections alone -/

/-- Two configuration objects with the same global sections and the same collections. -/
theorem rootEntry_frame (env : Env) (d : String) (acc : MapcrafterConfig W M × ValidationList)
    (entry : String × String) :
    (rootEntry env d acc entry).1.worlds = acc.1.worlds ∧
    (rootEntry env d acc entry).1.maps = acc.1.maps ∧
    (rootEntry env d acc entry).1.markers = acc.1.markers ∧
    (rootEntry env d acc entry).1.world_global = acc.1.world_global ∧
    (rootEntry env d acc entry).1.map_global = acc.1.map_global ∧
    (rootEntry env d acc entry).1.marker_global = acc.1.marker_global := by
  unfold rootEntry
  refine ⟨?_, ?_, ?_, ?_, ?_, ?_⟩
  · simp only [apply_ite Prod.fst, apply_ite MapcrafterConfig.worlds, ite_self]
  · simp only [apply_ite Prod.fst, apply_ite MapcrafterConfig.maps, ite_self]
  · simp only [apply_ite Prod.fst, apply_ite MapcrafterConfig.markers, ite_self]
  · simp only [apply_ite Prod.fst, apply_ite MapcrafterConfig.world_global, ite_self]
  · simp only [apply_ite Prod.fst, apply_ite MapcrafterConfig.map_global, ite_self]
  · simp only [apply_ite Prod.fst, apply_ite MapcrafterConfig.marker_global, ite_self]

theorem parseGeneral_frame (env : Env) (config : INIConfig) (d : String)
    (c : MapcrafterConfig W M) (validation : ValidationMap) :
    (parseGeneral env config d c validation).cfg.worlds = c.worlds ∧
    (parseGeneral env config d c validation).cfg.maps = c.maps ∧
    (parseGeneral env config d c validation).cfg.markers = c.markers ∧
    (parseGeneral env config d c validation).cfg.world_global = c.world_global ∧
    (parseGeneral env config d c validation).cfg.map_global = c.map_global ∧
    (parseGeneral env config d c validation).cfg.marker_global = c.marker_global := by
  unfold parseGeneral
  simp only []
  refine foldl_invariant
    (fun a : MapcrafterConfig W M × ValidationList =>
      a.1.worlds = c.worlds ∧ a.1.maps = c.maps ∧ a.1.markers = c.markers ∧
      a.1.world_global = c.world_global ∧ a.1.map_global = c.map_global ∧
      a.1.marker_global = c.marker_global)
    (rootEntry env d) config.root.entries ?_ _ ?_
  · intro a x _ ha
    have h := rootEntry_frame env d a x
    exact ⟨h.1.trans ha.1, h.2.1.trans ha.2.1, h.2.2.1.trans ha.2.2.1,
      h.2.2.2.1.trans ha.2.2.2.1, h.2.2.2.2.1.trans ha.2.2.2.2.1,
      h.2.2.2.2.2.trans ha.2.2.2.2.2⟩
  · refine ⟨?_, ?_, ?_, ?_, ?_, ?_⟩ <;> simp only [apply_ite MapcrafterConfig.worlds,
      apply_ite MapcrafterConfig.maps, apply_ite MapcrafterConfig.markers,
      apply_ite MapcrafterConfig.world_global, apply_ite MapcrafterConfig.map_global,
      apply_ite MapcrafterConfig.marker_global, ite_self]

theorem stageWorlds_frame (K : Sections W M) (config : INIConfig) (d : String)
    (st : PState W M) :
    (stageWorlds K config d st).2.cfg.worlds = st.cfg.worlds ∧
    (stageWorlds K config d st).2.cfg.maps = st.cfg.maps ∧
    (stageWorlds K config d st).2.cfg.markers = st.cfg.markers := by
  unfold stageWorlds
  split <;> exact ⟨rfl, rfl, rfl⟩

theorem stageMaps_frame (env : Env) (config : INIConfig) (d : String) (st : PState W M) :
    (stageMaps env config d st).2.cfg.worlds = st.cfg.worlds ∧
    (stageMaps env config d st).2.cfg.maps = st.cfg.maps ∧
    (stageMaps env config d st).2.cfg.markers = st.cfg.markers := by
  unfold stageMaps
  split <;> exact ⟨rfl, rfl, rfl⟩

theorem stageMarkers_frame (K : Sections W M) (config : INIConfig) (st : PState W M) :
    (stageMarkers K config st).2.cfg.worlds = st.cfg.worlds ∧
    (stageMarkers K config st).2.cfg.maps = st.cfg.maps ∧
    (stageMarkers K config st).2.cfg.markers = st.cfg.markers := by
  unfold stageMarkers
  split <;> exact ⟨rfl, rfl, rfl⟩

theorem parseGlobals_frame (env : Env) (K : Sections W M) (config : INIConfig) (d : String)
    (st : PState W M) :
    (parseGlobals env K config d st).2.cfg.worlds = st.cfg.worlds ∧
    (parseGlobals env K config d st).2.cfg.maps = st.cfg.maps ∧
    (parseGlobals env K config d st).2.cfg.markers = st.cfg.markers := by
  have h1 := stageWorlds_frame K config d st
  have h2 := stageMaps_frame env config d (stageWorlds K config d st).2
  have h3 := stageMarkers_frame K config (stageMaps env config d (stageWorlds K config d st).2).2
  unfold parseGlobals
  simp only []
  split
  · exact h1
  · split
    · exact ⟨h2.1.trans h1.1, h2.2.1.trans h1.2.1, h2.2.2.trans h1.2.2⟩
    · exact ⟨h3.1.trans (h2.1.trans h1.1), h3.2.1.trans (h2.2.1.trans h1.2.1),
        h3.2.2.trans (h2.2.2.trans h1.2.2)⟩

theorem parse_loaded (env : Env) (K : Sections W M) (filename : String)
    (c : MapcrafterConfig W M) (validation : ValidationMap) (config : INIConfig)
    (hload : env.loadFile filename = Except.ok config) :
    parse env K filename c validation =
      if (parseGlobals env K config (env.parentPath filename)
          (parseGeneral env config (env.parentPath filename) c validation)).1 then
        { (parseGlobals env K config (env.parentPath filename)
            (parseGeneral env config (env.parentPath filename) c validation)).2 with
          ok := false }
      else
        parseNamed env K (env.parentPath filename) config.sections
          (parseGlobals env K config (env.parentPath filename)
            (parseGeneral env config (env.parentPath filename) c validation)).2 := by
  unfold parse
  rw [hload]

/-- The three ways `parse` ends: the file does not load, a global stage returns, or the
named passes run to the end. -/
theorem parse_cases (env : Env) (K : Sections W M) (filename : String)
    (c : MapcrafterConfig W M) (validation : ValidationMap) (P : PState W M → Prop)
    (unread : ∀ msg, env.loadFile filename = Except.error msg →
      P ⟨false, c, validation ++ [("Configuration file", makeValidationList msg)]⟩)
    (stopped : ∀ config, env.loadFile filename = Except.ok config →
      (parseGlobals env K config (env.parentPath filename)
        (parseGeneral env config (env.parentPath filename) c validation)).1 = true →
      P { (parseGlobals env K config (env.parentPath filename)
            (parseGeneral env config (env.parentPath filename) c validation)).2 with
          ok := false })
    (finished : ∀ config, env.loadFile filename = Except.ok config →
      (parseGlobals env K config (env.parentPath filename)
        (parseGeneral env config (env.parentPath filename) c validation)).1 = false →
      P (parseNamed env K (env.parentPath filename) config.sections
        (parseGlobals env K config (env.parentPath filename)
          (parseGeneral env config (env.parentPath filename) c validation)).2)) :
    P (parse env K filename c validation) := by
  cases hload : env.loadFile filename with
  | error msg =>
      have h : parse env K filename c validation
          = ⟨false, c, validation ++ [("Configuration file", makeValidationList msg)]⟩ := by
        unfold parse
        rw [hload]
      rw [h]
      exact unread msg hload
  | ok config =>
      rw [parse_loaded env K filename c validation config hload]
      cases hg : (parseGlobals env K config (env.parentPath filename)
          (parseGeneral env config (env.parentPath filename) c validation)).1 with
      | true => simpa using stopped config hload hg
      | false => simpa using finished config hload hg

/-- The state in which the named passes start has the collections of the configuration
object that `parse` was called on. -/
theorem entry_collections (env : Env) (K : Sections W M) (config : INIConfig) (d : String)
    (c : MapcrafterConfig W M) (validation : ValidationMap) :
    (parseGlobals env K config d (parseGeneral env config d c validation)).2.cfg.worlds
      = c.worlds ∧
    (parseGlobals env K config d (parseGeneral env config d c validation)).2.cfg.maps
      = c.maps ∧
    (parseGlobals env K config d (parseGeneral env config d c validation)).2.cfg.markers
      = c.markers :=
  ⟨(parseGlobals_frame env K config d _).1.trans (parseGeneral_frame env config d c validation).1,
   (parseGlobals_frame env K config d _).2.1.trans
     (parseGeneral_frame env config d c validation).2.1,
   (parseGlobals_frame env K config d _).2.2.trans
     (parseGeneral_frame env config d c validation).2.2.1⟩

/-! ## Stored maps refer to stored worlds -/

theorem mapStep_worldRef (env : Env) (d : String) (st : PState W M) (it : INIConfigSection)
    (hinv : ∀ m ∈ st.cfg.maps, m.getWorld = "" ∨ st.cfg.hasWorld m.getWorld = true) :
    ∀ m ∈ (mapStep env d st it).cfg.maps,
      m.getWorld = "" ∨ (mapStep env d st it).cfg.hasWorld m.getWorld = true := by
  refine mapStep_cases env d st it
    (fun st' => ∀ m ∈ st'.cfg.maps, m.getWorld = "" ∨ st'.cfg.hasWorld m.getWorld = true)
    ?_ ?_ ?_ ?_
  · intro _; exact hinv
  · intro _ _; exact hinv
  · intro _ _ _ _; exact hinv
  · intro _ _ hw m hm
    rcases List.mem_append.mp hm with h1 | h1
    · exact hinv m h1
    · have hmm : m = (buildMap env d st.cfg.map_global it).2.1 := by simpa using h1
      subst hmm
      exact hw

theorem parseNamed_worldRef (env : Env) (K : Sections W M) (d : String)
    (L : List INIConfigSection) (st : PState W M) (hm : st.cfg.maps = []) :
    ∀ m ∈ (parseNamed env K d L st).cfg.maps,
      m.getWorld = "" ∨ (parseNamed env K d L st).cfg.hasWorld m.getWorld = true := by
  have s2m : (worldPass K d L (unknownScan L st)).cfg.maps = [] :=
    (worldPass_maps K d L _).1.trans hm
  have s3 : ∀ m ∈ (mapPass env d L (worldPass K d L (unknownScan L st))).cfg.maps,
      m.getWorld = "" ∨
        (mapPass env d L (worldPass K d L (unknownScan L st))).cfg.hasWorld m.getWorld = true :=
    foldl_invariant
      (fun s : PState W M => ∀ m ∈ s.cfg.maps, m.getWorld = "" ∨ s.cfg.hasWorld m.getWorld = true)
      (mapStep env d) L (fun s x _ hs => mapStep_worldRef env d s x hs) _
      (by intro m hm'; rw [s2m] at hm'; exact absurd hm' (List.not_mem_nil m))
  intro m hm'
  have hme : (parseNamed env K d L st).cfg.maps
      = (mapPass env d L (worldPass K d L (unknownScan L st))).cfg.maps :=
    (markerPass_worlds K L _).2
  have hwe : (parseNamed env K d L st).cfg.worlds
      = (mapPass env d L (worldPass K d L (unknownScan L st))).cfg.worlds :=
    (markerPass_worlds K L _).1
  rw [hme] at hm'
  rcases s3 m hm' with h | h
  · exact Or.inl h
  · right
    unfold hasWorld at h ⊢
    rw [hwe]
    exact h

/-! ## Short names stay distinct -/

theorem nodup_snoc {α : Type} (l : List α) (a : α) (h : l.Nodup) (ha : a ∉ l) :
    (l ++ [a]).Nodup := by
  rw [List.nodup_append]
  refine ⟨h, List.nodup_singleton a, ?_⟩
  intro x hx hx'
  have : x = a := by simpa using hx'
  exact ha (this ▸ hx)

theorem buildMap_getShortName (env : Env) (d : String) (g : MapSection)
    (it : INIConfigSection) : (buildMap env d g it).2.1.getShortName = it.name :=
  MapSection.parse_getShortName env _ it []

theorem not_mem_names_of_hasMap_false (c : MapcrafterConfig W M) (name : String)
    (h : c.hasMap name = false) : name ∉ c.maps.map MapSection.getShortName := by
  intro hmem
  obtain ⟨m, hm, hn⟩ := List.mem_map.mp hmem
  have hall := List.any_eq_false.mp h m hm
  simp [hn] at hall

theorem not_mem_names_of_hasMarker_false (K : Sections W M) (c : MapcrafterConfig W M)
    (name : String) (h : hasMarker K c name = false) :
    name ∉ c.markers.map K.markerShortName := by
  intro hmem
  obtain ⟨m, hm, hn⟩ := List.mem_map.mp hmem
  have hall := List.any_eq_false.mp h m hm
  simp [hn] at hall

theorem mapStep_nodup (env : Env) (d : String) (st : PState W M) (it : INIConfigSection)
    (hinv : (st.cfg.maps.map MapSection.getShortName).Nodup) :
    ((mapStep env d st it).cfg.maps.map MapSection.getShortName).Nodup := by
  refine mapStep_cases env d st it
    (fun st' => (st'.cfg.maps.map MapSection.getShortName).Nodup) ?_ ?_ ?_ ?_
  · intro _; exact hinv
  · intro _ _; exact hinv
  · intro _ _ _ _; exact hinv
  · intro _ hd _
    show ((st.cfg.maps ++ [(buildMap env d st.cfg.map_global it).2.1]).map
      MapSection.getShortName).Nodup
    rw [List.map_append, List.map_singleton, buildMap_getShortName]
    exact nodup_snoc _ _ hinv (not_mem_names_of_hasMap_false st.cfg it.name hd)

theorem markerStep_nodup (K : Sections W M) (st : PState W M) (it : INIConfigSection)
    (hname : ∀ self sec v, K.markerShortName (sectionParse K.marker self sec v).2.1 = sec.name)
    (hinv : (st.cfg.markers.map K.markerShortName).Nodup) :
    ((markerStep K st it).cfg.markers.map K.markerShortName).Nodup := by
  refine markerStep_cases K st it
    (fun st' => (st'.cfg.markers.map K.markerShortName).Nodup) ?_ ?_ ?_
  · intro _; exact hinv
  · intro _ _; exact hinv
  · intro _ hd
    show ((st.cfg.markers ++ [(buildMarker K st.cfg.marker_global it).2.1]).map
      K.markerShortName).Nodup
    rw [List.map_append, List.map_singleton]
    have hn : K.markerShortName (buildMarker K st.cfg.marker_global it).2.1 = it.name :=
      hname _ it []
    rw [hn]
    exact nodup_snoc _ _ hinv (not_mem_names_of_hasMarker_false K st.cfg it.name hd)

theorem parseNamed_nodup (env : Env) (K : Sections W M) (d : String)
    (L : List INIConfigSection) (st : PState W M)
    (hname : ∀ self sec v, K.markerShortName (sectionParse K.marker self sec v).2.1 = sec.name)
    (hm : st.cfg.maps = []) (hk : st.cfg.markers = []) :
    ((parseNamed env K d L st).cfg.maps.map MapSection.getShortName).Nodup ∧
    ((parseNamed env K d L st).cfg.markers.map K.markerShortName).Nodup := by
  have s2m : (worldPass K d L (unknownScan L st)).cfg.maps = [] :=
    (worldPass_maps K d L _).1.trans hm
  have s2k : (worldPass K d L (unknownScan L st)).cfg.markers = [] :=
    (worldPass_maps K d L _).2.trans hk
  have s3 : ((mapPass env d L (worldPass K d L (unknownScan L st))).cfg.maps.map
      MapSection.getShortName).Nodup :=
    foldl_invariant (fun s : PState W M => (s.cfg.maps.map MapSection.getShortName).Nodup)
      (mapStep env d) L (fun s x _ hs => mapStep_nodup env d s x hs) _
      (by show (List.map MapSection.getShortName _).Nodup; rw [s2m]; exact List.nodup_nil)
  have s3k : (mapPass env d L (worldPass K d L (unknownScan L st))).cfg.markers = [] :=
    (mapPass_worlds env d L _).2.trans s2k
  have s4 : ((parseNamed env K d L st).cfg.markers.map K.markerShortName).Nodup :=
    foldl_invariant (fun s : PState W M => (s.cfg.markers.map K.markerShortName).Nodup)
      (markerStep K) L (fun s x _ hs => markerStep_nodup K s x hname hs) _
      (by show (List.map K.markerShortName _).Nodup; rw [s3k]; exact List.nodup_nil)
  refine ⟨?_, s4⟩
  have hme : (parseNamed env K d L st).cfg.maps
      = (mapPass env d L (worldPass K d L (unknownScan L st))).cfg.maps :=
    (markerPass_worlds K L _).2
  rw [hme]
  exact s3

/-! ## The world pass: the first section of a name is the one stored -/

theorem hasWorld_eq_isSome (c : MapcrafterConfig W M) (n : String) :
    c.hasWorld n = (mapFind c.worlds n).isSome :=
  mapCount_eq_isSome c.worlds n

theorem after_hasWorld {st st' : PState W M} (ha : After st st') (n : String)
    (h : st.cfg.hasWorld n = true) : st'.cfg.hasWorld n = true := by
  rw [hasWorld_eq_isSome] at h ⊢
  cases hf : mapFind st.cfg.worlds n with
  | none => rw [hf] at h; exact Bool.noConfusion h
  | some w => rw [ha.worlds n w hf]; rfl

theorem worldStep_hasWorld_other (K : Sections W M) (d : String) (st : PState W M)
    (x : INIConfigSection) (n : String) (h : x.type = "world" → x.name ≠ n) :
    (worldStep K d st x).cfg.hasWorld n = st.cfg.hasWorld n := by
  refine worldStep_cases K d st x (fun st' => st'.cfg.hasWorld n = st.cfg.hasWorld n) ?_ ?_ ?_
  · intro _; rfl
  · intro _ _; rfl
  · intro ht _
    have hne : ¬ n = x.name := fun e => h ht e.symm
    show mapCount (mapSet st.cfg.worlds x.name _) n = mapCount st.cfg.worlds n
    rw [mapCount_eq_isSome, mapCount_eq_isSome, mapFind_mapSet]
    simp [hne]

theorem worldStep_hasWorld_self (K : Sections W M) (d : String) (st : PState W M)
    (x : INIConfigSection) (h : x.type = "world") :
    (worldStep K d st x).cfg.hasWorld x.name = true := by
  refine worldStep_cases K d st x (fun st' => st'.cfg.hasWorld x.name = true) ?_ ?_ ?_
  · intro hne; exact absurd h hne
  · intro _ hd; exact hd
  · intro _ _
    show mapCount (mapSet st.cfg.worlds x.name _) x.name = true
    rw [mapCount_eq_isSome, mapFind_mapSet]
    simp

theorem worldFold_hasWorld_false (K : Sections W M) (d : String) (n : String)
    (l : List INIConfigSection) (st : PState W M)
    (hl : ∀ x ∈ l, x.type = "world" → x.name ≠ n) (h : st.cfg.hasWorld n = false) :
    (l.foldl (worldStep K d) st).cfg.hasWorld n = false :=
  foldl_invariant (fun s : PState W M => s.cfg.hasWorld n = false) (worldStep K d) l
    (fun s x hx hs => (worldStep_hasWorld_other K d s x n (hl x hx)).trans hs) st h

theorem worldFold_hasWorld_true (K : Sections W M) (d : String) (n : String)
    (l : List INIConfigSection) (st : PState W M)
    (hl : ∃ x ∈ l, x.type = "world" ∧ x.name = n) :
    (l.foldl (worldStep K d) st).cfg.hasWorld n = true := by
  induction l generalizing st with
  | nil =>
      obtain ⟨x, hx, _⟩ := hl
      exact absurd hx (List.not_mem_nil x)
  | cons y ys ih =>
      rw [List.foldl_cons]
      obtain ⟨x, hx, ht, hn⟩ := hl
      rcases List.mem_cons.mp hx with hxy | hxy
      · subst hxy
        have h1 : (worldStep K d st x).cfg.hasWorld n = true := by
          rw [← hn]; exact worldStep_hasWorld_self K d st x ht
        exact after_hasWorld (after_foldl (worldStep K d) (worldStep_after K d) ys _) n h1
      · exact ih (worldStep K d st y) ⟨x, hxy, ht, hn⟩

/-- In the world pass over `pre ++ it :: post`, a world section `it` with no earlier world
section of its name, reached while its name is free, ends up stored under its name. -/
theorem worldPass_first (K : Sections W M) (d : String) (pre post : List INIConfigSection)
    (it : INIConfigSection) (st : PState W M) (ht : it.type = "world")
    (hpre : ∀ x ∈ pre, x.type = "world" → x.name ≠ it.name)
    (hfree : st.cfg.hasWorld it.name = false) :
    mapFind (worldPass K d (pre ++ it :: post) st).cfg.worlds it.name
      = some (buildWorld K d st.cfg.world_global it).2.1 := by
  unfold worldPass
  rw [List.foldl_append, List.foldl_cons]
  have h1 := worldFold_hasWorld_false K d it.name pre st hpre hfree
  have hg : (pre.foldl (worldStep K d) st).cfg.world_global = st.cfg.world_global :=
    (after_foldl (worldStep K d) (worldStep_after K d) pre st).world_global
  have h2 : mapFind (worldStep K d (pre.foldl (worldStep K d) st) it).cfg.worlds it.name
      = some (buildWorld K d st.cfg.world_global it).2.1 := by
    rw [worldStep_new K d _ it ht h1]
    show mapFind (mapSet _ it.name _) it.name = _
    rw [mapFind_mapSet, hg]
    simp
  exact (after_foldl (worldStep K d) (worldStep_after K d) post _).worlds _ _ h2

/-- In the world pass over `pre ++ it :: post`, a world section `it` that has an earlier
world section of its name is not stored: its turn leaves the worlds as they are, records
the Error "World name ... already used!" after its own messages, and clears `ok`. -/
theorem worldPass_later (K : Sections W M) (d : String) (pre post : List INIConfigSection)
    (it : INIConfigSection) (st : PState W M) (ht : it.type = "world")
    (hpre : ∃ x ∈ pre, x.type = "world" ∧ x.name = it.name) :
    (worldStep K d (pre.foldl (worldStep K d) st) it).cfg.worlds
      = (pre.foldl (worldStep K d) st).cfg.worlds ∧
    ("World section '" ++ it.name ++ "'",
      (buildWorld K d st.cfg.world_global it).2.2 ++
        [ValidationMessage.error ("World name '" ++ it.name ++ "' already used!")])
      ∈ (worldPass K d (pre ++ it :: post) st).validation ∧
    (worldPass K d (pre ++ it :: post) st).ok = false := by
  have h1 := worldFold_hasWorld_true K d it.name pre st hpre
  have hg : (pre.foldl (worldStep K d) st).cfg.world_global = st.cfg.world_global :=
    (after_foldl (worldStep K d) (worldStep_after K d) pre st).world_global
  have hstep := worldStep_dup K d (pre.foldl (worldStep K d) st) it ht h1
  have hpost := after_foldl (worldStep K d) (worldStep_after K d) post
    (worldStep K d (pre.foldl (worldStep K d) st) it)
  refine ⟨by rw [hstep], ?_, ?_⟩
  · unfold worldPass
    rw [List.foldl_append, List.foldl_cons]
    obtain ⟨ext, hext⟩ := hpost.report
    rw [hext, hstep, hg]
    simp
  · unfold worldPass
    rw [List.foldl_append, List.foldl_cons]
    exact hpost.ok (by rw [hstep])

theorem worldStep_keys_nodup (K : Sections W M) (d : String) (st : PState W M)
    (it : INIConfigSection) (hinv : (st.cfg.worlds.map Prod.fst).Nodup) :
    ((worldStep K d st it).cfg.worlds.map Prod.fst).Nodup := by
  refine worldStep_cases K d st it (fun st' => (st'.cfg.worlds.map Prod.fst).Nodup) ?_ ?_ ?_
  · intro _; exact hinv
  · intro _ _; exact hinv
  · intro _ hd
    show ((mapSet st.cfg.worlds it.name _).map Prod.fst).Nodup
    rw [mapSet_of_absent _ _ _ hd, List.map_append, List.map_singleton]
    refine nodup_snoc _ _ hinv ?_
    intro hmem
    obtain ⟨e, he, hn⟩ := List.mem_map.mp hmem
    have hall := List.any_eq_false.mp hd e he
    simp [hn] at hall

/-! ## The global map section when the named passes are reached -/

theorem parseGlobals_of_reach (env : Env) (K : Sections W M) (config : INIConfig) (d : String)
    (st : PState W M) (hreach : (parseGlobals env K config d st).1 = false) :
    (stageWorlds K config d st).1 = false ∧
    (stageMaps env config d (stageWorlds K config d st).2).1 = false ∧
    parseGlobals env K config d st
      = stageMarkers K config (stageMaps env config d (stageWorlds K config d st).2).2 := by
  unfold parseGlobals at hreach ⊢
  simp only [] at hreach ⊢
  cases h1 : (stageWorlds K config d st).1 with
  | true =>
      rw [h1] at hreach
      simp only [if_true] at hreach
      rw [h1] at hreach
      exact Bool.noConfusion hreach
  | false =>
      rw [h1] at hreach
      simp only [Bool.false_eq_true, if_false] at hreach ⊢
      cases h2 : (stageMaps env config d (stageWorlds K config d st).2).1 with
      | true =>
          rw [h2] at hreach
          simp only [if_true] at hreach
          rw [h2] at hreach
          exact Bool.noConfusion hreach
      | false =>
          simp only [Bool.false_eq_true, if_false]
          exact ⟨trivial, trivial, trivial⟩

theorem stageWorlds_map_global (K : Sections W M) (config : INIConfig) (d : String)
    (st : PState W M) : (stageWorlds K config d st).2.cfg.map_global = st.cfg.map_global := by
  unfold stageWorlds
  split <;> rfl

theorem stageMarkers_map_global (K : Sections W M) (config : INIConfig) (st : PState W M) :
    (stageMarkers K config st).2.cfg.map_global = st.cfg.map_global := by
  unfold stageMarkers
  split <;> rfl

theorem stageMaps_map_global (env : Env) (config : INIConfig) (d : String) (st : PState W M) :
    (stageMaps env config d st).2.cfg.map_global =
      if config.hasSection "global" "maps" = true then
        (MapSection.parse env (st.cfg.map_global.setConfigDir d)
          (config.getSection "global" "maps") []).2.1
      else st.cfg.map_global := by
  unfold stageMaps
  split <;> rfl

/-- When the named passes are reached, the global map section is the parse of the
section `global:maps` if the file has one, and is untouched otherwise. -/
theorem parseGlobals_map_global (env : Env) (K : Sections W M) (config : INIConfig)
    (d : String) (st : PState W M) (hreach : (parseGlobals env K config d st).1 = false) :
    (parseGlobals env K config d st).2.cfg.map_global =
      if config.hasSection "global" "maps" = true then
        (MapSection.parse env (st.cfg.map_global.setConfigDir d)
          (config.getSection "global" "maps") []).2.1
      else st.cfg.map_global := by
  rw [(parseGlobals_of_reach env K config d st hreach).2.2, stageMarkers_map_global,
    stageMaps_map_global, stageWorlds_map_global]

/-! ## The global stages: when they stop, and what they record -/

theorem stageWorlds_stop (K : Sections W M) (config : INIConfig) (d : String) (st : PState W M)
    (hhas : config.hasSection "global" "worlds" = true)
    (herr : hasError (sectionParse K.world (K.worldSetConfigDir st.cfg.world_global d)
      (config.getSection "global" "worlds") []).2.2 = true) :
    (stageWorlds K config d st).1 = true := by
  simp [stageWorlds, globalWorlds, hhas, sectionParse_fst, herr]

theorem stageMaps_stop (env : Env) (config : INIConfig) (d : String) (st : PState W M)
    (hhas : config.hasSection "global" "maps" = true)
    (herr : hasError (MapSection.parse env (st.cfg.map_global.setConfigDir d)
      (config.getSection "global" "maps") []).2.2 = true) :
    (stageMaps env config d st).1 = true := by
  have h1 : (MapSection.parse env (st.cfg.map_global.setConfigDir d)
      (config.getSection "global" "maps") []).1 = false := by
    unfold MapSection.parse at herr ⊢
    rw [sectionParse_fst, herr]
    rfl
  simp [stageMaps, globalMaps, hhas, h1]

theorem stageMarkers_stop (K : Sections W M) (config : INIConfig) (st : PState W M)
    (hhas : config.hasSection "global" "markers" = true)
    (herr : hasError (sectionParse K.marker st.cfg.marker_global
      (config.getSection "global" "markers") []).2.2 = true) :
    (stageMarkers K config st).1 = true := by
  simp [stageMarkers, globalMarkers, hhas, sectionParse_fst, herr]

theorem stageWorlds_others (K : Sections W M) (config : INIConfig) (d : String)
    (st : PState W M) :
    (stageWorlds K config d st).2.cfg.marker_global = st.cfg.marker_global := by
  unfold stageWorlds
  split <;> rfl

theorem stageMaps_others (env : Env) (config : INIConfig) (d : String) (st : PState W M) :
    (stageMaps env config d st).2.cfg.marker_global = st.cfg.marker_global ∧
    (stageMaps env config d st).2.cfg.world_global = st.cfg.world_global := by
  unfold stageMaps
  split <;> exact ⟨rfl, rfl⟩

theorem scope_labels {P : String → Prop} (validation : ValidationMap) (label : String)
    (msgs : ValidationList) (h : ∀ e ∈ validation, P e.1) (hl : P label) :
    ∀ e ∈ (if msgs ≠ [] then validation ++ [(label, msgs)] else validation), P e.1 := by
  intro e he
  split at he
  · rcases List.mem_append.mp he with h1 | h1
    · exact h e h1
    · have : e = (label, msgs) := by simpa using h1
      rw [this]; exact hl
  · exact h e he

theorem parseGeneral_labels (env : Env) (config : INIConfig) (d : String)
    (c : MapcrafterConfig W M) (validation : ValidationMap)
    (h : ∀ e ∈ validation, isGlobalLabel e.1) :
    ∀ e ∈ (parseGeneral env config d c validation).validation, isGlobalLabel e.1 := by
  unfold parseGeneral
  simp only []
  exact scope_labels validation _ _ h (Or.inl rfl)

theorem stageWorlds_labels (K : Sections W M) (config : INIConfig) (d : String)
    (st : PState W M) (h : ∀ e ∈ st.validation, isGlobalLabel e.1) :
    ∀ e ∈ (stageWorlds K config d st).2.validation, isGlobalLabel e.1 := by
  unfold stageWorlds
  split
  · exact scope_labels st.validation _ _ h (Or.inr (Or.inl rfl))
  · exact h

theorem stageMaps_labels (env : Env) (config : INIConfig) (d : String)
    (st : PState W M) (h : ∀ e ∈ st.validation, isGlobalLabel e.1) :
    ∀ e ∈ (stageMaps env config d st).2.validation, isGlobalLabel e.1 := by
  unfold stageMaps
  split
  · exact scope_labels st.validation _ _ h (Or.inr (Or.inr (Or.inl rfl)))
  · exact h

theorem stageMarkers_labels (K : Sections W M) (config : INIConfig)
    (st : PState W M) (h : ∀ e ∈ st.validation, isGlobalLabel e.1) :
    ∀ e ∈ (stageMarkers K config st).2.validation, isGlobalLabel e.1 := by
  unfold stageMarkers
  split
  · exact scope_labels st.validation _ _ h (Or.inr (Or.inr (Or.inr rfl)))
  · exact h

theorem parseGlobals_labels (env : Env) (K : Sections W M) (config : INIConfig) (d : String)
    (st : PState W M) (h : ∀ e ∈ st.validation, isGlobalLabel e.1) :
    ∀ e ∈ (parseGlobals env K config d st).2.validation, isGlobalLabel e.1 := by
  have h1 := stageWorlds_labels K config d st h
  have h2 := stageMaps_labels env config d _ h1
  have h3 := stageMarkers_labels K config _ h2
  unfold parseGlobals
  simp only []
  split
  · exact h1
  · split
    · exact h2
    · exact h3

/-- The labels of the scopes of named and unknown-type sections are none of the labels of
the root and global scopes. -/
theorem named_labels_not_global (name type : String) :
    ¬ isGlobalLabel ("World section '" ++ name ++ "'") ∧
    ¬ isGlobalLabel ("Map section '" ++ name ++ "'") ∧
    ¬ isGlobalLabel ("Marker section '" ++ name ++ "'") ∧
    ¬ isGlobalLabel ("Section '" ++ name ++ "' with type '" ++ type ++ "'") := by
  refine ⟨?_, ?_, ?_, ?_⟩ <;>
  · rintro (h | h | h | h) <;>
    · have h2 := congrArg String.data h
      simp only [String.data_append] at h2
      have h3 := congrArg List.head? h2
      simp at h3

/-! ## The sample section class -/

theorem sample_parseEntry_name_short (acc : Sample.Sec × ValidationList)
    (entry : String × String) :
    (parseEntry Sample.secClass acc entry).1.name_short = acc.1.name_short := by
  unfold parseEntry Sample.secClass
  simp only []
  split_ifs <;> rfl

/-- A section parsed by the sample class has the declared name as short name. -/
theorem sample_parse_short_name (self : Sample.Sec) (sec : INIConfigSection)
    (v : ValidationList) :
    Sample.sections.markerShortName (sectionParse Sample.sections.marker self sec v).2.1
      = sec.name := by
  have hfold : ∀ (l : List (String × String)) (acc : Sample.Sec × ValidationList),
      (List.foldl (parseEntry Sample.secClass) acc l).1.name_short = acc.1.name_short := by
    intro l
    induction l with
    | nil => intro acc; rfl
    | cons e es ih =>
        intro acc
        rw [List.foldl_cons, ih, sample_parseEntry_name_short]
  show (Sample.secClass.postParse
    (List.foldl (parseEntry Sample.secClass) _ sec.entries).1 sec _).1.name_short = sec.name
  have hpost : ∀ (x : Sample.Sec) (w : ValidationList),
      (Sample.secClass.postParse x sec w).1.name_short = x.name_short := by
    intro x w
    unfold Sample.secClass
    simp only []
    split_ifs <;> rfl
  rw [hpost, hfold]
  rfl

/-! ## C1: the return value and the Errors of the report -/

/-- C1, evaluated where the code departs from it: a root key `background_color = red` (and
likewise a `template_dir` that is no directory) records an Error in the scope
"Configuration file", and `parse` still returns `true`. -/
theorem parse_true_despite_root_error :
    (Sample.run Sample.badColorFile).ok = true ∧
    (Sample.run Sample.badColorFile).validation =
      [("Configuration file", [ValidationMessage.error
        "background_color is invalid: Hex color must be in the format '#rrggbb'."])] ∧
    reportHasError (Sample.run Sample.badColorFile).validation = true ∧
    (Sample.run Sample.badTemplateFile).ok = true ∧
    reportHasError (Sample.run Sample.badTemplateFile).validation = true := by
  decide

/-! ## C2: what is stored -/

/-- C2 as stated fails: the map section `m1` with `texture_size = 64` records an Error in
its own scope and is stored in the final maps all the same; so is a map section that lacks
the required `world`. -/
theorem stored_map_with_error_in_scope :
    (Sample.run Sample.bigTextureFile).cfg.maps.map MapSection.getShortName = ["m1"] ∧
    (Sample.run Sample.bigTextureFile).validation =
      [("Map section 'm1'",
        [ValidationMessage.error "'texture_size' must a number between 1 and 32!"])] ∧
    (Sample.run Sample.bigTextureFile).ok = false ∧
    (Sample.run Sample.missingWorldFile).cfg.maps.map MapSection.getShortName = ["m1"] ∧
    (Sample.run Sample.missingWorldFile).validation =
      [("Map section 'm1'",
        [ValidationMessage.error "You have to specify a world ('world')!"])] ∧
    (Sample.run Sample.missingWorldFile).ok = false := by
  decide

/-! ## C3: referential integrity -/

/-- C3: after `parse` on a fresh configuration, for every input (whether or not the file
loads), every map of the final maps sequence whose world is non-empty names a key of the
final worlds mapping: `hasWorld(map.getWorld())` holds. -/
theorem stored_maps_name_stored_worlds (env : Env) (K : Sections W M) (filename : String)
    (w0 : W) (k0 : M) :
    ∀ m ∈ (parse env K filename (new w0 k0) []).cfg.maps,
      m.getWorld ≠ "" →
        (parse env K filename (new w0 k0) []).cfg.hasWorld m.getWorld = true := by
  refine parse_cases env K filename (new w0 k0) []
    (fun fin => ∀ m ∈ fin.cfg.maps, m.getWorld ≠ "" → fin.cfg.hasWorld m.getWorld = true)
    ?_ ?_ ?_
  · intro _ _ m hm
    exact absurd hm (List.not_mem_nil m)
  · intro config _ _ m hm
    have he : m ∈ (parseGlobals env K config (env.parentPath filename)
        (parseGeneral env config (env.parentPath filename) (new w0 k0) [])).2.cfg.maps := hm
    rw [(entry_collections env K config (env.parentPath filename) (new w0 k0) []).2.1] at he
    exact absurd he (List.not_mem_nil m)
  · intro config _ _ m hm hne
    rcases parseNamed_worldRef env K (env.parentPath filename) config.sections _
      (entry_collections env K config (env.parentPath filename) (new w0 k0) []).2.1 m hm
      with h | h
    · exact absurd h hne
    · exact h

/-- C3 at scenario A of the spec: the stored map names the stored world `w1`. -/
theorem stored_maps_name_stored_worlds_witness :
    Sample.mapA ∈ (Sample.run Sample.scenarioA).cfg.maps ∧
    Sample.mapA.getWorld ≠ "" ∧
    (Sample.run Sample.scenarioA).cfg.hasWorld Sample.mapA.getWorld = true :=
  ⟨by decide, by decide,
    stored_maps_name_stored_worlds (Sample.env Sample.scenarioA) Sample.sections
      "mapcrafter.conf" (Sample.sec0 true) (Sample.sec0 false) Sample.mapA
      (by decide) (by decide)⟩

/-! ## C5: short names are unique -/

/-- C5: after `parse` on a fresh configuration, for every input, the short names of the
maps in the final maps sequence are pairwise distinct, and so are the short names of the
markers in the final markers sequence. The sources of the marker class are not available;
what is used of it is that a parsed marker section has the declared name of its raw section
as short name (spec 3), as a parsed map section has. -/
theorem short_names_distinct (env : Env) (K : Sections W M) (filename : String)
    (w0 : W) (k0 : M)
    (hname : ∀ self sec v, K.markerShortName (sectionParse K.marker self sec v).2.1 = sec.name) :
    ((parse env K filename (new w0 k0) []).cfg.maps.map MapSection.getShortName).Nodup ∧
    ((parse env K filename (new w0 k0) []).cfg.markers.map K.markerShortName).Nodup := by
  refine parse_cases env K filename (new w0 k0) []
    (fun fin => (fin.cfg.maps.map MapSection.getShortName).Nodup ∧
      (fin.cfg.markers.map K.markerShortName).Nodup) ?_ ?_ ?_
  · intro _ _
    exact ⟨List.nodup_nil, List.nodup_nil⟩
  · intro config _ _
    have h := entry_collections env K config (env.parentPath filename) (new w0 k0) []
    show ((parseGlobals env K config (env.parentPath filename)
        (parseGeneral env config (env.parentPath filename) (new w0 k0) [])).2.cfg.maps.map
          MapSection.getShortName).Nodup ∧
      ((parseGlobals env K config (env.parentPath filename)
        (parseGeneral env config (env.parentPath filename) (new w0 k0) [])).2.cfg.markers.map
          K.markerShortName).Nodup
    rw [h.2.1, h.2.2]
    exact ⟨List.nodup_nil, List.nodup_nil⟩
  · intro config _ _
    have h := entry_collections env K config (env.parentPath filename) (new w0 k0) []
    exact parseNamed_nodup env K (env.parentPath filename) config.sections _ hname h.2.1 h.2.2

/-- C5 at a file with two maps named `m` and markers named `a`, `a`, `b`, for the sample
marker class. -/
theorem short_names_distinct_witness :
    (∀ self sec v,
      Sample.sections.markerShortName (sectionParse Sample.sections.marker self sec v).2.1
        = sec.name) ∧
    ((Sample.run Sample.namesFile).cfg.maps.map MapSection.getShortName).Nodup ∧
    ((Sample.run Sample.namesFile).cfg.markers.map Sample.sections.markerShortName).Nodup :=
  ⟨sample_parse_short_name,
    short_names_distinct (Sample.env Sample.namesFile) Sample.sections "mapcrafter.conf"
      (Sample.sec0 true) (Sample.sec0 false) sample_parse_short_name⟩

/-! ## C4: world names, first occurrence wins -/

/-- C4 as stated ("for every input") fails: when a global section records an Error, `parse`
returns before the world pass; with two world sections named `w` in the file the final
worlds mapping is empty and no "already used" Error is recorded. -/
theorem duplicate_worlds_unseen_after_global_error :
    (Sample.run Sample.globalErrorFile).cfg.worlds = [] ∧
    (Sample.run Sample.globalErrorFile).validation =
      [("Global map configuration",
        [ValidationMessage.error "'texture_size' must a number between 1 and 32!"])] ∧
    (Sample.run Sample.globalErrorFile).ok = false := by
  decide

/-- C4 (amended): for every input that loads and whose parse gets past the global
sections (none of the three `return false` of lines 116, 126, 135 is taken), on a fresh
configuration: a world section with no earlier world section of its name is the one the
final worlds mapping holds under that name, also when it comes after a duplicate; a world
section with an earlier world section of its name adds the Error "World name '<name>'
already used!" after its own messages in the scope "World section '<name>'" and `parse`
returns `false`; and the final worlds mapping has one entry per name, so the later
occurrence is not stored. -/
theorem first_world_wins (env : Env) (K : Sections W M) (filename : String)
    (w0 : W) (k0 : M) (config : INIConfig) (pre post : List INIConfigSection)
    (it : INIConfigSection)
    (hload : env.loadFile filename = Except.ok config)
    (hreach : (parseGlobals env K config (env.parentPath filename)
      (parseGeneral env config (env.parentPath filename) (new w0 k0) [])).1 = false)
    (hsplit : config.sections = pre ++ it :: post) (ht : it.type = "world") :
    ((∀ x ∈ pre, x.type = "world" → x.name ≠ it.name) →
      mapFind (parse env K filename (new w0 k0) []).cfg.worlds it.name
        = some (buildWorld K (env.parentPath filename)
            (parse env K filename (new w0 k0) []).cfg.world_global it).2.1) ∧
    ((∃ x ∈ pre, x.type = "world" ∧ x.name = it.name) →
      ("World section '" ++ it.name ++ "'",
        (buildWorld K (env.parentPath filename)
            (parse env K filename (new w0 k0) []).cfg.world_global it).2.2 ++
          [ValidationMessage.error ("World name '" ++ it.name ++ "' already used!")])
        ∈ (parse env K filename (new w0 k0) []).validation ∧
      (parse env K filename (new w0 k0) []).ok = false) ∧
    ((parse env K filename (new w0 k0) []).cfg.worlds.map Prod.fst).Nodup := by
  have hcol := entry_collections env K config (env.parentPath filename) (new w0 k0) []
  rw [parse_loaded env K filename (new w0 k0) [] config hload, hreach]
  simp only [Bool.false_eq_true, if_false]
  generalize (parseGlobals env K config (env.parentPath filename)
    (parseGeneral env config (env.parentPath filename) (new w0 k0) [])).2 = E at hcol
  have hEw : E.cfg.worlds = [] := hcol.1
  have hfin := parseNamed_after env K (env.parentPath filename) config.sections E
  have hrest : After (worldPass K (env.parentPath filename) config.sections
        (unknownScan config.sections E))
      (parseNamed env K (env.parentPath filename) config.sections E) :=
    after_trans (mapPass_after env _ _ _) (markerPass_after K _ _)
  have hworlds : (parseNamed env K (env.parentPath filename) config.sections E).cfg.worlds
      = (worldPass K (env.parentPath filename) config.sections
          (unknownScan config.sections E)).cfg.worlds :=
    (markerPass_worlds K _ _).1.trans (mapPass_worlds env _ _ _).1
  rw [hfin.world_global]
  refine ⟨?_, ?_, ?_⟩
  · intro hpre
    rw [hworlds, hsplit]
    have hfree : (unknownScan (pre ++ it :: post) E).cfg.hasWorld it.name = false := by
      show mapCount E.cfg.worlds it.name = false
      rw [hEw]
      rfl
    exact worldPass_first K _ pre post it _ ht hpre hfree
  · intro hpre
    have h := worldPass_later K (env.parentPath filename) pre post it
      (unknownScan config.sections E) ht hpre
    rw [← hsplit] at h
    obtain ⟨ext, hext⟩ := hrest.report
    refine ⟨?_, hrest.ok h.2.2⟩
    rw [hext]
    exact List.mem_append_left _ h.2.1
  · rw [hworlds]
    exact foldl_invariant (fun s : PState W M => (s.cfg.worlds.map Prod.fst).Nodup)
      (worldStep K (env.parentPath filename)) config.sections
      (fun s x _ hs => worldStep_keys_nodup K _ s x hs) _
      (by show (List.map Prod.fst E.cfg.worlds).Nodup; rw [hEw]; exact List.nodup_nil)

/-- The amended C4 at a file with the world sections `w`, `w`, `v`: the second `w` is
reported as already used, `parse` returns `false`, and the keys of the worlds are distinct. -/
theorem first_world_wins_witness :
    (Sample.env Sample.twoWorldsFile).loadFile "mapcrafter.conf"
      = Except.ok Sample.twoWorldsFile ∧
    (parseGlobals (Sample.env Sample.twoWorldsFile) Sample.sections Sample.twoWorldsFile
      "/etc/mapcrafter"
      (parseGeneral (Sample.env Sample.twoWorldsFile) Sample.twoWorldsFile "/etc/mapcrafter"
        Sample.fresh [])).1 = false ∧
    Sample.twoWorldsFile.sections = [Sample.worldW1] ++ Sample.worldW2 :: [Sample.worldV] ∧
    Sample.worldW2.type = "world" ∧
    (∃ x ∈ [Sample.worldW1], x.type = "world" ∧ x.name = Sample.worldW2.name) ∧
    ("World section '" ++ Sample.worldW2.name ++ "'",
      (buildWorld Sample.sections "/etc/mapcrafter"
          (Sample.run Sample.twoWorldsFile).cfg.world_global Sample.worldW2).2.2 ++
        [ValidationMessage.error ("World name '" ++ Sample.worldW2.name ++ "' already used!")])
      ∈ (Sample.run Sample.twoWorldsFile).validation ∧
    (Sample.run Sample.twoWorldsFile).ok = false ∧
    ((Sample.run Sample.twoWorldsFile).cfg.worlds.map Prod.fst).Nodup :=
  ⟨rfl, by decide, rfl, rfl, by decide,
    ((first_world_wins (Sample.env Sample.twoWorldsFile) Sample.sections "mapcrafter.conf"
      (Sample.sec0 true) (Sample.sec0 false) Sample.twoWorldsFile [Sample.worldW1]
      [Sample.worldV] Sample.worldW2 rfl (by decide) rfl rfl).2.1 (by decide)).1,
    ((first_world_wins (Sample.env Sample.twoWorldsFile) Sample.sections "mapcrafter.conf"
      (Sample.sec0 true) (Sample.sec0 false) Sample.twoWorldsFile [Sample.worldW1]
      [Sample.worldV] Sample.worldW2 rfl (by decide) rfl rfl).2.1 (by decide)).2,
    (first_world_wins (Sample.env Sample.twoWorldsFile) Sample.sections "mapcrafter.conf"
      (Sample.sec0 true) (Sample.sec0 false) Sample.twoWorldsFile [Sample.worldW1]
      [Sample.worldV] Sample.worldW2 rfl (by decide) rfl rfl).2.2⟩

/-! ## C6: inheritance of `texture_size` from the global map section -/

/-- C6: on a fresh configuration, every stored map `m` is the object built from a map
section of the file as a copy of the global map section, and for every section `it` it is
built from: if `it` sets `texture_size` (last such key) to a text that converts to `n`, then
`m.getTextureSize = n`; if `it` has no `texture_size` key, then `m.getTextureSize` is the
value `g` that the section `global:maps` loaded, although `preParse` calls
`texture_size.setDefault(12)` on the copy, and it is 12 when the file has no section
`global:maps`. -/
theorem texture_size_inherited (env : Env) (K : Sections W M) (filename : String)
    (w0 : W) (k0 : M) (config : INIConfig)
    (hload : env.loadFile filename = Except.ok config) :
    ∀ m ∈ (parse env K filename (new w0 k0) []).cfg.maps,
      (∃ it ∈ config.sections, it.type = "map" ∧
        m = (buildMap env (env.parentPath filename)
          (parse env K filename (new w0 k0) []).cfg.map_global it).2.1) ∧
      ∀ it : INIConfigSection,
        m = (buildMap env (env.parentPath filename)
          (parse env K filename (new w0 k0) []).cfg.map_global it).2.1 →
        (∀ v n, lastValue it.entries "texture_size" = some v → env.asInt v = Except.ok n →
          m.getTextureSize = n) ∧
        (lastValue it.entries "texture_size" = none →
          (config.hasSection "global" "maps" = true →
            ∀ v g, lastValue (config.getSection "global" "maps").entries "texture_size" = some v →
              env.asInt v = Except.ok g → m.getTextureSize = g) ∧
          (config.hasSection "global" "maps" = false → m.getTextureSize = 12)) := by
  have hcol := entry_collections env K config (env.parentPath filename) (new w0 k0) []
  have hgen := parseGeneral_frame env config (env.parentPath filename) (new w0 k0) []
  rw [parse_loaded env K filename (new w0 k0) [] config hload]
  cases hreach : (parseGlobals env K config (env.parentPath filename)
      (parseGeneral env config (env.parentPath filename) (new w0 k0) [])).1 with
  | true =>
      simp only [if_true]
      intro m hm
      have he : m ∈ (parseGlobals env K config (env.parentPath filename)
          (parseGeneral env config (env.parentPath filename) (new w0 k0) [])).2.cfg.maps := hm
      rw [hcol.2.1] at he
      exact absurd he (List.not_mem_nil m)
  | false =>
      simp only [Bool.false_eq_true, if_false]
      have hG := parseGlobals_map_global env K config (env.parentPath filename) _ hreach
      rw [hgen.2.2.2.2.1] at hG
      have hacc := (parseNamed_accepted env K (env.parentPath filename) config.sections _
        hcol.1 hcol.2.1 hcol.2.2).2.1
      have hfin := parseNamed_after env K (env.parentPath filename) config.sections
        (parseGlobals env K config (env.parentPath filename)
          (parseGeneral env config (env.parentPath filename) (new w0 k0) [])).2
      intro m hm
      obtain ⟨it0, hit0, ht0, hm0, _, _⟩ := hacc m hm
      refine ⟨⟨it0, hit0, ht0, hm0⟩, ?_⟩
      intro it hmit
      rw [hfin.map_global] at hmit
      refine ⟨?_, ?_⟩
      · intro v n hv hn
        rw [hmit]
        exact MapSection.getTextureSize_of_value _ n
          (MapSection.parse_texture_size_present env _ it [] v n hv hn)
      · intro hnone
        have hval : m.getTextureSize =
            (match (parseGlobals env K config (env.parentPath filename)
                (parseGeneral env config (env.parentPath filename) (new w0 k0) [])).2.cfg.map_global.texture_size.value with
             | some g => g
             | none => 12) := by
          rw [hmit]
          exact MapSection.parse_getTextureSize_absent env _ it [] hnone
        refine ⟨?_, ?_⟩
        · intro hhas v g hv hg
          rw [hval, hG, hhas]
          simp only [if_true]
          rw [MapSection.parse_texture_size_present env _ _ [] v g hv hg]
        · intro hhas
          rw [hval, hG, hhas]
          rfl

/-- C6 at a file whose section `global:maps` sets `texture_size = 16`: the map without the
key has the texture size 16. -/
theorem texture_size_inherited_witness :
    (Sample.env Sample.inheritFile).loadFile "mapcrafter.conf" = Except.ok Sample.inheritFile ∧
    Sample.mapInherited ∈ (Sample.run Sample.inheritFile).cfg.maps ∧
    Sample.mapInherited = (buildMap (Sample.env Sample.inheritFile) "/etc/mapcrafter"
      (Sample.run Sample.inheritFile).cfg.map_global Sample.mapPlain).2.1 ∧
    lastValue Sample.mapPlain.entries "texture_size" = none ∧
    Sample.inheritFile.hasSection "global" "maps" = true ∧
    lastValue (Sample.inheritFile.getSection "global" "maps").entries "texture_size"
      = some "16" ∧
    (Sample.env Sample.inheritFile).asInt "16" = Except.ok 16 ∧
    Sample.mapInherited.getTextureSize = 16 :=
  ⟨rfl, by decide, by decide, by decide, by decide, by decide, by decide,
    ((((texture_size_inherited (Sample.env Sample.inheritFile) Sample.sections
      "mapcrafter.conf" (Sample.sec0 true) (Sample.sec0 false) Sample.inheritFile rfl
      Sample.mapInherited (by decide)).2 Sample.mapPlain (by decide)).2 (by decide)).1
      (by decide)) "16" 16 (by decide) (by decide)⟩

/-! ## C7: the global baselines are framed -/

/-- C7: for every input that loads and every configuration object, the global world, map
and marker sections when `parse` returns are the ones that the global stage (lines 109-136)
left; and one turn of the world, map or marker loop, in any state, leaves the three global
sections and the general fields as they are, keeps every stored world under its key and
every stored map and marker at its place, only appends to the report and never sets `ok`
again; a turn of one loop does not touch the collections of the other two. -/
theorem globals_and_stored_framed (env : Env) (K : Sections W M) (filename : String)
    (c : MapcrafterConfig W M) (validation : ValidationMap) (config : INIConfig)
    (hload : env.loadFile filename = Except.ok config) :
    ((parse env K filename c validation).cfg.world_global =
        (parseGlobals env K config (env.parentPath filename)
          (parseGeneral env config (env.parentPath filename) c validation)).2.cfg.world_global ∧
      (parse env K filename c validation).cfg.map_global =
        (parseGlobals env K config (env.parentPath filename)
          (parseGeneral env config (env.parentPath filename) c validation)).2.cfg.map_global ∧
      (parse env K filename c validation).cfg.marker_global =
        (parseGlobals env K config (env.parentPath filename)
          (parseGeneral env config (env.parentPath filename) c validation)).2.cfg.marker_global) ∧
    (∀ (st : PState W M) (it : INIConfigSection),
      After st (worldStep K (env.parentPath filename) st it) ∧
      After st (mapStep env (env.parentPath filename) st it) ∧
      After st (markerStep K st it) ∧
      (worldStep K (env.parentPath filename) st it).cfg.maps = st.cfg.maps ∧
      (worldStep K (env.parentPath filename) st it).cfg.markers = st.cfg.markers ∧
      (mapStep env (env.parentPath filename) st it).cfg.worlds = st.cfg.worlds ∧
      (mapStep env (env.parentPath filename) st it).cfg.markers = st.cfg.markers ∧
      (markerStep K st it).cfg.worlds = st.cfg.worlds ∧
      (markerStep K st it).cfg.maps = st.cfg.maps) := by
  refine ⟨?_, ?_⟩
  · rw [parse_loaded env K filename c validation config hload]
    by_cases hg : (parseGlobals env K config (env.parentPath filename)
        (parseGeneral env config (env.parentPath filename) c validation)).1 = true
    · rw [if_pos hg]
      exact ⟨rfl, rfl, rfl⟩
    · rw [if_neg hg]
      have h := parseNamed_after env K (env.parentPath filename) config.sections
        (parseGlobals env K config (env.parentPath filename)
          (parseGeneral env config (env.parentPath filename) c validation)).2
      exact ⟨h.world_global, h.map_global, h.marker_global⟩
  · intro st it
    exact ⟨worldStep_after K _ st it, mapStep_after env _ st it, markerStep_after K st it,
      (worldStep_maps K _ st it).1, (worldStep_maps K _ st it).2,
      (mapStep_worlds env _ st it).1, (mapStep_worlds env _ st it).2,
      (markerStep_worlds K st it).1, (markerStep_worlds K st it).2⟩

/-- C7 at a sample file: the global map section is the one the global stage left, and a
further turn of the map loop comes after the state it starts in. -/
theorem globals_and_stored_framed_witness :
    (Sample.env Sample.inheritFile).loadFile "mapcrafter.conf" = Except.ok Sample.inheritFile ∧
    (Sample.run Sample.inheritFile).cfg.map_global =
      (parseGlobals (Sample.env Sample.inheritFile) Sample.sections Sample.inheritFile
        "/etc/mapcrafter"
        (parseGeneral (Sample.env Sample.inheritFile) Sample.inheritFile "/etc/mapcrafter"
          Sample.fresh [])).2.cfg.map_global ∧
    After (Sample.run Sample.inheritFile)
      (mapStep (Sample.env Sample.inheritFile) "/etc/mapcrafter"
        (Sample.run Sample.inheritFile) Sample.mapEight) :=
  ⟨rfl,
    (globals_and_stored_framed (Sample.env Sample.inheritFile) Sample.sections
      "mapcrafter.conf" Sample.fresh [] Sample.inheritFile rfl).1.2.1,
    ((globals_and_stored_framed (Sample.env Sample.inheritFile) Sample.sections
      "mapcrafter.conf" Sample.fresh [] Sample.inheritFile rfl).2
      (Sample.run Sample.inheritFile) Sample.mapEight).2.1⟩

/-! ## C8: an Error in a global section ends the parse -/

/-- C8: on a fresh configuration and an empty report, if the section `global:worlds`,
`global:maps` or `global:markers` of the file records an Error in its section parse, then
`parse` returns `false`, the final worlds, maps and markers are empty, every scope of the
report is the root scope or a global scope, and the report has no scope of a world, map,
marker or unknown-type section. -/
theorem global_error_is_terminal (env : Env) (K : Sections W M) (filename : String)
    (w0 : W) (k0 : M) (config : INIConfig)
    (hload : env.loadFile filename = Except.ok config)
    (herr :
      (config.hasSection "global" "worlds" = true ∧
        hasError (sectionParse K.world (K.worldSetConfigDir w0 (env.parentPath filename))
          (config.getSection "global" "worlds") []).2.2 = true) ∨
      (config.hasSection "global" "maps" = true ∧
        hasError (MapSection.parse env ((MapSection.new true).setConfigDir (env.parentPath filename))
          (config.getSection "global" "maps") []).2.2 = true) ∨
      (config.hasSection "global" "markers" = true ∧
        hasError (sectionParse K.marker k0 (config.getSection "global" "markers") []).2.2
          = true)) :
    (parse env K filename (new w0 k0) []).ok = false ∧
    (parse env K filename (new w0 k0) []).cfg.worlds = [] ∧
    (parse env K filename (new w0 k0) []).cfg.maps = [] ∧
    (parse env K filename (new w0 k0) []).cfg.markers = [] ∧
    (∀ e ∈ (parse env K filename (new w0 k0) []).validation, isGlobalLabel e.1) ∧
    (∀ (name type : String) (msgs : ValidationList),
      ("World section '" ++ name ++ "'", msgs) ∉ (parse env K filename (new w0 k0) []).validation ∧
      ("Map section '" ++ name ++ "'", msgs) ∉ (parse env K filename (new w0 k0) []).validation ∧
      ("Marker section '" ++ name ++ "'", msgs) ∉
        (parse env K filename (new w0 k0) []).validation ∧
      ("Section '" ++ name ++ "' with type '" ++ type ++ "'", msgs) ∉
        (parse env K filename (new w0 k0) []).validation) := by
  have hcol := entry_collections env K config (env.parentPath filename) (new w0 k0) []
  have hgen := parseGeneral_frame env config (env.parentPath filename) (new w0 k0) []
  have hstop : (parseGlobals env K config (env.parentPath filename)
      (parseGeneral env config (env.parentPath filename) (new w0 k0) [])).1 = true := by
    cases hr : (parseGlobals env K config (env.parentPath filename)
        (parseGeneral env config (env.parentPath filename) (new w0 k0) [])).1 with
    | true => rfl
    | false =>
        exfalso
        obtain ⟨h1, h2, h3⟩ := parseGlobals_of_reach env K config (env.parentPath filename) _ hr
        rcases herr with ⟨hhas, he⟩ | ⟨hhas, he⟩ | ⟨hhas, he⟩
        · have := stageWorlds_stop K config (env.parentPath filename)
            (parseGeneral env config (env.parentPath filename) (new w0 k0) []) hhas
            (by rw [hgen.2.2.2.1]; exact he)
          rw [h1] at this
          exact Bool.noConfusion this
        · have := stageMaps_stop env config (env.parentPath filename)
            (stageWorlds K config (env.parentPath filename)
              (parseGeneral env config (env.parentPath filename) (new w0 k0) [])).2 hhas
            (by rw [stageWorlds_map_global, hgen.2.2.2.2.1]; exact he)
          rw [h2] at this
          exact Bool.noConfusion this
        · have := stageMarkers_stop K config
            (stageMaps env config (env.parentPath filename)
              (stageWorlds K config (env.parentPath filename)
                (parseGeneral env config (env.parentPath filename) (new w0 k0) [])).2).2 hhas
            (by rw [(stageMaps_others env config _ _).1, stageWorlds_others,
                  hgen.2.2.2.2.2]; exact he)
          rw [← h3, hr] at this
          exact Bool.noConfusion this
  have hlab : ∀ e ∈ (parseGlobals env K config (env.parentPath filename)
      (parseGeneral env config (env.parentPath filename) (new w0 k0) [])).2.validation,
      isGlobalLabel e.1 :=
    parseGlobals_labels env K config _ _
      (parseGeneral_labels env config _ _ []
        (fun e he => absurd he (List.not_mem_nil e)))
  rw [parse_loaded env K filename (new w0 k0) [] config hload, hstop]
  rw [if_pos rfl]
  refine ⟨rfl, hcol.1, hcol.2.1, hcol.2.2, hlab, ?_⟩
  intro name type msgs
  have hn := named_labels_not_global name type
  exact ⟨fun h => hn.1 (hlab _ h), fun h => hn.2.1 (hlab _ h), fun h => hn.2.2.1 (hlab _ h),
    fun h => hn.2.2.2 (hlab _ h)⟩

/-- C8 at a file whose section `global:maps` has `texture_size = 64`: nothing is stored and no
world scope is recorded. -/
theorem global_error_is_terminal_witness :
    (Sample.env Sample.globalErrorFile).loadFile "mapcrafter.conf"
      = Except.ok Sample.globalErrorFile ∧
    (Sample.globalErrorFile.hasSection "global" "maps" = true ∧
      hasError (MapSection.parse (Sample.env Sample.globalErrorFile)
        ((MapSection.new true).setConfigDir "/etc/mapcrafter")
        (Sample.globalErrorFile.getSection "global" "maps") []).2.2 = true) ∧
    (Sample.run Sample.globalErrorFile).ok = false ∧
    (Sample.run Sample.globalErrorFile).cfg.worlds = [] ∧
    (Sample.run Sample.globalErrorFile).cfg.maps = [] ∧
    (Sample.run Sample.globalErrorFile).cfg.markers = [] ∧
    ("World section 'w'",
      [ValidationMessage.error "World name 'w' already used!"])
      ∉ (Sample.run Sample.globalErrorFile).validation :=
  ⟨rfl, by decide,
    (global_error_is_terminal (Sample.env Sample.globalErrorFile) Sample.sections
      "mapcrafter.conf" (Sample.sec0 true) (Sample.sec0 false) Sample.globalErrorFile rfl
      (Or.inr (Or.inl (by decide)))).1,
    (global_error_is_terminal (Sample.env Sample.globalErrorFile) Sample.sections
      "mapcrafter.conf" (Sample.sec0 true) (Sample.sec0 false) Sample.globalErrorFile rfl
      (Or.inr (Or.inl (by decide)))).2.1,
    (global_error_is_terminal (Sample.env Sample.globalErrorFile) Sample.sections
      "mapcrafter.conf" (Sample.sec0 true) (Sample.sec0 false) Sample.globalErrorFile rfl
      (Or.inr (Or.inl (by decide)))).2.2.1,
    (global_error_is_terminal (Sample.env Sample.globalErrorFile) Sample.sections
      "mapcrafter.conf" (Sample.sec0 true) (Sample.sec0 false) Sample.globalErrorFile rfl
      (Or.inr (Or.inl (by decide)))).2.2.2.1,
    ((global_error_is_terminal (Sample.env Sample.globalErrorFile) Sample.sections
      "mapcrafter.conf" (Sample.sec0 true) (Sample.sec0 false) Sample.globalErrorFile rfl
      (Or.inr (Or.inl (by decide)))).2.2.2.2.2 "w" ""
      [ValidationMessage.error "World name 'w' already used!"]).1⟩

/-! ## C9: an Error among the root keys and the rest of the pass -/

/-- C9, evaluated where the code departs from it: without `output_dir` and with a section
`global:maps` that records no Error, `parse` returns at line 126, so the world `w1` and the
map `m1` are neither stored nor reported; with `output_dir` specified the same sections
give the stored world, the stored map and the scope of the map. Without the section
`global:maps` the missing `output_dir` does not stop the pass. -/
theorem missing_output_dir_stops_after_global_section :
    (Sample.run Sample.noOutputDirFile).ok = false ∧
    (Sample.run Sample.noOutputDirFile).cfg.worlds.map Prod.fst = [] ∧
    (Sample.run Sample.noOutputDirFile).cfg.maps.map MapSection.getShortName = [] ∧
    (Sample.run Sample.noOutputDirFile).validation =
      [("Configuration file", [ValidationMessage.error
        "You have to specify an output directory ('output_dir')!"])] ∧
    (Sample.run Sample.withOutputDirFile).ok = true ∧
    (Sample.run Sample.withOutputDirFile).cfg.worlds.map Prod.fst = ["w1"] ∧
    (Sample.run Sample.withOutputDirFile).cfg.maps.map MapSection.getShortName = ["m1"] ∧
    (Sample.run Sample.withOutputDirFile).validation =
      [("Map section 'm1'",
        [ValidationMessage.warning "Unknown configuration option 'foo'!"])] ∧
    (Sample.run Sample.noOutputDirNoGlobalFile).ok = false ∧
    (Sample.run Sample.noOutputDirNoGlobalFile).cfg.worlds.map Prod.fst = ["w1"] ∧
    (Sample.run Sample.noOutputDirNoGlobalFile).cfg.maps.map MapSection.getShortName = ["m1"] ∧
    (Sample.run Sample.noOutputDirNoGlobalFile).validation =
      [("Configuration file", [ValidationMessage.error
        "You have to specify an output directory ('output_dir')!"]),
       ("Map section 'm1'",
        [ValidationMessage.warning "Unknown configuration option 'foo'!"])] := by
  decide

/-! ## C10: a dangling world reference -/

/-- C10 as stated ("for every map section") fails: when a global section records an Error,
`parse` returns before the map pass; the map section `m1` with `world = missing` (its name
unused, no world accepted) gets no scope and no "does not exist" Error. -/
theorem dangling_world_unseen_after_global_error :
    (Sample.run Sample.globalErrorDanglingFile).validation =
      [("Global map configuration",
        [ValidationMessage.error "'texture_size' must a number between 1 and 32!"])] ∧
    (Sample.run Sample.globalErrorDanglingFile).cfg.maps = [] ∧
    (Sample.run Sample.globalErrorDanglingFile).cfg.worlds = [] ∧
    (Sample.run Sample.globalErrorDanglingFile).ok = false := by
  decide

/-- C10 (amended): on a fresh configuration, for an input that loads and whose parse gets
past the global sections (none of the three `return false` of lines 116, 126, 135 is taken),
let the map loop reach a map section `it` (after the sections `pre`) whose name is not used
by a stored map and whose world `w` is non-empty and no key of the worlds. Then its turn
appends exactly the scope "Map section '<name>'" holding the messages of its section parse
followed by the one Error "World '<w>' does not exist!", and stores nothing; that scope is
in the final report, the map is not in the final maps sequence, `parse` returns `false`,
and the final worlds mapping is the one the world pass built. -/
theorem dangling_world_reported (env : Env) (K : Sections W M) (filename : String)
    (w0 : W) (k0 : M) (config : INIConfig) (pre post : List INIConfigSection)
    (it : INIConfigSection)
    (hload : env.loadFile filename = Except.ok config)
    (hreach : (parseGlobals env K config (env.parentPath filename)
      (parseGeneral env config (env.parentPath filename) (new w0 k0) [])).1 = false)
    (hsplit : config.sections = pre ++ it :: post) (ht : it.type = "map")
    (hfree : (beforeMap env K (env.parentPath filename) config.sections pre
      (parseGlobals env K config (env.parentPath filename)
        (parseGeneral env config (env.parentPath filename) (new w0 k0) [])).2).cfg.hasMap it.name
        = false)
    (hw : (buildMap env (env.parentPath filename)
      (beforeMap env K (env.parentPath filename) config.sections pre
        (parseGlobals env K config (env.parentPath filename)
          (parseGeneral env config (env.parentPath filename) (new w0 k0) [])).2).cfg.map_global
      it).2.1.getWorld ≠ "")
    (hnw : (beforeMap env K (env.parentPath filename) config.sections pre
      (parseGlobals env K config (env.parentPath filename)
        (parseGeneral env config (env.parentPath filename) (new w0 k0) [])).2).cfg.hasWorld
      (buildMap env (env.parentPath filename)
        (beforeMap env K (env.parentPath filename) config.sections pre
          (parseGlobals env K config (env.parentPath filename)
            (parseGeneral env config (env.parentPath filename) (new w0 k0) [])).2).cfg.map_global
        it).2.1.getWorld = false) :
    (mapStep env (env.parentPath filename)
      (beforeMap env K (env.parentPath filename) config.sections pre
        (parseGlobals env K config (env.parentPath filename)
          (parseGeneral env config (env.parentPath filename) (new w0 k0) [])).2) it).validation
      = (beforeMap env K (env.parentPath filename) config.sections pre
          (parseGlobals env K config (env.parentPath filename)
            (parseGeneral env config (env.parentPath filename) (new w0 k0) [])).2).validation ++
        [("Map section '" ++ it.name ++ "'",
          (buildMap env (env.parentPath filename)
            (parse env K filename (new w0 k0) []).cfg.map_global it).2.2 ++
            [ValidationMessage.error ("World '" ++
              (buildMap env (env.parentPath filename)
                (parse env K filename (new w0 k0) []).cfg.map_global it).2.1.getWorld
              ++ "' does not exist!")])] ∧
    (mapStep env (env.parentPath filename)
      (beforeMap env K (env.parentPath filename) config.sections pre
        (parseGlobals env K config (env.parentPath filename)
          (parseGeneral env config (env.parentPath filename) (new w0 k0) [])).2) it).cfg.maps
      = (beforeMap env K (env.parentPath filename) config.sections pre
          (parseGlobals env K config (env.parentPath filename)
            (parseGeneral env config (env.parentPath filename) (new w0 k0) [])).2).cfg.maps ∧
    ("Map section '" ++ it.name ++ "'",
      (buildMap env (env.parentPath filename)
        (parse env K filename (new w0 k0) []).cfg.map_global it).2.2 ++
        [ValidationMessage.error ("World '" ++
          (buildMap env (env.parentPath filename)
            (parse env K filename (new w0 k0) []).cfg.map_global it).2.1.getWorld
          ++ "' does not exist!")])
      ∈ (parse env K filename (new w0 k0) []).validation ∧
    (buildMap env (env.parentPath filename)
      (parse env K filename (new w0 k0) []).cfg.map_global it).2.1
      ∉ (parse env K filename (new w0 k0) []).cfg.maps ∧
    (parse env K filename (new w0 k0) []).ok = false ∧
    (parse env K filename (new w0 k0) []).cfg.worlds
      = (worldPass K (env.parentPath filename) config.sections
          (unknownScan config.sections
            (parseGlobals env K config (env.parentPath filename)
              (parseGeneral env config (env.parentPath filename) (new w0 k0) [])).2)).cfg.worlds := by
  have hcol := entry_collections env K config (env.parentPath filename) (new w0 k0) []
  rw [parse_loaded env K filename (new w0 k0) [] config hload, hreach]
  rw [if_neg (by simp)]
  generalize (parseGlobals env K config (env.parentPath filename)
    (parseGeneral env config (env.parentPath filename) (new w0 k0) [])).2 = E
    at hcol hfree hw hnw ⊢
  generalize hd : env.parentPath filename = d at hfree hw hnw ⊢
  -- the state reached, and what follows it
  have hSpre : After (worldPass K d config.sections (unknownScan config.sections E))
      (beforeMap env K d config.sections pre E) :=
    after_foldl (mapStep env d) (mapStep_after env d) pre _
  have hSE : After E (beforeMap env K d config.sections pre E) :=
    after_trans (unknownScan_after _ E) (after_trans (worldPass_after K d _ _) hSpre)
  have hfinE := parseNamed_after env K d config.sections E
  have hSW : (beforeMap env K d config.sections pre E).cfg.worlds
      = (worldPass K d config.sections (unknownScan config.sections E)).cfg.worlds :=
    (mapPass_worlds env d pre _).1
  have hfinW : (parseNamed env K d config.sections E).cfg.worlds
      = (worldPass K d config.sections (unknownScan config.sections E)).cfg.worlds :=
    (markerPass_worlds K _ _).1.trans (mapPass_worlds env _ _ _).1
  have hmg : (parseNamed env K d config.sections E).cfg.map_global
      = (beforeMap env K d config.sections pre E).cfg.map_global :=
    hfinE.map_global.trans hSE.map_global.symm
  have hstep := mapStep_dangling env d (beforeMap env K d config.sections pre E) it ht hfree hw hnw
  have hfold : parseNamed env K d config.sections E
      = markerPass K config.sections
          (post.foldl (mapStep env d)
            (mapStep env d (beforeMap env K d config.sections pre E) it)) := by
    unfold parseNamed mapPass beforeMap
    conv_lhs => rw [hsplit]
    rw [List.foldl_append, List.foldl_cons, ← hsplit]
  have hafter : After (mapStep env d (beforeMap env K d config.sections pre E) it)
      (parseNamed env K d config.sections E) := by
    rw [hfold]
    exact after_trans (after_foldl (mapStep env d) (mapStep_after env d) post _)
      (markerPass_after K _ _)
  rw [hmg]
  refine ⟨by rw [hstep], by rw [hstep], ?_, ?_, ?_, hfinW⟩
  · obtain ⟨ext, hext⟩ := hafter.report
    rw [hext, hstep]
    simp
  · intro hmem
    rcases parseNamed_worldRef env K d config.sections E hcol.2.1 _ hmem with h | h
    · exact hw h
    · unfold hasWorld at h hnw
      rw [hfinW, ← hSW, hnw] at h
      exact Bool.noConfusion h
  · exact hafter.ok (by rw [hstep])

/-- The amended C10 at scenario B of the spec: the map `m1` refers to the world `missing`. -/
theorem dangling_world_reported_witness :
    (Sample.env Sample.scenarioB).loadFile "mapcrafter.conf" = Except.ok Sample.scenarioB ∧
    (parseGlobals (Sample.env Sample.scenarioB) Sample.sections Sample.scenarioB
      "/etc/mapcrafter"
      (parseGeneral (Sample.env Sample.scenarioB) Sample.scenarioB "/etc/mapcrafter"
        Sample.fresh [])).1 = false ∧
    Sample.scenarioB.sections = [Sample.worldAB] ++ Sample.mapB :: [] ∧
    Sample.mapB.type = "map" ∧
    (beforeMap (Sample.env Sample.scenarioB) Sample.sections "/etc/mapcrafter"
      Sample.scenarioB.sections [Sample.worldAB]
      (parseGlobals (Sample.env Sample.scenarioB) Sample.sections Sample.scenarioB
        "/etc/mapcrafter"
        (parseGeneral (Sample.env Sample.scenarioB) Sample.scenarioB "/etc/mapcrafter"
          Sample.fresh [])).2).cfg.hasMap "m1" = false ∧
    (buildMap (Sample.env Sample.scenarioB) "/etc/mapcrafter" (MapSection.new true)
      Sample.mapB).2.1.getWorld = "missing" ∧
    (beforeMap (Sample.env Sample.scenarioB) Sample.sections "/etc/mapcrafter"
      Sample.scenarioB.sections [Sample.worldAB]
      (parseGlobals (Sample.env Sample.scenarioB) Sample.sections Sample.scenarioB
        "/etc/mapcrafter"
        (parseGeneral (Sample.env Sample.scenarioB) Sample.scenarioB "/etc/mapcrafter"
          Sample.fresh [])).2).cfg.hasWorld "missing" = false ∧
    ("Map section 'm1'", [ValidationMessage.error "World 'missing' does not exist!"])
      ∈ (Sample.run Sample.scenarioB).validation ∧
    (buildMap (Sample.env Sample.scenarioB) "/etc/mapcrafter" (MapSection.new true)
      Sample.mapB).2.1 ∉ (Sample.run Sample.scenarioB).cfg.maps ∧
    (Sample.run Sample.scenarioB).ok = false ∧
    (Sample.run Sample.scenarioB).cfg.worlds.map Prod.fst = ["w1"] :=
  ⟨rfl, by decide, rfl, rfl, by decide, by decide, by decide,
    (dangling_world_reported (Sample.env Sample.scenarioB) Sample.sections "mapcrafter.conf"
      (Sample.sec0 true) (Sample.sec0 false) Sample.scenarioB [Sample.worldAB] []
      Sample.mapB rfl (by decide) rfl rfl (by decide) (by decide) (by decide)).2.2.1,
    (dangling_world_reported (Sample.env Sample.scenarioB) Sample.sections "mapcrafter.conf"
      (Sample.sec0 true) (Sample.sec0 false) Sample.scenarioB [Sample.worldAB] []
      Sample.mapB rfl (by decide) rfl rfl (by decide) (by decide) (by decide)).2.2.2.1,
    (dangling_world_reported (Sample.env Sample.scenarioB) Sample.sections "mapcrafter.conf"
      (Sample.sec0 true) (Sample.sec0 false) Sample.scenarioB [Sample.worldAB] []
      Sample.mapB rfl (by decide) rfl rfl (by decide) (by decide) (by decide)).2.2.2.2.1,
    by decide⟩

/-! ## Scopes are recorded with their messages -/

theorem grows_refl (v : ValidationMap) : Grows v v :=
  ⟨[], by simp, fun e he => absurd he (List.not_mem_nil e)⟩

theorem grows_trans {a b c : ValidationMap} (h1 : Grows a b) (h2 : Grows b c) : Grows a c := by
  obtain ⟨e1, he1, hn1⟩ := h1
  obtain ⟨e2, he2, hn2⟩ := h2
  refine ⟨e1 ++ e2, by rw [he2, he1, List.append_assoc], ?_⟩
  intro e he
  rcases List.mem_append.mp he with h | h
  · exact hn1 e h
  · exact hn2 e h

theorem grows_snoc (v : ValidationMap) (label : String) (msgs : ValidationList)
    (h : msgs ≠ []) : Grows v (v ++ [(label, msgs)]) := by
  refine ⟨[(label, msgs)], rfl, ?_⟩
  intro e he
  have : e = (label, msgs) := by simpa using he
  rw [this]
  exact h

theorem grows_scope (v : ValidationMap) (label : String) (msgs : ValidationList) :
    Grows v (if msgs ≠ [] then v ++ [(label, msgs)] else v) := by
  by_cases h : msgs = []
  · simp only [h, ne_eq, not_true_eq_false, if_false]
    exact grows_refl v
  · simp only [ne_eq, h, not_false_eq_true, if_true]
    exact grows_snoc v label msgs h

theorem grows_foldl {α σ : Type} (val : σ → ValidationMap) (f : σ → α → σ)
    (hf : ∀ s x, Grows (val s) (val (f s x))) (l : List α) (s : σ) :
    Grows (val s) (val (l.foldl f s)) := by
  induction l generalizing s with
  | nil => exact grows_refl _
  | cons x xs ih => exact grows_trans (hf s x) (ih (f s x))

theorem snoc_ne_nil {α : Type} (l : List α) (a : α) : l ++ [a] ≠ [] := by
  simp

theorem worldStep_grows (K : Sections W M) (d : String) (st : PState W M)
    (it : INIConfigSection) : Grows st.validation (worldStep K d st it).validation := by
  refine worldStep_cases K d st it (fun st' => Grows st.validation st'.validation) ?_ ?_ ?_
  · intro _; exact grows_refl _
  · intro _ _; exact grows_snoc _ _ _ (snoc_ne_nil _ _)
  · intro _ _; exact grows_scope _ _ _

theorem mapStep_grows (env : Env) (d : String) (st : PState W M)
    (it : INIConfigSection) : Grows st.validation (mapStep env d st it).validation := by
  refine mapStep_cases env d st it (fun st' => Grows st.validation st'.validation) ?_ ?_ ?_ ?_
  · intro _; exact grows_refl _
  · intro _ _; exact grows_snoc _ _ _ (snoc_ne_nil _ _)
  · intro _ _ _ _; exact grows_snoc _ _ _ (snoc_ne_nil _ _)
  · intro _ _ _; exact grows_scope _ _ _

theorem markerStep_grows (K : Sections W M) (st : PState W M)
    (it : INIConfigSection) : Grows st.validation (markerStep K st it).validation := by
  refine markerStep_cases K st it (fun st' => Grows st.validation st'.validation) ?_ ?_ ?_
  · intro _; exact grows_refl _
  · intro _ _; exact grows_snoc _ _ _ (snoc_ne_nil _ _)
  · intro _ _; exact grows_scope _ _ _

theorem unknownStep_grows (v : ValidationMap) (it : INIConfigSection) :
    Grows v (unknownStep v it) := by
  unfold unknownStep
  split
  · exact grows_snoc _ _ _ (by simp [makeValidationList])
  · exact grows_refl _

theorem parseNamed_grows (env : Env) (K : Sections W M) (d : String)
    (L : List INIConfigSection) (st : PState W M) :
    Grows st.validation (parseNamed env K d L st).validation := by
  have h1 : Grows st.validation (unknownScan L st).validation :=
    grows_foldl id unknownStep unknownStep_grows L st.validation
  have h2 := grows_foldl PState.validation (worldStep K d) (worldStep_grows K d) L
    (unknownScan L st)
  have h3 := grows_foldl PState.validation (mapStep env d) (mapStep_grows env d) L
    (worldPass K d L (unknownScan L st))
  have h4 := grows_foldl PState.validation (markerStep K) (markerStep_grows K) L
    (mapPass env d L (worldPass K d L (unknownScan L st)))
  exact grows_trans h1 (grows_trans h2 (grows_trans h3 h4))

theorem parseGeneral_grows (env : Env) (config : INIConfig) (d : String)
    (c : MapcrafterConfig W M) (v : ValidationMap) :
    Grows v (parseGeneral env config d c v).validation := by
  unfold parseGeneral
  simp only []
  exact grows_scope _ _ _

theorem parseGlobals_grows (env : Env) (K : Sections W M) (config : INIConfig) (d : String)
    (st : PState W M) : Grows st.validation (parseGlobals env K config d st).2.validation := by
  have h1 : Grows st.validation (stageWorlds K config d st).2.validation := by
    unfold stageWorlds
    split
    · exact grows_scope _ _ _
    · exact grows_refl _
  have h2 : Grows (stageWorlds K config d st).2.validation
      (stageMaps env config d (stageWorlds K config d st).2).2.validation := by
    unfold stageMaps
    split
    · exact grows_scope _ _ _
    · exact grows_refl _
  have h3 : Grows (stageMaps env config d (stageWorlds K config d st).2).2.validation
      (stageMarkers K config
        (stageMaps env config d (stageWorlds K config d st).2).2).2.validation := by
    unfold stageMarkers
    split
    · exact grows_scope _ _ _
    · exact grows_refl _
  unfold parseGlobals
  simp only []
  split
  · exact h1
  · split
    · exact grows_trans h1 h2
    · exact grows_trans h1 (grows_trans h2 h3)

/-! ## C14: empty scopes are never recorded -/

/-- C14: for every input, the file loading or not, and every configuration object and
report that `parse` is called on, the report it leaves is the given one followed by the
scope entries it appended, and each of these has a non-empty message list. -/
theorem no_empty_scope_recorded (env : Env) (K : Sections W M) (filename : String)
    (c : MapcrafterConfig W M) (validation : ValidationMap) :
    ∃ ext : ValidationMap,
      (parse env K filename c validation).validation = validation ++ ext ∧
      ∀ e ∈ ext, e.2 ≠ [] := by
  refine parse_cases env K filename c validation (fun fin => Grows validation fin.validation)
    ?_ ?_ ?_
  · intro msg _
    exact grows_snoc _ _ _ (by simp [makeValidationList])
  · intro config _ _
    exact grows_trans (parseGeneral_grows env config _ c validation)
      (parseGlobals_grows env K config _ _)
  · intro config _ _
    exact grows_trans (parseGeneral_grows env config _ c validation)
      (grows_trans (parseGlobals_grows env K config _ _) (parseNamed_grows env K _ _ _))

/-! ## A cleared `ok` is backed by an Error -/

theorem reportHasError_append (v w : ValidationMap) :
    reportHasError (v ++ w) = (reportHasError v || reportHasError w) := by
  simp [reportHasError]

theorem reportHasError_snoc (v : ValidationMap) (label : String) (msgs : ValidationList) :
    reportHasError (v ++ [(label, msgs)]) = (reportHasError v || hasError msgs) := by
  simp [reportHasError]

theorem hasError_append (a b : ValidationList) :
    hasError (a ++ b) = (hasError a || hasError b) := by
  simp [hasError]

theorem hasError_snoc_error (a : ValidationList) (text : String) :
    hasError (a ++ [ValidationMessage.error text]) = true := by
  simp [hasError, ValidationMessage.error]

theorem ne_nil_of_hasError {msgs : ValidationList} (h : hasError msgs = true) : msgs ≠ [] := by
  intro e
  rw [e] at h
  exact Bool.noConfusion h

/-- The shape of every turn that accepts a section: `ok` becomes `valid && ok`, the scope is
recorded when it has messages. -/
theorem failureReported_accept (ok : Bool) (v : ValidationMap) (label : String)
    (msgs : ValidationList) (h : ok = false → reportHasError v = true) :
    ((!hasError msgs) && ok) = false →
      reportHasError (if msgs ≠ [] then v ++ [(label, msgs)] else v) = true := by
  intro hok
  cases herr : hasError msgs with
  | true =>
      have hne := ne_nil_of_hasError herr
      simp only [ne_eq, hne, not_false_eq_true, if_true]
      rw [reportHasError_snoc, herr, Bool.or_true]
  | false =>
      have hok' : ok = false := by simpa [herr] using hok
      split
      · rw [reportHasError_snoc, h hok', Bool.true_or]
      · exact h hok'

theorem failureReported_reject (v : ValidationMap) (label : String) (msgs : ValidationList)
    (text : String) :
    reportHasError (v ++ [(label, msgs ++ [ValidationMessage.error text])]) = true := by
  rw [reportHasError_snoc, hasError_snoc_error, Bool.or_true]

theorem worldStep_failureReported (K : Sections W M) (d : String) (st : PState W M)
    (it : INIConfigSection) (h : FailureReported st) :
    FailureReported (worldStep K d st it) := by
  refine worldStep_cases K d st it FailureReported ?_ ?_ ?_
  · intro _; exact h
  · intro _ _ _; exact failureReported_reject _ _ _ _
  · intro _ _; exact failureReported_accept st.ok st.validation _ _ h

theorem mapStep_failureReported (env : Env) (d : String) (st : PState W M)
    (it : INIConfigSection) (h : FailureReported st) :
    FailureReported (mapStep env d st it) := by
  refine mapStep_cases env d st it FailureReported ?_ ?_ ?_ ?_
  · intro _; exact h
  · intro _ _ _; exact failureReported_reject _ _ _ _
  · intro _ _ _ _ _; exact failureReported_reject _ _ _ _
  · intro _ _ _; exact failureReported_accept st.ok st.validation _ _ h

theorem markerStep_failureReported (K : Sections W M) (st : PState W M)
    (it : INIConfigSection) (h : FailureReported st) :
    FailureReported (markerStep K st it) := by
  refine markerStep_cases K st it FailureReported ?_ ?_ ?_
  · intro _; exact h
  · intro _ _ _; exact failureReported_reject _ _ _ _
  · intro _ _; exact failureReported_accept st.ok st.validation _ _ h

theorem unknownScan_failureReported (L : List INIConfigSection) (st : PState W M)
    (h : FailureReported st) : FailureReported (unknownScan L st) := by
  intro hok
  obtain ⟨ext, hext⟩ := unknownFold_append L st.validation
  show reportHasError (L.foldl unknownStep st.validation) = true
  rw [hext, reportHasError_append, h hok, Bool.true_or]

theorem parseNamed_failureReported (env : Env) (K : Sections W M) (d : String)
    (L : List INIConfigSection) (st : PState W M) (h : FailureReported st) :
    FailureReported (parseNamed env K d L st) := by
  have h1 := unknownScan_failureReported L st h
  have h2 : FailureReported (worldPass K d L (unknownScan L st)) :=
    foldl_invariant FailureReported (worldStep K d) L
      (fun s x _ hs => worldStep_failureReported K d s x hs) _ h1
  have h3 : FailureReported (mapPass env d L (worldPass K d L (unknownScan L st))) :=
    foldl_invariant FailureReported (mapStep env d) L
      (fun s x _ hs => mapStep_failureReported env d s x hs) _ h2
  exact foldl_invariant FailureReported (markerStep K) L
    (fun s x _ hs => markerStep_failureReported K s x hs) _ h3

theorem require_failed {T : Type} (f : Field T) (v : ValidationList) (text : String)
    (h : (f.require v text).1 = false) : hasError (f.require v text).2 = true := by
  unfold Field.require at h ⊢
  split
  · rename_i hc
    rw [if_pos hc] at h
    exact Bool.noConfusion h
  · exact hasError_snoc_error v text

theorem require_keeps_error {T : Type} (f : Field T) (v : ValidationList) (text : String)
    (h : hasError v = true) : hasError (f.require v text).2 = true := by
  unfold Field.require
  split
  · exact h
  · rw [hasError_append, h, Bool.true_or]

theorem parseGeneral_failureReported (env : Env) (config : INIConfig) (d : String)
    (c : MapcrafterConfig W M) (v : ValidationMap) :
    FailureReported (parseGeneral env config d c v) := by
  intro hok
  unfold parseGeneral at hok ⊢
  simp only [] at hok ⊢
  generalize List.foldl (rootEntry env d) _ config.root.entries = a at hok ⊢
  cases hr : (a.1.output_dir.require a.2
      "You have to specify an output directory ('output_dir')!").1 with
  | true => simp [hr] at hok
  | false =>
      have he := require_failed _ _ _ hr
      have hg : hasError
          (if (!decide (env.findTemplateDir ≠ "")) = true then
            (a.1.template_dir.require
              (a.1.output_dir.require a.2
                "You have to specify an output directory ('output_dir')!").2
              "You have to specify a template directory ('template_dir')!").2
          else
            (a.1.output_dir.require a.2
              "You have to specify an output directory ('output_dir')!").2) = true := by
        split
        · exact require_keeps_error _ _ _ he
        · exact he
      have hne := ne_nil_of_hasError hg
      rw [if_pos hne, reportHasError_snoc, hg, Bool.or_true]

theorem sectionParse_failed_error {σ : Type} (C : SectionClass σ) (self : σ)
    (sec : INIConfigSection) (ok : Bool) (v : ValidationMap) (label : String)
    (h : ok = false → reportHasError v = true) :
    ((sectionParse C self sec []).1 && ok) = false →
      reportHasError (if (sectionParse C self sec []).2.2 ≠ [] then
        v ++ [(label, (sectionParse C self sec []).2.2)] else v) = true := by
  rw [sectionParse_fst]
  exact failureReported_accept ok v label _ h

theorem parseGlobals_failureReported (env : Env) (K : Sections W M) (config : INIConfig)
    (d : String) (st : PState W M) (h : FailureReported st) :
    FailureReported (parseGlobals env K config d st).2 := by
  have h1 : FailureReported (stageWorlds K config d st).2 := by
    unfold stageWorlds
    split
    · exact sectionParse_failed_error K.world _ _ st.ok st.validation _ h
    · exact h
  have h2 : FailureReported (stageMaps env config d (stageWorlds K config d st).2).2 := by
    unfold stageMaps
    split
    · exact sectionParse_failed_error (MapSection.cls env) _ _ _ _ _ h1
    · exact h1
  have h3 : FailureReported (stageMarkers K config
      (stageMaps env config d (stageWorlds K config d st).2).2).2 := by
    unfold stageMarkers
    split
    · exact sectionParse_failed_error K.marker _ _ _ _ _ h2
    · exact h2
  unfold parseGlobals
  simp only []
  split
  · exact h1
  · split
    · exact h2
    · exact h3

theorem parseGlobals_stopped_ok (env : Env) (K : Sections W M) (config : INIConfig)
    (d : String) (st : PState W M) (h : (parseGlobals env K config d st).1 = true) :
    (parseGlobals env K config d st).2.ok = false := by
  have hw : ∀ s : PState W M, (stageWorlds K config d s).1 = true →
      (stageWorlds K config d s).2.ok = false := by
    intro s
    unfold stageWorlds
    split
    · intro hh; simpa using hh
    · intro hh; exact Bool.noConfusion hh
  have hm : ∀ s : PState W M, (stageMaps env config d s).1 = true →
      (stageMaps env config d s).2.ok = false := by
    intro s
    unfold stageMaps
    split
    · intro hh; simpa using hh
    · intro hh; exact Bool.noConfusion hh
  have hk : ∀ s : PState W M, (stageMarkers K config s).1 = true →
      (stageMarkers K config s).2.ok = false := by
    intro s
    unfold stageMarkers
    split
    · intro hh; simpa using hh
    · intro hh; exact Bool.noConfusion hh
  unfold parseGlobals at h ⊢
  simp only [] at h ⊢
  split
  · rename_i h1
    exact hw st h1
  · rename_i h1
    rw [if_neg h1] at h
    split
    · rename_i h2
      exact hm _ h2
    · rename_i h2
      rw [if_neg h2] at h
      exact hk _ h

theorem reportHasError_false_of_warnings (v : ValidationMap)
    (h : ∀ e ∈ v, ∀ m ∈ e.2, m.type = Severity.warning) : reportHasError v = false := by
  unfold reportHasError
  rw [List.any_eq_false]
  intro e he
  unfold hasError
  rw [Bool.not_eq_true, List.any_eq_false]
  intro m hm
  simp [h e he m hm]

/-! ## C12: warnings never flip the result -/

/-- C12: for every configuration file that loads (and every configuration object and
report `parse` is called on), if `parse` returns `false` then the report holds at least one
Error-severity message; equivalently, when every message of the report is a Warning, or
there is none, `parse` returns `true`. -/
theorem false_result_has_error (env : Env) (K : Sections W M) (filename : String)
    (c : MapcrafterConfig W M) (validation : ValidationMap) (config : INIConfig)
    (hload : env.loadFile filename = Except.ok config) :
    ((parse env K filename c validation).ok = false →
      reportHasError (parse env K filename c validation).validation = true) ∧
    ((∀ e ∈ (parse env K filename c validation).validation,
        ∀ m ∈ e.2, m.type = Severity.warning) →
      (parse env K filename c validation).ok = true) := by
  have hgen := parseGeneral_failureReported env config (env.parentPath filename) c validation
  have hglob := parseGlobals_failureReported env K config (env.parentPath filename) _ hgen
  have hmain : (parse env K filename c validation).ok = false →
      reportHasError (parse env K filename c validation).validation = true := by
    rw [parse_loaded env K filename c validation config hload]
    by_cases hg : (parseGlobals env K config (env.parentPath filename)
        (parseGeneral env config (env.parentPath filename) c validation)).1 = true
    · rw [if_pos hg]
      intro _
      exact hglob (parseGlobals_stopped_ok env K config _ _ hg)
    · rw [if_neg hg]
      exact parseNamed_failureReported env K _ _ _ hglob
  refine ⟨hmain, ?_⟩
  intro hw
  cases hok : (parse env K filename c validation).ok with
  | true => rfl
  | false =>
      have h1 := hmain hok
      rw [reportHasError_false_of_warnings _ hw] at h1
      exact Bool.noConfusion h1

/-- C12 at scenario B of the spec (`parse` returns `false`, the report holds the Error of
the map) and at a file whose only message is the Warning for an unknown key (`parse`
returns `true`). -/
theorem false_result_has_error_witness :
    (Sample.env Sample.scenarioB).loadFile "mapcrafter.conf" = Except.ok Sample.scenarioB ∧
    (Sample.run Sample.scenarioB).ok = false ∧
    reportHasError (Sample.run Sample.scenarioB).validation = true ∧
    (Sample.env Sample.withOutputDirFile).loadFile "mapcrafter.conf"
      = Except.ok Sample.withOutputDirFile ∧
    (∀ e ∈ (Sample.run Sample.withOutputDirFile).validation,
      ∀ m ∈ e.2, m.type = Severity.warning) ∧
    (Sample.run Sample.withOutputDirFile).ok = true :=
  ⟨rfl, by decide,
    (false_result_has_error (Sample.env Sample.scenarioB) Sample.sections "mapcrafter.conf"
      Sample.fresh [] Sample.scenarioB rfl).1 (by decide),
    rfl, by decide,
    (false_result_has_error (Sample.env Sample.withOutputDirFile) Sample.sections
      "mapcrafter.conf" Sample.fresh [] Sample.withOutputDirFile rfl).2 (by decide)⟩

/-! ## C15: the range checks of `texture_size` and `jpeg_quality` -/

/-- C15: for every value string that converts to an integer `n`,
`parseField("texture_size", value)` returns `true` and appends exactly the one Error
"'texture_size' must a number between 1 and 32!" if `n < 1` or `n > 32`, and appends no
message if `1 <= n <= 32`; likewise `parseField("jpeg_quality", value)` returns `true` and
appends exactly the one Error "'jpeg_quality' must be a number between 0 and 100!" if
`n < 0` or `n > 100`, and no message otherwise. -/
theorem range_checks (env : Env) (self : MapSection) (value : String)
    (validation : ValidationList) (n : Int) (hn : env.asInt value = Except.ok n) :
    (MapSection.parseField env self "texture_size" value validation).1 = true ∧
    (MapSection.parseField env self "texture_size" value validation).2.2 =
      (if n < 1 ∨ n > 32 then
        validation ++ [ValidationMessage.error "'texture_size' must a number between 1 and 32!"]
       else validation) ∧
    (MapSection.parseField env self "jpeg_quality" value validation).1 = true ∧
    (MapSection.parseField env self "jpeg_quality" value validation).2.2 =
      (if n < 0 ∨ n > 100 then
        validation ++
          [ValidationMessage.error "'jpeg_quality' must be a number between 0 and 100!"]
       else validation) := by
  refine ⟨?_, ?_, ?_, ?_⟩
  · simp only [MapSection.parseField, apply_ite Prod.fst, ite_self]
    simp
  · by_cases hc : n < 1 ∨ n > 32
    · have hc' : n ≤ 0 ∨ 32 < n := by omega
      simp [MapSection.parseField, Field.load, hn, Field.getValue, Field.getValue?, hc, hc']
    · have hc' : ¬ (n ≤ 0 ∨ 32 < n) := by omega
      simp [MapSection.parseField, Field.load, hn, Field.getValue, Field.getValue?, hc, hc']
  · simp only [MapSection.parseField, apply_ite Prod.fst, ite_self]
    simp
  · by_cases hc : n < 0 ∨ n > 100
    · have hc' : n < 0 ∨ 100 < n := hc
      simp [MapSection.parseField, Field.load, hn, Field.getValue, Field.getValue?, hc']
    · have hc' : ¬ (n < 0 ∨ 100 < n) := hc
      simp [MapSection.parseField, Field.load, hn, Field.getValue, Field.getValue?, hc']

/-! ## The token loop and the required fields of `postParse` -/

theorem mem_setInsert (r x : Int) (l : List Int) : x ∈ setInsert r l ↔ x = r ∨ x ∈ l := by
  induction l with
  | nil => simp [setInsert]
  | cons y ys ih =>
      unfold setInsert
      by_cases h1 : r < y
      · simp [h1]
      · by_cases h2 : r = y
        · subst h2
          simp [h1]
        · simp only [h1, h2, if_false, List.mem_cons, ih]
          constructor
          · rintro (h | h | h)
            · exact Or.inr (Or.inl h)
            · exact Or.inl h
            · exact Or.inr (Or.inr h)
          · rintro (h | h | h)
            · exact Or.inr (Or.inl h)
            · exact Or.inl h
            · exact Or.inr (Or.inr h)

theorem setInsert_sorted (r : Int) (l : List Int) (h : l.Pairwise (· < ·)) :
    (setInsert r l).Pairwise (· < ·) := by
  induction l with
  | nil => simp [setInsert]
  | cons y ys ih =>
      have hy := List.pairwise_cons.mp h
      unfold setInsert
      by_cases h1 : r < y
      · rw [if_pos h1]
        refine List.pairwise_cons.mpr ⟨?_, h⟩
        intro a ha
        rcases List.mem_cons.mp ha with e | e
        · rw [e]; exact h1
        · exact lt_trans h1 (hy.1 a e)
      · rw [if_neg h1]
        by_cases h2 : r = y
        · rw [if_pos h2]; exact h
        · rw [if_neg h2]
          refine List.pairwise_cons.mpr ⟨?_, ih hy.2⟩
          intro a ha
          rcases (mem_setInsert r a ys).mp ha with e | e
          · rw [e]; omega
          · exact hy.1 a e

theorem rotationFold (env : Env) (toks : List String) (S : List Int) (v : ValidationList) :
    (toks.foldl (MapSection.rotationStep env) (S, v)).2 =
      v ++ (toks.filter (fun t => decide (env.stringToRotation t = -1))).map
        (fun t => ValidationMessage.error ("Invalid rotation '" ++ t ++ "'!")) ∧
    (∀ r, r ∈ (toks.foldl (MapSection.rotationStep env) (S, v)).1 ↔
      r ∈ S ∨ ∃ t ∈ toks, env.stringToRotation t = r ∧ r ≠ -1) ∧
    (S.Pairwise (· < ·) →
      (toks.foldl (MapSection.rotationStep env) (S, v)).1.Pairwise (· < ·)) := by
  induction toks generalizing S v with
  | nil => simp
  | cons t ts ih =>
      rw [List.foldl_cons]
      by_cases ht : env.stringToRotation t = -1
      · have hstep : MapSection.rotationStep env (S, v) t =
            (S, v ++ [ValidationMessage.error ("Invalid rotation '" ++ t ++ "'!")]) := by
          simp [MapSection.rotationStep, ht]
        rw [hstep]
        obtain ⟨h1, h2, h3⟩ := ih S (v ++ [ValidationMessage.error ("Invalid rotation '" ++ t ++ "'!")])
        refine ⟨?_, ?_, h3⟩
        · rw [h1]
          simp [ht]
        · intro r
          rw [h2 r]
          constructor
          · rintro (h | ⟨u, hu, he, hne⟩)
            · exact Or.inl h
            · exact Or.inr ⟨u, List.mem_cons_of_mem _ hu, he, hne⟩
          · rintro (h | ⟨u, hu, he, hne⟩)
            · exact Or.inl h
            · rcases List.mem_cons.mp hu with e | e
              · subst e
                rw [ht] at he
                exact absurd he.symm hne
              · exact Or.inr ⟨u, e, he, hne⟩
      · have hstep : MapSection.rotationStep env (S, v) t =
            (setInsert (env.stringToRotation t) S, v) := by
          simp [MapSection.rotationStep, ht]
        rw [hstep]
        obtain ⟨h1, h2, h3⟩ := ih (setInsert (env.stringToRotation t) S) v
        refine ⟨?_, ?_, fun hS => h3 (setInsert_sorted _ _ hS)⟩
        · rw [h1]
          simp [ht]
        · intro r
          rw [h2 r, mem_setInsert]
          constructor
          · rintro ((h | h) | ⟨u, hu, he, hne⟩)
            · exact Or.inr ⟨t, List.mem_cons_self _ _, h.symm, by rw [h]; exact ht⟩
            · exact Or.inl h
            · exact Or.inr ⟨u, List.mem_cons_of_mem _ hu, he, hne⟩
          · rintro (h | ⟨u, hu, he, hne⟩)
            · exact Or.inl (Or.inr h)
            · rcases List.mem_cons.mp hu with e | e
              · subst e
                exact Or.inl (Or.inl he.symm)
              · exact Or.inr ⟨u, e, he, hne⟩

theorem require_snd {T : Type} (f : Field T) (v : ValidationList) (text : String) :
    (f.require v text).2 =
      v ++ (if f.isUnset then [ValidationMessage.error text] else []) := by
  obtain ⟨dv, val, hv⟩ := f
  cases dv <;> cases val <;> simp [Field.require, Field.isUnset]

/-- The messages of `postParse`: those of the token loop, then those of the two
`require` calls of a non-global section. -/
theorem postParse_messages (env : Env) (self : MapSection) (sec : INIConfigSection)
    (v : ValidationList) :
    (MapSection.postParse env self sec v).2 =
      v ++ invalidRotationErrors env (self.rotations.getValue "") ++
        (if self.global = false then
          (if self.world.isUnset then
            [ValidationMessage.error "You have to specify a world ('world')!"] else []) ++
          (if self.texture_dir.isUnset then
            [ValidationMessage.error
              "You have to specify a texture directory ('texture_dir')!"] else [])
         else []) := by
  have hf := (rotationFold env (tokens (self.rotations.getValue "")) [] v).1
  unfold MapSection.postParse
  simp only []
  cases hg : self.global with
  | true =>
      simp only [Bool.not_true, Bool.false_eq_true, if_false, Bool.true_eq_false]
      rw [hf]
      simp [invalidRotationErrors]
  | false =>
      simp only [Bool.not_false, if_true]
      rw [require_snd, require_snd, hf]
      simp [invalidRotationErrors]

theorem postParse_rotations_set (env : Env) (self : MapSection) (sec : INIConfigSection)
    (v : ValidationList) :
    (MapSection.postParse env self sec v).1.rotations_set =
      ((tokens (self.rotations.getValue "")).foldl (MapSection.rotationStep env) ([], v)).1 := by
  unfold MapSection.postParse
  simp only []
  split <;> rfl

/-! ## C16: the rotation list -/

/-- C16: for every rotations string, `postParse` appends one Error
"Invalid rotation '<token>'!" per whitespace-separated token for which `stringToRotation`
returns -1, in token order and before the required-field messages (so their number is the
number of such tokens, and later tokens are still processed), and the resulting rotations
set holds exactly the `stringToRotation` values of the valid tokens, whatever set the
object carried before; it is kept strictly increasing. -/
theorem rotations_parsed (env : Env) (self : MapSection) (sec : INIConfigSection)
    (v : ValidationList) :
    (∃ req : ValidationList,
      (MapSection.postParse env self sec v).2 =
        v ++ invalidRotationErrors env (self.rotations.getValue "") ++ req ∧
      ∀ m ∈ req, m = ValidationMessage.error "You have to specify a world ('world')!" ∨
        m = ValidationMessage.error "You have to specify a texture directory ('texture_dir')!") ∧
    (invalidRotationErrors env (self.rotations.getValue "")).length =
      (tokens (self.rotations.getValue "")).countP
        (fun t => decide (env.stringToRotation t = -1)) ∧
    (∀ r, r ∈ (MapSection.postParse env self sec v).1.getRotations ↔
      ∃ t ∈ tokens (self.rotations.getValue ""), env.stringToRotation t = r ∧ r ≠ -1) ∧
    (MapSection.postParse env self sec v).1.getRotations.Pairwise (· < ·) := by
  have hf := rotationFold env (tokens (self.rotations.getValue "")) [] v
  refine ⟨⟨_, postParse_messages env self sec v, ?_⟩, ?_, ?_, ?_⟩
  · intro m hm
    split at hm
    · rcases List.mem_append.mp hm with h | h
      · split at h
        · exact Or.inl (by simpa using h)
        · exact absurd h (List.not_mem_nil m)
      · split at h
        · exact Or.inr (by simpa using h)
        · exact absurd h (List.not_mem_nil m)
    · exact absurd hm (List.not_mem_nil m)
  · unfold invalidRotationErrors
    rw [List.length_map, List.countP_eq_length_filter]
  · intro r
    unfold MapSection.getRotations
    rw [postParse_rotations_set, hf.2.1 r]
    simp
  · unfold MapSection.getRotations
    rw [postParse_rotations_set]
    exact hf.2.2 List.Pairwise.nil

/-! ## C17: required fields -/

/-- C17: `postParse` on a global section appends no required-field Error, whatever fields
are set or unset: its messages are those of the token loop, none of which is a
required-field message. On a non-global section it appends, after those,
"You have to specify a world ('world')!" exactly when `world` has neither a loaded value nor
a default, and then "You have to specify a texture directory ('texture_dir')!" exactly when
`texture_dir` has neither. -/
theorem required_fields_checked (env : Env) (self : MapSection) (sec : INIConfigSection)
    (v : ValidationList) :
    (self.global = true →
      (MapSection.postParse env self sec v).2 =
        v ++ invalidRotationErrors env (self.rotations.getValue "")) ∧
    (self.global = false →
      (MapSection.postParse env self sec v).2 =
        v ++ invalidRotationErrors env (self.rotations.getValue "") ++
          ((if self.world.isUnset then
            [ValidationMessage.error "You have to specify a world ('world')!"] else []) ++
          (if self.texture_dir.isUnset then
            [ValidationMessage.error
              "You have to specify a texture directory ('texture_dir')!"] else []))) ∧
    (∀ m ∈ invalidRotationErrors env (self.rotations.getValue ""),
      m ≠ ValidationMessage.error "You have to specify a world ('world')!" ∧
      m ≠ ValidationMessage.error "You have to specify a texture directory ('texture_dir')!") := by
  refine ⟨?_, ?_, ?_⟩
  · intro hg
    rw [postParse_messages, hg]
    simp
  · intro hg
    rw [postParse_messages, hg]
    simp
  · intro m hm
    unfold invalidRotationErrors at hm
    obtain ⟨t, _, ht⟩ := List.mem_map.mp hm
    rw [← ht]
    constructor <;>
    · intro h
      have h1 : "Invalid rotation '" ++ t ++ "'!" = _ := congrArg ValidationMessage.message h
      have h2 := congrArg String.data h1
      simp only [String.data_append] at h2
      have h3 := congrArg List.head? h2
      simp [ValidationMessage.error] at h3

/-! ## The hex colour converter -/

theorem hexDigitValue_range (c : Char) : 0 ≤ hexDigitValue c ∧ hexDigitValue c ≤ 15 := by
  unfold hexDigitValue
  split_ifs with h1 h2 h3
  · simp only [Bool.and_eq_true, decide_eq_true_eq] at h1; omega
  · simp only [Bool.and_eq_true, decide_eq_true_eq] at h2; omega
  · simp only [Bool.and_eq_true, decide_eq_true_eq] at h3; omega
  · omega

theorem hexDigitValue_ascii :
    ∀ n < 128, isxdigit (Char.ofNat n) = true →
      hexDigitValue (Char.ofNat n) = (base16Digit (Char.ofNat n) : Int) := by
  decide

theorem hexDigitValue_eq_base16Digit (c : Char) (h : isxdigit c = true) :
    hexDigitValue c = (base16Digit c : Int) := by
  have hlt : c.toNat < 128 := by
    unfold isxdigit at h
    simp only [Bool.or_eq_true, Bool.and_eq_true, decide_eq_true_eq] at h
    omega
  have hc : Char.ofNat c.toNat = c := Char.ofNat_toNat c
  have := hexDigitValue_ascii c.toNat hlt (by rw [hc]; exact h)
  rw [hc] at this
  exact this

theorem length_le_utf8Len (l : List Char) : l.length ≤ String.utf8Len l := by
  induction l with
  | nil => simp
  | cons c cs ih =>
      have := Char.utf8Size_pos c
      simp only [List.length_cons, String.utf8Len_cons]
      omega

theorem xdigitAt_spec (s : String) (i : Nat) (h : xdigitAt s i = true) :
    ∃ c, s.data.get? i = some c ∧ isxdigit c = true := by
  unfold xdigitAt at h
  cases hg : s.data.get? i with
  | none => rw [hg] at h; exact Bool.noConfusion h
  | some c => rw [hg] at h; exact ⟨c, rfl, h⟩

theorem take_two_drop (l : List Char) (i : Nat) (a b : Char)
    (ha : l.get? i = some a) (hb : l.get? (i + 1) = some b) :
    (l.drop i).take 2 = [a, b] := by
  induction l generalizing i with
  | nil => simp at ha
  | cons x xs ih =>
      cases i with
      | zero =>
          simp only [List.get?_cons_zero, Option.some.injEq] at ha
          cases xs with
          | nil => simp at hb
          | cons y ys =>
              simp only [zero_add, List.get?_cons_succ, List.get?_cons_zero,
                Option.some.injEq] at hb
              simp [ha, hb]
      | succ j =>
          simp only [List.get?_cons_succ] at ha hb
          simpa using ih j ha hb

/-- What `as<Color>` accepts, and what it returns: the size is 7 bytes, there is a
hexadecimal digit at each of the indices 1 to 6, and the channels are the `stoi` values of
the three pairs. -/
theorem asColor_ok (s : String) (c : Color) (h : asColor s = Except.ok c) :
    s.utf8ByteSize = 7 ∧ (∀ i ∈ List.range' 1 6, xdigitAt s i = true) ∧
    c = { hex := s, red := stoiHex (substr s 1 2), green := stoiHex (substr s 3 2),
          blue := stoiHex (substr s 5 2) } := by
  unfold asColor at h
  simp only [] at h
  by_cases h1 : s.utf8ByteSize = 7
  · rw [if_neg (by simpa using h1)] at h
    by_cases h2 : (List.range' 1 6).any (fun i => !xdigitAt s i) = true
    · rw [if_pos h2] at h
      exact Except.noConfusion h
    · rw [if_neg h2] at h
      refine ⟨h1, ?_, (Except.ok.inj h).symm⟩
      intro i hi
      cases hx : xdigitAt s i with
      | true => rfl
      | false =>
          exfalso
          apply h2
          rw [List.any_eq_true]
          exact ⟨i, hi, by simp [hx]⟩
  · rw [if_pos (by simpa using h1)] at h
    exact Except.noConfusion h

theorem stoiHex_pair (a b : Char) : stoiHex [a, b] = 16 * hexDigitValue a + hexDigitValue b := by
  simp [stoiHex]

theorem load_defaultValue {T : Type} (conv : String → Except String T) (f : Field T)
    (key raw : String) (v : ValidationList) :
    (f.load conv key raw v).2.1.defaultValue = f.defaultValue := by
  unfold Field.load
  split <;> rfl

theorem rootEntry_background_default (env : Env) (d : String)
    (acc : MapcrafterConfig W M × ValidationList) (entry : String × String) :
    (rootEntry env d acc entry).1.background_color.defaultValue
      = acc.1.background_color.defaultValue := by
  unfold rootEntry
  simp only [apply_ite Prod.fst, apply_ite MapcrafterConfig.background_color,
    apply_ite Field.defaultValue, load_defaultValue, ite_self]

theorem parseGeneral_background_default (env : Env) (config : INIConfig) (d : String)
    (c : MapcrafterConfig W M) (v : ValidationMap) :
    (parseGeneral env config d c v).cfg.background_color.defaultValue
      = some ⟨"#DDDDDD", 0xDD, 0xDD, 0xDD⟩ := by
  unfold parseGeneral
  simp only []
  exact foldl_invariant
    (fun a : MapcrafterConfig W M × ValidationList =>
      a.1.background_color.defaultValue = some ⟨"#DDDDDD", 0xDD, 0xDD, 0xDD⟩)
    (rootEntry env d) config.root.entries
    (fun a x _ ha => (rootEntry_background_default env d a x).trans ha) _ rfl

/-! ## C19: what the hex colour converter accepts -/

/-- C19, evaluated where the code departs from it: the 7-character string `x123456`, whose
first character is not `#`, is accepted (the loop of lines 33-35 starts at index 1 and
index 0 is never looked at), while strings of another size or with a character that is no
hexadecimal digit after the first are rejected with the message that names the format
`#rrggbb`. -/
theorem color_without_hash_accepted :
    asColor "x123456" = Except.ok ⟨"x123456", 0x12, 0x34, 0x56⟩ ∧
    asColor "#123456" = Except.ok ⟨"#123456", 0x12, 0x34, 0x56⟩ ∧
    asColor "#12345" = Except.error "Hex color must be in the format '#rrggbb'." ∧
    asColor "#12345g" = Except.error "Hex color must be in the format '#rrggbb'." := by
  decide

/-! ## C20: colour decoding -/

/-- C20: for every string `s` accepted by `as<Color>`, the result has `hex = s`, the string
has seven characters, and red, green and blue are the base-16 values of the character pairs
at the indices 1-2, 3-4 and 5-6 (upper and lower case alike), each between 0 and 255; in
particular `#DDDDDD` is decoded to the Color `{"#DDDDDD", 0xDD, 0xDD, 0xDD}`, which is the
default that `parse` gives `background_color`. -/
theorem color_decoded :
    (∀ (s : String) (c : Color), asColor s = Except.ok c →
      c.hex = s ∧ s.data.length = 7 ∧
      ∃ c1 c2 c3 c4 c5 c6 : Char,
        s.data.get? 1 = some c1 ∧ s.data.get? 2 = some c2 ∧ s.data.get? 3 = some c3 ∧
        s.data.get? 4 = some c4 ∧ s.data.get? 5 = some c5 ∧ s.data.get? 6 = some c6 ∧
        c.red = base16Pair c1 c2 ∧ c.green = base16Pair c3 c4 ∧ c.blue = base16Pair c5 c6 ∧
        0 ≤ c.red ∧ c.red ≤ 255 ∧ 0 ≤ c.green ∧ c.green ≤ 255 ∧ 0 ≤ c.blue ∧ c.blue ≤ 255) ∧
    asColor "#DDDDDD" = Except.ok ⟨"#DDDDDD", 0xDD, 0xDD, 0xDD⟩ ∧
    (∀ (env : Env) (config : INIConfig) (d : String) (c : MapcrafterConfig W M)
        (v : ValidationMap),
      (parseGeneral env config d c v).cfg.background_color.defaultValue
        = some ⟨"#DDDDDD", 0xDD, 0xDD, 0xDD⟩) := by
  refine ⟨?_, by decide, ?_⟩
  · intro s c h
    obtain ⟨hsize, hx, hc⟩ := asColor_ok s c h
    obtain ⟨c1, g1, x1⟩ := xdigitAt_spec s 1 (hx 1 (by decide))
    obtain ⟨c2, g2, x2⟩ := xdigitAt_spec s 2 (hx 2 (by decide))
    obtain ⟨c3, g3, x3⟩ := xdigitAt_spec s 3 (hx 3 (by decide))
    obtain ⟨c4, g4, x4⟩ := xdigitAt_spec s 4 (hx 4 (by decide))
    obtain ⟨c5, g5, x5⟩ := xdigitAt_spec s 5 (hx 5 (by decide))
    obtain ⟨c6, g6, x6⟩ := xdigitAt_spec s 6 (hx 6 (by decide))
    have hr : c.red = 16 * hexDigitValue c1 + hexDigitValue c2 := by
      rw [hc]
      show stoiHex ((s.data.drop 1).take 2) = _
      rw [take_two_drop s.data 1 c1 c2 g1 g2, stoiHex_pair]
    have hg : c.green = 16 * hexDigitValue c3 + hexDigitValue c4 := by
      rw [hc]
      show stoiHex ((s.data.drop 3).take 2) = _
      rw [take_two_drop s.data 3 c3 c4 g3 g4, stoiHex_pair]
    have hb : c.blue = 16 * hexDigitValue c5 + hexDigitValue c6 := by
      rw [hc]
      show stoiHex ((s.data.drop 5).take 2) = _
      rw [take_two_drop s.data 5 c5 c6 g5 g6, stoiHex_pair]
    have r1 := hexDigitValue_range c1
    have r2 := hexDigitValue_range c2
    have r3 := hexDigitValue_range c3
    have r4 := hexDigitValue_range c4
    have r5 := hexDigitValue_range c5
    have r6 := hexDigitValue_range c6
    have hlen : s.data.length = 7 := by
      have h6 : 6 < s.data.length := by
        by_contra hcon
        have : s.data.get? 6 = none := List.get?_eq_none.mpr (by omega)
        rw [this] at g6
        exact Option.noConfusion g6
      have hle := length_le_utf8Len s.data
      have hsz : String.utf8Len s.data = 7 := by
        obtain ⟨l⟩ := s
        exact hsize
      omega
    refine ⟨by rw [hc], hlen, c1, c2, c3, c4, c5, c6, g1, g2, g3, g4, g5, g6, ?_, ?_, ?_,
      by omega, by omega, by omega, by omega, by omega, by omega⟩
    · rw [hr, hexDigitValue_eq_base16Digit c1 x1, hexDigitValue_eq_base16Digit c2 x2]; rfl
    · rw [hg, hexDigitValue_eq_base16Digit c3 x3, hexDigitValue_eq_base16Digit c4 x4]; rfl
    · rw [hb, hexDigitValue_eq_base16Digit c5 x5, hexDigitValue_eq_base16Digit c6 x6]; rfl
  · intro env config d c v
    exact parseGeneral_background_default env config d c v

/-! ## Parts of `parse` that do not read the report -/

theorem reportBlind_comp {f g : PState W M → PState W M} (hf : ReportBlind f)
    (hg : ReportBlind g) : ReportBlind (fun st => g (f st)) := by
  intro ok cfg v
  show g (f ⟨ok, cfg, v⟩) = ⟨(g (f ⟨ok, cfg, []⟩)).ok, (g (f ⟨ok, cfg, []⟩)).cfg,
    v ++ (g (f ⟨ok, cfg, []⟩)).validation⟩
  rw [hf ok cfg v, hg, hf ok cfg []]
  rw [hg (f ⟨ok, cfg, []⟩).ok (f ⟨ok, cfg, []⟩).cfg ([] ++ (f ⟨ok, cfg, []⟩).validation)]
  simp [List.append_assoc]

theorem reportBlind_id : ReportBlind (fun st : PState W M => st) := by
  intro ok cfg v
  simp

theorem reportBlind_foldl {α : Type} (f : PState W M → α → PState W M)
    (hf : ∀ x, ReportBlind (fun st => f st x)) (l : List α) :
    ReportBlind (fun st => l.foldl f st) := by
  induction l with
  | nil => exact reportBlind_id
  | cons x xs ih => exact reportBlind_comp (hf x) ih

theorem worldStep_blind (K : Sections W M) (d : String) (it : INIConfigSection) :
    ReportBlind (fun st : PState W M => worldStep K d st it) := by
  intro ok cfg v
  beta_reduce
  by_cases h : it.type = "world"
  · cases hd : cfg.hasWorld it.name with
    | true =>
        rw [worldStep_dup K d ⟨ok, cfg, v⟩ it h hd, worldStep_dup K d ⟨ok, cfg, []⟩ it h hd]
        simp
    | false =>
        rw [worldStep_new K d ⟨ok, cfg, v⟩ it h hd, worldStep_new K d ⟨ok, cfg, []⟩ it h hd]
        by_cases hm : (buildWorld K d cfg.world_global it).2.2 = [] <;> simp [hm]
  · rw [worldStep_skip K d ⟨ok, cfg, v⟩ it h, worldStep_skip K d ⟨ok, cfg, []⟩ it h]
    simp

theorem mapStep_blind (env : Env) (d : String) (it : INIConfigSection) :
    ReportBlind (fun st : PState W M => mapStep env d st it) := by
  intro ok cfg v
  beta_reduce
  by_cases h : it.type = "map"
  · cases hd : cfg.hasMap it.name with
    | true =>
        rw [mapStep_dup env d ⟨ok, cfg, v⟩ it h hd, mapStep_dup env d ⟨ok, cfg, []⟩ it h hd]
        simp
    | false =>
        by_cases hw : (buildMap env d cfg.map_global it).2.1.getWorld = "" ∨
            cfg.hasWorld (buildMap env d cfg.map_global it).2.1.getWorld = true
        · rw [mapStep_new env d ⟨ok, cfg, v⟩ it h hd hw,
            mapStep_new env d ⟨ok, cfg, []⟩ it h hd hw]
          by_cases hm : (buildMap env d cfg.map_global it).2.2 = [] <;> simp [hm]
        · have hw1 : (buildMap env d cfg.map_global it).2.1.getWorld ≠ "" :=
            fun e => hw (Or.inl e)
          have hw2 : cfg.hasWorld (buildMap env d cfg.map_global it).2.1.getWorld = false := by
            cases hh : cfg.hasWorld (buildMap env d cfg.map_global it).2.1.getWorld with
            | true => exact absurd (Or.inr hh) hw
            | false => rfl
          rw [mapStep_dangling env d ⟨ok, cfg, v⟩ it h hd hw1 hw2,
            mapStep_dangling env d ⟨ok, cfg, []⟩ it h hd hw1 hw2]
          simp
  · rw [mapStep_skip env d ⟨ok, cfg, v⟩ it h, mapStep_skip env d ⟨ok, cfg, []⟩ it h]
    simp

theorem markerStep_blind (K : Sections W M) (it : INIConfigSection) :
    ReportBlind (fun st : PState W M => markerStep K st it) := by
  intro ok cfg v
  beta_reduce
  by_cases h : it.type = "marker"
  · cases hd : hasMarker K cfg it.name with
    | true =>
        rw [markerStep_dup K ⟨ok, cfg, v⟩ it h hd, markerStep_dup K ⟨ok, cfg, []⟩ it h hd]
        simp
    | false =>
        rw [markerStep_new K ⟨ok, cfg, v⟩ it h hd, markerStep_new K ⟨ok, cfg, []⟩ it h hd]
        by_cases hm : (buildMarker K cfg.marker_global it).2.2 = [] <;> simp [hm]
  · rw [markerStep_skip K ⟨ok, cfg, v⟩ it h, markerStep_skip K ⟨ok, cfg, []⟩ it h]
    simp

/-- The three loops, one after the other (lines 149-206). -/
theorem passes_blind (env : Env) (K : Sections W M) (d : String) (L : List INIConfigSection) :
    ReportBlind (fun st : PState W M =>
      markerPass K L (mapPass env d L (worldPass K d L st))) :=
  reportBlind_comp
    (reportBlind_comp (reportBlind_foldl (worldStep K d) (worldStep_blind K d) L)
      (reportBlind_foldl (mapStep env d) (mapStep_blind env d) L))
    (reportBlind_foldl (markerStep K) (markerStep_blind K) L)

/-! ## Sections of unknown type -/

theorem unknownStep_eq (v : ValidationMap) (it : INIConfigSection) :
    unknownStep v it = v ++ (if isUnknownSection it = true then [unknownScope it] else []) := by
  unfold unknownStep isUnknownSection unknownScope makeValidationList
  by_cases h : it.type ≠ "world" ∧ it.type ≠ "map" ∧ it.type ≠ "marker"
      ∧ it.getNameType ≠ "global:worlds" ∧ it.getNameType ≠ "global:maps"
      ∧ it.getNameType ≠ "global:markers"
  · rw [if_pos h]
    simp [h]
  · rw [if_neg h]
    simp [h]

theorem unknownFold_eq (L : List INIConfigSection) (v : ValidationMap) :
    L.foldl unknownStep v = v ++ (L.filter isUnknownSection).map unknownScope := by
  induction L generalizing v with
  | nil => simp
  | cons x xs ih =>
      rw [List.foldl_cons, ih, unknownStep_eq]
      cases hx : isUnknownSection x <;> simp [hx]

theorem unknown_type (s : INIConfigSection) (h : isUnknownSection s = true) :
    s.type ≠ "world" ∧ s.type ≠ "map" ∧ s.type ≠ "marker" := by
  unfold isUnknownSection at h
  have h' := of_decide_eq_true h
  exact ⟨h'.1, h'.2.1, h'.2.2.1⟩

theorem foldl_filter_skip {α σ : Type} (f : σ → α → σ) (p : α → Bool)
    (hskip : ∀ s x, p x = false → f s x = s) (l : List α) (s : σ) :
    (l.filter p).foldl f s = l.foldl f s := by
  induction l generalizing s with
  | nil => rfl
  | cons x xs ih =>
      cases hx : p x with
      | true =>
          rw [List.filter_cons_of_pos (by simpa using hx), List.foldl_cons, List.foldl_cons, ih]
      | false =>
          rw [List.filter_cons_of_neg (by simpa using hx), List.foldl_cons, hskip s x hx, ih]

theorem any_filter_of_imp {α : Type} (p q : α → Bool) (h : ∀ a, q a = true → p a = true)
    (l : List α) : (l.filter p).any q = l.any q := by
  induction l with
  | nil => rfl
  | cons x xs ih =>
      cases hx : p x with
      | true =>
          rw [List.filter_cons_of_pos (by simpa using hx), List.any_cons, List.any_cons, ih]
      | false =>
          have hq : q x = false := by
            cases hq : q x with
            | true => rw [h x hq] at hx; exact Bool.noConfusion hx
            | false => rfl
          rw [List.filter_cons_of_neg (by simpa using hx), List.any_cons, hq, ih]
          rfl

theorem find_filter_of_imp {α : Type} (p q : α → Bool) (h : ∀ a, q a = true → p a = true)
    (l : List α) : (l.filter p).find? q = l.find? q := by
  induction l with
  | nil => rfl
  | cons x xs ih =>
      cases hx : p x with
      | true =>
          rw [List.filter_cons_of_pos (by simpa using hx)]
          cases hq : q x with
          | true => simp [List.find?, hq]
          | false => simp [List.find?, hq, ih]
      | false =>
          have hq : q x = false := by
            cases hq : q x with
            | true => rw [h x hq] at hx; exact Bool.noConfusion hx
            | false => rfl
          rw [List.filter_cons_of_neg (by simpa using hx)]
          simp [List.find?, hq, ih]

theorem global_not_unknown (s : INIConfigSection) (n : String)
    (hn : n = "worlds" ∨ n = "maps" ∨ n = "markers")
    (h : (decide (s.type = "global") && decide (s.name = n)) = true) :
    (!isUnknownSection s) = true := by
  simp only [Bool.and_eq_true, decide_eq_true_eq] at h
  obtain ⟨ht, hname⟩ := h
  have hnt : s.getNameType = "global:" ++ n := by
    unfold INIConfigSection.getNameType
    rw [ht, hname]
    rfl
  unfold isUnknownSection
  rcases hn with e | e | e <;>
  · subst e
    simp [hnt]

theorem withoutUnknown_global (config : INIConfig) (n : String)
    (hn : n = "worlds" ∨ n = "maps" ∨ n = "markers") :
    (withoutUnknown config).hasSection "global" n = config.hasSection "global" n ∧
    (withoutUnknown config).getSection "global" n = config.getSection "global" n := by
  unfold withoutUnknown INIConfig.hasSection INIConfig.getSection
  simp only []
  rw [any_filter_of_imp _ _ (fun s hs => global_not_unknown s n hn hs),
    find_filter_of_imp _ _ (fun s hs => global_not_unknown s n hn hs)]
  exact ⟨rfl, rfl⟩

theorem parseGlobals_withoutUnknown (env : Env) (K : Sections W M) (config : INIConfig)
    (d : String) (st : PState W M) :
    parseGlobals env K (withoutUnknown config) d st = parseGlobals env K config d st := by
  have h1 := withoutUnknown_global config "worlds" (Or.inl rfl)
  have h2 := withoutUnknown_global config "maps" (Or.inr (Or.inl rfl))
  have h3 := withoutUnknown_global config "markers" (Or.inr (Or.inr rfl))
  unfold parseGlobals stageWorlds stageMaps stageMarkers globalWorlds globalMaps globalMarkers
  rw [h1.1, h1.2, h2.1, h2.2, h3.1, h3.2]

theorem passes_withoutUnknown (env : Env) (K : Sections W M) (config : INIConfig)
    (d : String) (st : PState W M) :
    markerPass K (withoutUnknown config).sections
        (mapPass env d (withoutUnknown config).sections
          (worldPass K d (withoutUnknown config).sections st))
      = markerPass K config.sections (mapPass env d config.sections
          (worldPass K d config.sections st)) := by
  unfold markerPass mapPass worldPass withoutUnknown
  simp only []
  have hp : ∀ x : INIConfigSection, (!isUnknownSection x) = false →
      x.type ≠ "world" ∧ x.type ≠ "map" ∧ x.type ≠ "marker" := by
    intro x hx
    exact unknown_type x (by simpa using hx)
  rw [foldl_filter_skip (worldStep K d) _ (fun s x hx => worldStep_skip K d s x (hp x hx).1),
    foldl_filter_skip (mapStep env d) _ (fun s x hx => mapStep_skip env d s x (hp x hx).2.1),
    foldl_filter_skip (markerStep K) _ (fun s x hx => markerStep_skip K s x (hp x hx).2.2)]

theorem unknownScan_withoutUnknown (config : INIConfig) (st : PState W M) :
    unknownScan (withoutUnknown config).sections st = st := by
  unfold unknownScan withoutUnknown
  simp only []
  rw [unknownFold_eq, List.filter_filter]
  have : (config.sections.filter (fun a => isUnknownSection a && !isUnknownSection a)) = [] := by
    rw [List.filter_eq_nil_iff]
    intro a _
    cases isUnknownSection a <;> simp
  rw [this]
  simp

theorem named_labels_step {P : String → Prop} (hP : ∀ l, isNamedLabel l → P l)
    (env : Env) (K : Sections W M) (d : String) (st : PState W M) (it : INIConfigSection)
    (h : ∀ e ∈ st.validation, P e.1) :
    (∀ e ∈ (worldStep K d st it).validation, P e.1) ∧
    (∀ e ∈ (mapStep env d st it).validation, P e.1) ∧
    (∀ e ∈ (markerStep K st it).validation, P e.1) := by
  have hw : P ("World section '" ++ it.name ++ "'") := hP _ ⟨it.name, Or.inl rfl⟩
  have hm : P ("Map section '" ++ it.name ++ "'") := hP _ ⟨it.name, Or.inr (Or.inl rfl)⟩
  have hk : P ("Marker section '" ++ it.name ++ "'") := hP _ ⟨it.name, Or.inr (Or.inr rfl)⟩
  have snoc : ∀ (label : String) (msgs : ValidationList), P label →
      ∀ e ∈ st.validation ++ [(label, msgs)], P e.1 := by
    intro label msgs hl e he
    rcases List.mem_append.mp he with h1 | h1
    · exact h e h1
    · have : e = (label, msgs) := by simpa using h1
      rw [this]; exact hl
  refine ⟨?_, ?_, ?_⟩
  · refine worldStep_cases K d st it (fun st' => ∀ e ∈ st'.validation, P e.1) ?_ ?_ ?_
    · intro _; exact h
    · intro _ _; exact snoc _ _ hw
    · intro _ _; exact scope_labels st.validation _ _ h hw
  · refine mapStep_cases env d st it (fun st' => ∀ e ∈ st'.validation, P e.1) ?_ ?_ ?_ ?_
    · intro _; exact h
    · intro _ _; exact snoc _ _ hm
    · intro _ _ _ _; exact snoc _ _ hm
    · intro _ _ _; exact scope_labels st.validation _ _ h hm
  · refine markerStep_cases K st it (fun st' => ∀ e ∈ st'.validation, P e.1) ?_ ?_ ?_
    · intro _; exact h
    · intro _ _; exact snoc _ _ hk
    · intro _ _; exact scope_labels st.validation _ _ h hk

theorem passes_labels {P : String → Prop} (hP : ∀ l, isNamedLabel l → P l)
    (env : Env) (K : Sections W M) (d : String) (L : List INIConfigSection) (st : PState W M)
    (h : ∀ e ∈ st.validation, P e.1) :
    ∀ e ∈ (markerPass K L (mapPass env d L (worldPass K d L st))).validation, P e.1 := by
  have h1 : ∀ e ∈ (worldPass K d L st).validation, P e.1 :=
    foldl_invariant (fun s : PState W M => ∀ e ∈ s.validation, P e.1) (worldStep K d) L
      (fun s x _ hs => (named_labels_step hP env K d s x hs).1) st h
  have h2 : ∀ e ∈ (mapPass env d L (worldPass K d L st)).validation, P e.1 :=
    foldl_invariant (fun s : PState W M => ∀ e ∈ s.validation, P e.1) (mapStep env d) L
      (fun s x _ hs => (named_labels_step hP env K d s x hs).2.1) _ h1
  exact foldl_invariant (fun s : PState W M => ∀ e ∈ s.validation, P e.1) (markerStep K) L
    (fun s x _ hs => (named_labels_step hP env K d s x hs).2.2) _ h2

theorem unknown_label_not_named (name type : String) :
    ¬ isNamedLabel ("Section '" ++ name ++ "' with type '" ++ type ++ "'") := by
  rintro ⟨n, h | h | h⟩ <;>
  · have h2 := congrArg String.data h
    simp only [String.data_append] at h2
    have h3 := congrArg List.head? h2
    simp at h3

/-! ## C13: sections of unknown type do not interfere -/

/-- C13 as stated ("for every section") fails: when a global section records an Error,
`parse` returns before the unknown-type scan, and the section `bar` of type `foo` gets no
scope; in a file that gets past the global sections it gets its scope with the one
Warning. -/
theorem unknown_section_unseen_after_global_error :
    (Sample.run Sample.globalErrorUnknownFile).validation =
      [("Global map configuration",
        [ValidationMessage.error "'texture_size' must a number between 1 and 32!"])] ∧
    (Sample.run Sample.unknownSectionFile).validation =
      [("Section 'bar' with type 'foo'", [ValidationMessage.warning "Unknown section type!"]),
       ("Map section 'm1'",
        [ValidationMessage.warning "Unknown configuration option 'foo'!"])] := by
  decide

/-- C13 (amended): let a file load as `config` and another file of the same directory load
as `config` without its sections of unknown type. On the same configuration object and an
empty report, `parse` returns the same value and leaves the same configuration (worlds,
maps and markers included) for both; the report for the first file is the report for the
second with, when the parse gets past the global sections, one scope
"Section '<name>' with type '<type>'" holding exactly the Warning "Unknown section type!"
inserted for each section of unknown type, in file order, at the place of the scan, and
with nothing inserted when a global stage returns; no other scope carries such a label. -/
theorem unknown_sections_do_not_interfere (env : Env) (K : Sections W M)
    (filename stripped : String) (c : MapcrafterConfig W M) (config : INIConfig)
    (hload : env.loadFile filename = Except.ok config)
    (hstripped : env.loadFile stripped = Except.ok (withoutUnknown config))
    (hdir : env.parentPath stripped = env.parentPath filename) :
    (parse env K stripped c []).ok = (parse env K filename c []).ok ∧
    (parse env K stripped c []).cfg = (parse env K filename c []).cfg ∧
    ∃ A R : ValidationMap,
      (parse env K stripped c []).validation = A ++ R ∧
      (parse env K filename c []).validation =
        A ++ (if (parseGlobals env K config (env.parentPath filename)
                (parseGeneral env config (env.parentPath filename) c [])).1 = false
              then (config.sections.filter isUnknownSection).map unknownScope else []) ++ R ∧
      ∀ e ∈ A ++ R, ∀ name type : String,
        e.1 ≠ "Section '" ++ name ++ "' with type '" ++ type ++ "'" := by
  have hpg : parseGeneral env (withoutUnknown config) (env.parentPath filename) c []
      = parseGeneral env config (env.parentPath filename) c [] := rfl
  have hlab : ∀ e ∈ (parseGlobals env K config (env.parentPath filename)
      (parseGeneral env config (env.parentPath filename) c [])).2.validation,
      isGlobalLabel e.1 :=
    parseGlobals_labels env K config _ _
      (parseGeneral_labels env config _ _ [] (fun e he => absurd he (List.not_mem_nil e)))
  rw [parse_loaded env K filename c [] config hload,
    parse_loaded env K stripped c [] (withoutUnknown config) hstripped, hdir, hpg,
    parseGlobals_withoutUnknown]
  generalize parseGlobals env K config (env.parentPath filename)
    (parseGeneral env config (env.parentPath filename) c []) = G at hlab ⊢
  generalize env.parentPath filename = d
  have hA : ∀ e ∈ G.2.validation, ∀ name type : String,
      e.1 ≠ "Section '" ++ name ++ "' with type '" ++ type ++ "'" := by
    intro e he name type heq
    have := hlab e he
    rw [heq] at this
    exact (named_labels_not_global name type).2.2.2 this
  cases hg : G.1 with
  | true =>
      rw [if_pos rfl, if_pos rfl]
      refine ⟨rfl, rfl, G.2.validation, [], by simp, by simp, ?_⟩
      intro e he
      rw [List.append_nil] at he
      exact hA e he
  | false =>
      rw [if_neg (by simp), if_neg (by simp)]
      have hb := passes_blind env K d config.sections (W := W) (M := M)
      have hL : parseNamed env K d config.sections G.2 =
          markerPass K config.sections (mapPass env d config.sections
            (worldPass K d config.sections
              ⟨G.2.ok, G.2.cfg,
                G.2.validation ++ (config.sections.filter isUnknownSection).map unknownScope⟩)) := by
        unfold parseNamed unknownScan
        rw [unknownFold_eq]
      have hL' : parseNamed env K d (withoutUnknown config).sections G.2 =
          markerPass K config.sections (mapPass env d config.sections
            (worldPass K d config.sections ⟨G.2.ok, G.2.cfg, G.2.validation⟩)) := by
        unfold parseNamed
        rw [unknownScan_withoutUnknown, passes_withoutUnknown]
      rw [hL, hL']
      have e1 := hb G.2.ok G.2.cfg
        (G.2.validation ++ (config.sections.filter isUnknownSection).map unknownScope)
      have e2 := hb G.2.ok G.2.cfg G.2.validation
      beta_reduce at e1 e2
      rw [e1, e2]
      refine ⟨rfl, rfl, G.2.validation, _, rfl, by simp, ?_⟩
      intro e he name type heq
      rcases List.mem_append.mp he with h1 | h1
      · exact hA e h1 name type heq
      · have hn : ¬ isNamedLabel e.1 := by
          rw [heq]; exact unknown_label_not_named name type
        have := passes_labels (P := isNamedLabel) (fun l hl => hl) env K d config.sections
          ⟨G.2.ok, G.2.cfg, []⟩ (fun e he => absurd he (List.not_mem_nil e)) e h1
        exact hn this

/-! ## The global stages and the rest of `parse` do not read the report -/

theorem stageBlind_seq {s t : PState W M → Bool × PState W M} (hs : StageBlind s)
    (ht : StageBlind t) :
    StageBlind (fun st => if (s st).1 then s st else t (s st).2) := by
  intro ok cfg v
  beta_reduce
  rw [hs ok cfg v]
  cases h1 : (s ⟨ok, cfg, []⟩).1 with
  | true =>
      simp [h1]
  | false =>
      simp only [Bool.false_eq_true, if_false]
      rw [ht]
      rw [ht (s ⟨ok, cfg, []⟩).2.ok (s ⟨ok, cfg, []⟩).2.cfg (s ⟨ok, cfg, []⟩).2.validation]
      simp [List.append_assoc]

theorem scope_blind (v : ValidationMap) (label : String) (msgs : ValidationList) :
    (if msgs ≠ [] then v ++ [(label, msgs)] else v) =
      v ++ (if msgs ≠ [] then ([] : ValidationMap) ++ [(label, msgs)] else []) := by
  by_cases h : msgs = [] <;> simp [h]

theorem stageWorlds_blind (K : Sections W M) (config : INIConfig) (d : String) :
    StageBlind (stageWorlds (W := W) (M := M) K config d) := by
  intro ok cfg v
  unfold stageWorlds globalWorlds
  simp only []
  split
  · rw [scope_blind]
  · simp

theorem stageMaps_blind (env : Env) (config : INIConfig) (d : String) :
    StageBlind (stageMaps (W := W) (M := M) env config d) := by
  intro ok cfg v
  unfold stageMaps globalMaps
  simp only []
  split
  · rw [scope_blind]
  · simp

theorem stageMarkers_blind (K : Sections W M) (config : INIConfig) :
    StageBlind (stageMarkers (W := W) (M := M) K config) := by
  intro ok cfg v
  unfold stageMarkers globalMarkers
  simp only []
  split
  · rw [scope_blind]
  · simp

theorem parseGlobals_blind (env : Env) (K : Sections W M) (config : INIConfig) (d : String) :
    StageBlind (parseGlobals env K config d) :=
  stageBlind_seq (stageWorlds_blind K config d)
    (stageBlind_seq (stageMaps_blind env config d) (stageMarkers_blind K config))

theorem unknownScan_blind (L : List INIConfigSection) :
    ReportBlind (fun st : PState W M => unknownScan L st) := by
  intro ok cfg v
  unfold unknownScan
  simp only []
  rw [unknownFold_eq, unknownFold_eq]
  simp

theorem parseNamed_blind (env : Env) (K : Sections W M) (d : String)
    (L : List INIConfigSection) : ReportBlind (parseNamed (W := W) (M := M) env K d L) :=
  reportBlind_comp (f := fun st => unknownScan L st)
    (g := fun st => markerPass K L (mapPass env d L (worldPass K d L st)))
    (unknownScan_blind L) (passes_blind env K d L)

theorem afterRoot_blind (env : Env) (K : Sections W M) (config : INIConfig) (d : String) :
    ReportBlind (afterRoot env K config d) := by
  intro ok cfg v
  unfold afterRoot
  rw [parseGlobals_blind env K config d ok cfg v]
  cases h1 : (parseGlobals env K config d ⟨ok, cfg, []⟩).1 with
  | true => simp
  | false =>
      simp only [Bool.false_eq_true, if_false]
      rw [parseNamed_blind env K d config.sections]
      rw [parseNamed_blind env K d config.sections
        (parseGlobals env K config d ⟨ok, cfg, []⟩).2.ok
        (parseGlobals env K config d ⟨ok, cfg, []⟩).2.cfg
        (parseGlobals env K config d ⟨ok, cfg, []⟩).2.validation]
      simp [List.append_assoc]

theorem parse_afterRoot (env : Env) (K : Sections W M) (filename : String)
    (c : MapcrafterConfig W M) (validation : ValidationMap) (config : INIConfig)
    (hload : env.loadFile filename = Except.ok config) :
    parse env K filename c validation =
      afterRoot env K config (env.parentPath filename)
        (parseGeneral env config (env.parentPath filename) c validation) := by
  rw [parse_loaded env K filename c validation config hload]
  rfl

theorem afterRoot_withRootEntries (env : Env) (K : Sections W M) (config : INIConfig)
    (entries : List (String × String)) (d : String) (st : PState W M) :
    afterRoot env K (withRootEntries config entries) d st = afterRoot env K config d st :=
  rfl

/-! ## The root-key loop does not read the messages it appends to -/

theorem load_blind {T : Type} (conv : String → Except String T) (f : Field T)
    (key raw : String) (m : ValidationList) :
    f.load conv key raw m =
      ((f.load conv key raw []).1, (f.load conv key raw []).2.1,
        m ++ (f.load conv key raw []).2.2) := by
  unfold Field.load
  split <;> simp

theorem rootEntry_blind (env : Env) (d : String) (c : MapcrafterConfig W M)
    (m : ValidationList) (entry : String × String) :
    rootEntry env d (c, m) entry =
      ((rootEntry env d (c, []) entry).1, m ++ (rootEntry env d (c, []) entry).2) := by
  unfold rootEntry
  simp only []
  rw [load_blind env.asPath c.output_dir, load_blind env.asPath c.template_dir,
    load_blind asColor c.background_color]
  by_cases h1 : entry.1 = "output_dir"
  · simp only [h1, if_true]
    generalize Field.load env.asPath c.output_dir _ entry.2 [] = r
    obtain ⟨b, f, ms⟩ := r
    cases b <;> simp
  · by_cases h2 : entry.1 = "template_dir"
    · simp only [h1, h2, if_true, if_false]
      generalize Field.load env.asPath c.template_dir _ entry.2 [] = r
      obtain ⟨b, f, ms⟩ := r
      cases b
      · simp
      · by_cases hdir : env.isDirectory
            ((f.setValue (env.absolute (f.getValue "") d)).getValue "") = true
        · simp [hdir]
        · simp [hdir]
    · by_cases h3 : entry.1 = "background_color"
      · simp [h1, h2, h3]
      · simp [h1, h2, h3]

theorem rootFold_blind (env : Env) (d : String) (l : List (String × String))
    (c : MapcrafterConfig W M) (m : ValidationList) :
    l.foldl (rootEntry env d) (c, m) =
      ((l.foldl (rootEntry env d) (c, [])).1, m ++ (l.foldl (rootEntry env d) (c, [])).2) := by
  induction l generalizing c m with
  | nil => simp
  | cons e es ih =>
      rw [List.foldl_cons, List.foldl_cons, rootEntry_blind, ih]
      have he : rootEntry env d (c, []) e =
          ((rootEntry env d (c, []) e).1, (rootEntry env d (c, []) e).2) := rfl
      rw [he, ih (rootEntry env d (c, []) e).1 (rootEntry env d (c, []) e).2]
      simp [List.append_assoc]

theorem rootEntry_unknown (env : Env) (d : String) (c : MapcrafterConfig W M)
    (m : ValidationList) (key value : String)
    (hkey : key ≠ "output_dir" ∧ key ≠ "template_dir" ∧ key ≠ "background_color") :
    rootEntry env d (c, m) (key, value) =
      (c, m ++ [ValidationMessage.warning ("Unknown configuration option '" ++ key ++ "'!")]) := by
  unfold rootEntry
  simp [hkey.1, hkey.2.1, hkey.2.2]

/-- The root-key loop over a list with an unknown key, and over the list without it: same
configuration, and the messages differ by the one Warning at its place. -/
theorem rootFold_unknown (env : Env) (d : String) (pre post : List (String × String))
    (key value : String) (c : MapcrafterConfig W M)
    (hkey : key ≠ "output_dir" ∧ key ≠ "template_dir" ∧ key ≠ "background_color") :
    ∃ (A P : ValidationList),
      (pre ++ (key, value) :: post).foldl (rootEntry env d) (c, []) =
        (((pre ++ post).foldl (rootEntry env d) (c, [])).1,
          A ++ [ValidationMessage.warning ("Unknown configuration option '" ++ key ++ "'!")]
            ++ P) ∧
      ((pre ++ post).foldl (rootEntry env d) (c, [])).2 = A ++ P := by
  refine ⟨(pre.foldl (rootEntry env d) (c, [])).2,
    (post.foldl (rootEntry env d) ((pre.foldl (rootEntry env d) (c, [])).1, [])).2, ?_, ?_⟩
  · rw [List.foldl_append, List.foldl_cons, List.foldl_append]
    have hp : pre.foldl (rootEntry env d) (c, []) =
        ((pre.foldl (rootEntry env d) (c, [])).1, (pre.foldl (rootEntry env d) (c, [])).2) := rfl
    rw [hp, rootEntry_unknown env d _ _ key value hkey, rootFold_blind env d post,
      rootFold_blind env d post _ (pre.foldl (rootEntry env d) (c, [])).2]
  · rw [List.foldl_append]
    have hp : pre.foldl (rootEntry env d) (c, []) =
        ((pre.foldl (rootEntry env d) (c, [])).1, (pre.foldl (rootEntry env d) (c, [])).2) := rfl
    rw [hp, rootFold_blind env d post]

theorem require_fst {T : Type} (f : Field T) (v : ValidationList) (text : String) :
    (f.require v text).1 = !f.isUnset := by
  obtain ⟨dv, val, hv⟩ := f
  cases dv <;> cases val <;> simp [Field.require, Field.isUnset]

/-- The root stage in terms of what the root-key loop leaves: the return value and the
messages of the two `require` calls depend on the configuration only. -/
theorem parseGeneral_shape (env : Env) (d : String) (c : MapcrafterConfig W M) :
    ∃ (c0 : MapcrafterConfig W M) (okf : MapcrafterConfig W M → Bool)
      (tail : MapcrafterConfig W M → ValidationList),
      ∀ (config : INIConfig) (v : ValidationMap),
        parseGeneral env config d c v =
          ⟨okf (config.root.entries.foldl (rootEntry env d) (c0, [])).1,
            (config.root.entries.foldl (rootEntry env d) (c0, [])).1,
            if (config.root.entries.foldl (rootEntry env d) (c0, [])).2 ++
                tail (config.root.entries.foldl (rootEntry env d) (c0, [])).1 ≠ [] then
              v ++ [("Configuration file",
                (config.root.entries.foldl (rootEntry env d) (c0, [])).2 ++
                  tail (config.root.entries.foldl (rootEntry env d) (c0, [])).1)]
            else v⟩ := by
  refine ⟨{ (if decide (env.findTemplateDir ≠ "") = true then
        { c with template_dir := c.template_dir.setDefault env.findTemplateDir } else c) with
      background_color :=
        (if decide (env.findTemplateDir ≠ "") = true then
          { c with template_dir := c.template_dir.setDefault env.findTemplateDir }
         else c).background_color.setDefault ⟨"#DDDDDD", 0xDD, 0xDD, 0xDD⟩ },
    fun cf => !cf.output_dir.isUnset,
    fun cf =>
      (if cf.output_dir.isUnset then
        [ValidationMessage.error "You have to specify an output directory ('output_dir')!"]
       else []) ++
      (if (!decide (env.findTemplateDir ≠ "")) = true then
        (if cf.template_dir.isUnset then
          [ValidationMessage.error "You have to specify a template directory ('template_dir')!"]
         else [])
       else []), ?_⟩
  intro config v
  unfold parseGeneral
  simp only [require_snd, require_fst]
  generalize List.foldl (rootEntry env d) _ config.root.entries = a
  have hmsgs : (if (!decide (env.findTemplateDir ≠ "")) = true then
        a.2 ++ (if a.1.output_dir.isUnset = true then
            [ValidationMessage.error "You have to specify an output directory ('output_dir')!"]
          else []) ++
          (if a.1.template_dir.isUnset = true then
            [ValidationMessage.error "You have to specify a template directory ('template_dir')!"]
          else [])
      else
        a.2 ++ (if a.1.output_dir.isUnset = true then
            [ValidationMessage.error "You have to specify an output directory ('output_dir')!"]
          else [])) =
      a.2 ++ ((if a.1.output_dir.isUnset = true then
          [ValidationMessage.error "You have to specify an output directory ('output_dir')!"]
         else []) ++
        (if (!decide (env.findTemplateDir ≠ "")) = true then
          (if a.1.template_dir.isUnset = true then
            [ValidationMessage.error "You have to specify a template directory ('template_dir')!"]
           else [])
         else [])) := by
    split <;> simp [List.append_assoc]
  rw [hmsgs]
  cases a.1.output_dir.isUnset <;> simp

/-! ## C11: unknown root keys -/

/-- C11: let a file load with the root entries `pre ++ (key, value) :: post`, where `key` is
none of `output_dir`, `template_dir`, `background_color`, and let another file of the same
directory load as the same file with the root entries `pre ++ post`. On the same
configuration object and report, `parse` returns the same value and leaves the same
configuration for both, and the reports differ only in the scope "Configuration file":
the first holds the one Warning "Unknown configuration option '<key>'!" at the place of the
key among the messages of that scope, the second does not (and has no such scope when no
other message is left). -/
theorem unknown_root_key_warns (env : Env) (K : Sections W M) (filename removed : String)
    (c : MapcrafterConfig W M) (validation : ValidationMap) (config : INIConfig)
    (pre post : List (String × String)) (key value : String)
    (hload : env.loadFile filename = Except.ok config)
    (hroot : config.root.entries = pre ++ (key, value) :: post)
    (hremoved : env.loadFile removed = Except.ok (withRootEntries config (pre ++ post)))
    (hdir : env.parentPath removed = env.parentPath filename)
    (hkey : key ≠ "output_dir" ∧ key ≠ "template_dir" ∧ key ≠ "background_color") :
    (parse env K filename c validation).ok = (parse env K removed c validation).ok ∧
    (parse env K filename c validation).cfg = (parse env K removed c validation).cfg ∧
    ∃ (A B : ValidationList) (R : ValidationMap),
      (parse env K filename c validation).validation =
        validation ++ [("Configuration file",
          A ++ [ValidationMessage.warning ("Unknown configuration option '" ++ key ++ "'!")]
            ++ B)] ++ R ∧
      (parse env K removed c validation).validation =
        validation ++ (if A ++ B = [] then [] else [("Configuration file", A ++ B)]) ++ R := by
  obtain ⟨c0, okf, tail, hshape⟩ := parseGeneral_shape env (env.parentPath filename) c
  obtain ⟨A, P, h1, h2⟩ := rootFold_unknown env (env.parentPath filename) pre post key value
    c0 hkey
  have hb := afterRoot_blind env K config (env.parentPath filename)
  rw [parse_afterRoot env K filename c validation config hload,
    parse_afterRoot env K removed c validation _ hremoved, hdir, afterRoot_withRootEntries,
    hshape config validation, hshape (withRootEntries config (pre ++ post)) validation]
  have hr : (withRootEntries config (pre ++ post)).root.entries = pre ++ post := rfl
  rw [hr, hroot, h1]
  simp only []
  rw [h2]
  generalize ((pre ++ post).foldl (rootEntry env (env.parentPath filename)) (c0, [])).1 = cf
  have hne : A ++ [ValidationMessage.warning ("Unknown configuration option '" ++ key ++ "'!")]
      ++ P ++ tail cf ≠ [] := by simp
  rw [if_pos hne, hb, hb (okf cf) cf (if A ++ P ++ tail cf ≠ [] then
    validation ++ [("Configuration file", A ++ P ++ tail cf)] else validation)]
  refine ⟨rfl, rfl, A, P ++ tail cf,
    (afterRoot env K config (env.parentPath filename) ⟨okf cf, cf, []⟩).validation, ?_, ?_⟩
  · simp [List.append_assoc]
  · by_cases he : A ++ P ++ tail cf = []
    · have he' : A ++ (P ++ tail cf) = [] := by rw [← List.append_assoc]; exact he
      simp [he, he']
    · have he' : ¬ A ++ (P ++ tail cf) = [] := by rw [← List.append_assoc]; exact he
      simp [he, he']

/-- C11 at a sample: the file has the root keys `output_dir`, `foo` and an invalid
`background_color`; without the key `foo` the result and the configuration are the same and
the report lacks only the Warning about `foo`. -/
theorem unknown_root_key_warns_witness :
    (Sample.envRemoved Sample.unknownKeyFile
        [("output_dir", "/out"), ("background_color", "red")]).loadFile "mapcrafter.conf" =
      Except.ok Sample.unknownKeyFile ∧
    Sample.unknownKeyFile.root.entries =
      [("output_dir", "/out")] ++ ("foo", "bar") :: [("background_color", "red")] ∧
    (parse (Sample.envRemoved Sample.unknownKeyFile
        [("output_dir", "/out"), ("background_color", "red")]) Sample.sections
        "mapcrafter.conf" Sample.fresh []).ok =
      (parse (Sample.envRemoved Sample.unknownKeyFile
        [("output_dir", "/out"), ("background_color", "red")]) Sample.sections
        "removed.conf" Sample.fresh []).ok ∧
    (parse (Sample.envRemoved Sample.unknownKeyFile
        [("output_dir", "/out"), ("background_color", "red")]) Sample.sections
        "mapcrafter.conf" Sample.fresh []).cfg =
      (parse (Sample.envRemoved Sample.unknownKeyFile
        [("output_dir", "/out"), ("background_color", "red")]) Sample.sections
        "removed.conf" Sample.fresh []).cfg ∧
    ∃ (A B : ValidationList) (R : ValidationMap),
      (parse (Sample.envRemoved Sample.unknownKeyFile
        [("output_dir", "/out"), ("background_color", "red")]) Sample.sections
        "mapcrafter.conf" Sample.fresh []).validation =
        [] ++ [("Configuration file",
          A ++ [ValidationMessage.warning ("Unknown configuration option '" ++ "foo" ++ "'!")]
            ++ B)] ++ R ∧
      (parse (Sample.envRemoved Sample.unknownKeyFile
        [("output_dir", "/out"), ("background_color", "red")]) Sample.sections
        "removed.conf" Sample.fresh []).validation =
        [] ++ (if A ++ B = [] then [] else [("Configuration file", A ++ B)]) ++ R :=
  ⟨rfl, rfl,
    unknown_root_key_warns (Sample.envRemoved Sample.unknownKeyFile
        [("output_dir", "/out"), ("background_color", "red")]) Sample.sections
      "mapcrafter.conf" "removed.conf" Sample.fresh [] Sample.unknownKeyFile
      [("output_dir", "/out")] [("background_color", "red")] "foo" "bar"
      rfl rfl rfl rfl (by decide)⟩

/-! ## C18: the maps sequence keeps the file order -/

theorem passedEarlier_snoc (worldOK : INIConfigSection → Bool) (pre : List INIConfigSection)
    (s : INIConfigSection) (name : String) :
    passedEarlier worldOK (pre ++ [s]) name =
      (passedEarlier worldOK pre name ||
        (decide (s.type = "map") && decide (s.name = name) && worldOK s)) := by
  simp [passedEarlier, List.any_append]

theorem storedMapSections_sublist (worldOK : INIConfigSection → Bool)
    (pre l : List INIConfigSection) :
    List.Sublist (storedMapSections worldOK pre l) (l.filter (fun s => decide (s.type = "map"))) := by
  induction l generalizing pre with
  | nil => exact List.Sublist.slnil
  | cons s rest ih =>
      unfold storedMapSections
      by_cases ht : s.type = "map"
      · rw [List.filter_cons_of_pos (by simpa using ht)]
        split
        · exact List.Sublist.cons₂ _ (ih _)
        · exact List.Sublist.cons _ (ih _)
      · rw [List.filter_cons_of_neg (by simpa using ht), if_neg (fun h => ht h.1)]
        exact ih _

theorem storedMapSections_cons (worldOK : INIConfigSection → Bool)
    (pre rest : List INIConfigSection) (s : INIConfigSection) :
    storedMapSections worldOK pre (s :: rest) =
      if s.type = "map" ∧ worldOK s = true ∧ passedEarlier worldOK pre s.name = false then
        s :: storedMapSections worldOK (pre ++ [s]) rest
      else storedMapSections worldOK (pre ++ [s]) rest := by
  rw [storedMapSections]

theorem hasMap_snoc (c : MapcrafterConfig W M) (m : MapSection) (name : String) :
    hasMap { c with maps := c.maps ++ [m] } name
      = (c.hasMap name || decide (m.getShortName = name)) := by
  simp [hasMap, List.any_append]

/-- One turn of the map loop, seen from the sections gone through so far: the names in use
stay the names of the earlier map sections that pass the world-existence check, and the
turn stores the object of its section exactly when the section is one to keep. -/
theorem mapStep_tracks (env : Env) (d : String) (st : PState W M)
    (pre : List INIConfigSection) (s : INIConfigSection)
    (hI : ∀ name, st.cfg.hasMap name =
      passedEarlier (mapWorldOK env d st.cfg.map_global st.cfg.worlds) pre name) :
    (∀ name, (mapStep env d st s).cfg.hasMap name =
      passedEarlier (mapWorldOK env d st.cfg.map_global st.cfg.worlds) (pre ++ [s]) name) ∧
    (mapStep env d st s).cfg.maps = st.cfg.maps ++
      (if s.type = "map" ∧ mapWorldOK env d st.cfg.map_global st.cfg.worlds s = true ∧
          passedEarlier (mapWorldOK env d st.cfg.map_global st.cfg.worlds) pre s.name = false
        then [(buildMap env d st.cfg.map_global s).2.1] else []) := by
  refine mapStep_cases env d st s (fun st' =>
    (∀ name, st'.cfg.hasMap name =
      passedEarlier (mapWorldOK env d st.cfg.map_global st.cfg.worlds) (pre ++ [s]) name) ∧
    st'.cfg.maps = st.cfg.maps ++
      (if s.type = "map" ∧ mapWorldOK env d st.cfg.map_global st.cfg.worlds s = true ∧
          passedEarlier (mapWorldOK env d st.cfg.map_global st.cfg.worlds) pre s.name = false
        then [(buildMap env d st.cfg.map_global s).2.1] else [])) ?_ ?_ ?_ ?_
  · intro ht
    refine ⟨fun name => ?_, ?_⟩
    · rw [passedEarlier_snoc, hI name]
      simp [ht]
    · rw [if_neg (fun h => ht h.1)]
      simp
  · intro ht hd
    refine ⟨fun name => ?_, ?_⟩
    · show st.cfg.hasMap name = _
      rw [passedEarlier_snoc, ← hI name]
      by_cases hn : s.name = name
      · subst hn
        simp [hd]
      · simp [hn]
    · show st.cfg.maps = _
      rw [if_neg (fun h => by rw [← hI s.name, hd] at h; exact Bool.noConfusion h.2.2)]
      simp
  · intro ht hd hw hn
    have hno : mapWorldOK env d st.cfg.map_global st.cfg.worlds s = false := by
      unfold hasWorld at hn
      simp [mapWorldOK, hw, hn]
    refine ⟨fun name => ?_, ?_⟩
    · show st.cfg.hasMap name = _
      rw [passedEarlier_snoc, ← hI name, hno]
      simp
    · show st.cfg.maps = _
      rw [if_neg (fun h => by rw [hno] at h; exact Bool.noConfusion h.2.1)]
      simp
  · intro ht hd hw
    have hyes : mapWorldOK env d st.cfg.map_global st.cfg.worlds s = true := by
      unfold hasWorld at hw
      rcases hw with hw | hw
      · simp [mapWorldOK, hw]
      · simp [mapWorldOK, hw]
    refine ⟨fun name => ?_, ?_⟩
    · show hasMap { st.cfg with
        maps := st.cfg.maps ++ [(buildMap env d st.cfg.map_global s).2.1] } name = _
      rw [hasMap_snoc, buildMap_getShortName, passedEarlier_snoc, ← hI name, hyes]
      simp [ht]
    · show st.cfg.maps ++ [(buildMap env d st.cfg.map_global s).2.1] = _
      rw [if_pos ⟨ht, hyes, by rw [← hI s.name]; exact hd⟩]

/-- The map loop over the sections `l`, started after the sections `pre`: the names in use
stay those of the map sections gone through that pass the world-existence check, and the
loop stores, in order, the objects of the sections to keep. -/
theorem mapFold_tracks (env : Env) (d : String) (l pre : List INIConfigSection)
    (st : PState W M)
    (hI : ∀ name, st.cfg.hasMap name =
      passedEarlier (mapWorldOK env d st.cfg.map_global st.cfg.worlds) pre name) :
    (∀ name, (l.foldl (mapStep env d) st).cfg.hasMap name =
      passedEarlier (mapWorldOK env d st.cfg.map_global st.cfg.worlds) (pre ++ l) name) ∧
    (l.foldl (mapStep env d) st).cfg.maps = st.cfg.maps ++
      (storedMapSections (mapWorldOK env d st.cfg.map_global st.cfg.worlds) pre l).map
        (fun s => (buildMap env d st.cfg.map_global s).2.1) := by
  induction l generalizing st pre with
  | nil => exact ⟨by simpa using hI, by simp [storedMapSections]⟩
  | cons s rest ih =>
      have hstep := mapStep_tracks env d st pre s hI
      have hG : (mapStep env d st s).cfg.map_global = st.cfg.map_global :=
        (mapStep_after env d st s).map_global
      have hW : (mapStep env d st s).cfg.worlds = st.cfg.worlds := (mapStep_worlds env d st s).1
      have h := ih (pre ++ [s]) (mapStep env d st s) (by rw [hG, hW]; exact hstep.1)
      rw [hG, hW] at h
      rw [List.foldl_cons]
      refine ⟨fun name => ?_, ?_⟩
      · rw [h.1 name]
        simp
      · rw [h.2, hstep.2, storedMapSections_cons]
        split <;> simp

/-- In the map loop over `pre ++ it :: post`, started with no map stored, a map section `it`
that comes after a map section of its name that passes the world-existence check is
rejected: the Error "Map name ... already used!" follows its own messages in its scope, and
`ok` is cleared. -/
theorem mapPass_later (env : Env) (d : String) (pre post : List INIConfigSection)
    (it : INIConfigSection) (st : PState W M) (ht : it.type = "map")
    (hmaps : st.cfg.maps = [])
    (hpre : passedEarlier (mapWorldOK env d st.cfg.map_global st.cfg.worlds) pre it.name
      = true) :
    ("Map section '" ++ it.name ++ "'",
      (buildMap env d st.cfg.map_global it).2.2 ++
        [ValidationMessage.error ("Map name '" ++ it.name ++ "' already used!")])
      ∈ (mapPass env d (pre ++ it :: post) st).validation ∧
    (mapPass env d (pre ++ it :: post) st).ok = false := by
  have hI0 : ∀ name, st.cfg.hasMap name =
      passedEarlier (mapWorldOK env d st.cfg.map_global st.cfg.worlds) [] name := by
    intro name
    simp [hasMap, hmaps, passedEarlier]
  have h1 : (pre.foldl (mapStep env d) st).cfg.hasMap it.name = true := by
    rw [(mapFold_tracks env d pre [] st hI0).1 it.name]
    simpa using hpre
  have hg : (pre.foldl (mapStep env d) st).cfg.map_global = st.cfg.map_global :=
    (after_foldl (mapStep env d) (mapStep_after env d) pre st).map_global
  have hstep := mapStep_dup env d (pre.foldl (mapStep env d) st) it ht h1
  have hpost := after_foldl (mapStep env d) (mapStep_after env d) post
    (mapStep env d (pre.foldl (mapStep env d) st) it)
  refine ⟨?_, ?_⟩
  · unfold mapPass
    rw [List.foldl_append, List.foldl_cons]
    obtain ⟨ext, hext⟩ := hpost.report
    rw [hext, hstep, hg]
    simp
  · unfold mapPass
    rw [List.foldl_append, List.foldl_cons]
    exact hpost.ok (by rw [hstep])

/-- C18 as stated ("after parse on a fresh configuration") fails: when a global section
records an Error, `parse` returns before the map pass; with a world `w1` and two map
sections named `m` of that world in the file, the final maps sequence is empty and the
later section gets no "already used" Error. -/
theorem duplicate_maps_unseen_after_global_error :
    (Sample.run Sample.globalErrorMapsFile).cfg.maps = [] ∧
    (Sample.run Sample.globalErrorMapsFile).validation =
      [("Global map configuration",
        [ValidationMessage.error "'texture_size' must a number between 1 and 32!"])] ∧
    (Sample.run Sample.globalErrorMapsFile).ok = false := by
  decide

/-- C18 (amended): for every input that loads and whose parse gets past the global sections
(none of the three `return false` of lines 116, 126, 135 is taken), on a fresh
configuration: the final maps sequence is, in file order, the objects built for the map
sections that pass the world-existence check against the final worlds and have no earlier
map section of their name passing it; these sections are a subsequence of the map sections
of the file; and every map section that comes after a map section of its name passing the
world-existence check has the Error "Map name '<name>' already used!" after its own
messages in the scope "Map section '<name>'", and `parse` returns `false`. -/
theorem maps_keep_file_order (env : Env) (K : Sections W M) (filename : String)
    (w0 : W) (k0 : M) (config : INIConfig)
    (hload : env.loadFile filename = Except.ok config)
    (hreach : (parseGlobals env K config (env.parentPath filename)
      (parseGeneral env config (env.parentPath filename) (new w0 k0) [])).1 = false) :
    (parse env K filename (new w0 k0) []).cfg.maps =
      (storedMapSections (mapWorldOK env (env.parentPath filename)
          (parse env K filename (new w0 k0) []).cfg.map_global
          (parse env K filename (new w0 k0) []).cfg.worlds) [] config.sections).map
        (fun s => (buildMap env (env.parentPath filename)
          (parse env K filename (new w0 k0) []).cfg.map_global s).2.1) ∧
    List.Sublist
      (storedMapSections (mapWorldOK env (env.parentPath filename)
          (parse env K filename (new w0 k0) []).cfg.map_global
          (parse env K filename (new w0 k0) []).cfg.worlds) [] config.sections)
      (config.sections.filter (fun s => decide (s.type = "map"))) ∧
    ∀ (pre post : List INIConfigSection) (it : INIConfigSection),
      config.sections = pre ++ it :: post → it.type = "map" →
      passedEarlier (mapWorldOK env (env.parentPath filename)
          (parse env K filename (new w0 k0) []).cfg.map_global
          (parse env K filename (new w0 k0) []).cfg.worlds) pre it.name = true →
      ("Map section '" ++ it.name ++ "'",
        (buildMap env (env.parentPath filename)
            (parse env K filename (new w0 k0) []).cfg.map_global it).2.2 ++
          [ValidationMessage.error ("Map name '" ++ it.name ++ "' already used!")])
        ∈ (parse env K filename (new w0 k0) []).validation ∧
      (parse env K filename (new w0 k0) []).ok = false := by
  have hcol := entry_collections env K config (env.parentPath filename) (new w0 k0) []
  rw [parse_loaded env K filename (new w0 k0) [] config hload, hreach]
  simp only [Bool.false_eq_true, if_false]
  generalize (parseGlobals env K config (env.parentPath filename)
    (parseGeneral env config (env.parentPath filename) (new w0 k0) [])).2 = E at hcol
  have hEm : E.cfg.maps = [] := hcol.2.1
  generalize hS : worldPass K (env.parentPath filename) config.sections
    (unknownScan config.sections E) = S
  have hSm : S.cfg.maps = [] := by
    rw [← hS, (worldPass_maps K _ _ _).1]
    exact hEm
  have hfin : parseNamed env K (env.parentPath filename) config.sections E =
      markerPass K config.sections (mapPass env (env.parentPath filename) config.sections S) := by
    rw [← hS]; rfl
  have hmk := markerPass_after K config.sections
    (mapPass env (env.parentPath filename) config.sections S)
  have hmp := mapPass_after env (env.parentPath filename) config.sections S
  have hG : (parseNamed env K (env.parentPath filename) config.sections E).cfg.map_global
      = S.cfg.map_global := by
    rw [hfin, hmk.map_global, hmp.map_global]
  have hW : (parseNamed env K (env.parentPath filename) config.sections E).cfg.worlds
      = S.cfg.worlds := by
    rw [hfin, (markerPass_worlds K _ _).1, (mapPass_worlds env _ _ _).1]
  have hM : (parseNamed env K (env.parentPath filename) config.sections E).cfg.maps
      = (mapPass env (env.parentPath filename) config.sections S).cfg.maps := by
    rw [hfin, (markerPass_worlds K _ _).2]
  rw [hG, hW]
  refine ⟨?_, storedMapSections_sublist _ _ _, ?_⟩
  · have hI0 : ∀ name, S.cfg.hasMap name =
        passedEarlier (mapWorldOK env (env.parentPath filename) S.cfg.map_global S.cfg.worlds)
          [] name := by
      intro name
      simp [hasMap, hSm, passedEarlier]
    rw [hM]
    have h := (mapFold_tracks env (env.parentPath filename) config.sections [] S hI0).2
    rw [hSm] at h
    simpa [mapPass] using h
  · intro pre post it hsplit ht hpre
    have h := mapPass_later env (env.parentPath filename) pre post it S ht hSm hpre
    rw [← hsplit] at h
    rw [hfin]
    obtain ⟨ext, hext⟩ := hmk.report
    refine ⟨?_, hmk.ok h.2⟩
    rw [hext]
    exact List.mem_append_left _ h.1

/-- The amended C18 at a file with the sections map `k`, world `w1`, and three maps named
`m`, of which the first names a missing world: the stored maps are those of `k` and of the
second `m`, in this order, and the third `m` is reported as already used. -/
theorem maps_keep_file_order_witness :
    (Sample.env Sample.sameNameMapsFile).loadFile "mapcrafter.conf"
      = Except.ok Sample.sameNameMapsFile ∧
    (parseGlobals (Sample.env Sample.sameNameMapsFile) Sample.sections Sample.sameNameMapsFile
      "/etc/mapcrafter"
      (parseGeneral (Sample.env Sample.sameNameMapsFile) Sample.sameNameMapsFile
        "/etc/mapcrafter" Sample.fresh [])).1 = false ∧
    storedMapSections (mapWorldOK (Sample.env Sample.sameNameMapsFile) "/etc/mapcrafter"
        (Sample.run Sample.sameNameMapsFile).cfg.map_global
        (Sample.run Sample.sameNameMapsFile).cfg.worlds) [] Sample.sameNameMapsFile.sections
      = [Sample.mapEarly, Sample.mapFirst] ∧
    (Sample.run Sample.sameNameMapsFile).cfg.maps =
      (storedMapSections (mapWorldOK (Sample.env Sample.sameNameMapsFile) "/etc/mapcrafter"
          (Sample.run Sample.sameNameMapsFile).cfg.map_global
          (Sample.run Sample.sameNameMapsFile).cfg.worlds) []
          Sample.sameNameMapsFile.sections).map
        (fun s => (buildMap (Sample.env Sample.sameNameMapsFile) "/etc/mapcrafter"
          (Sample.run Sample.sameNameMapsFile).cfg.map_global s).2.1) ∧
    Sample.sameNameMapsFile.sections =
      [Sample.mapEarly, Sample.worldAB, Sample.mapDangling, Sample.mapFirst]
        ++ Sample.mapSecond :: [] ∧
    Sample.mapSecond.type = "map" ∧
    passedEarlier (mapWorldOK (Sample.env Sample.sameNameMapsFile) "/etc/mapcrafter"
        (Sample.run Sample.sameNameMapsFile).cfg.map_global
        (Sample.run Sample.sameNameMapsFile).cfg.worlds)
      [Sample.mapEarly, Sample.worldAB, Sample.mapDangling, Sample.mapFirst]
      Sample.mapSecond.name = true ∧
    ("Map section '" ++ Sample.mapSecond.name ++ "'",
      (buildMap (Sample.env Sample.sameNameMapsFile) "/etc/mapcrafter"
          (Sample.run Sample.sameNameMapsFile).cfg.map_global Sample.mapSecond).2.2 ++
        [ValidationMessage.error ("Map name '" ++ Sample.mapSecond.name ++ "' already used!")])
      ∈ (Sample.run Sample.sameNameMapsFile).validation ∧
    (Sample.run Sample.sameNameMapsFile).ok = false :=
  ⟨rfl, by decide, by decide,
    (maps_keep_file_order (Sample.env Sample.sameNameMapsFile) Sample.sections
      "mapcrafter.conf" (Sample.sec0 true) (Sample.sec0 false) Sample.sameNameMapsFile
      rfl (by decide)).1,
    rfl, rfl, by decide,
    (maps_keep_file_order (Sample.env Sample.sameNameMapsFile) Sample.sections
      "mapcrafter.conf" (Sample.sec0 true) (Sample.sec0 false) Sample.sameNameMapsFile
      rfl (by decide)).2.2
      [Sample.mapEarly, Sample.worldAB, Sample.mapDangling, Sample.mapFirst] []
      Sample.mapSecond rfl rfl (by decide)⟩

/-! ## The statements above at samples -/

/-- C14 at scenario B of the spec: what `parse` appends to a report that holds one scope
already is a list of scopes with non-empty message lists. -/
theorem no_empty_scope_recorded_witness :
    ∃ ext : ValidationMap,
      (parse (Sample.env Sample.scenarioB) Sample.sections "mapcrafter.conf" Sample.fresh
        [("Earlier", [ValidationMessage.warning "kept"])]).validation =
        [("Earlier", [ValidationMessage.warning "kept"])] ++ ext ∧
      ∀ e ∈ ext, e.2 ≠ [] :=
  no_empty_scope_recorded (Sample.env Sample.scenarioB) Sample.sections "mapcrafter.conf"
    Sample.fresh [("Earlier", [ValidationMessage.warning "kept"])]

/-- C15 at the value `64`: `texture_size` gets its Error, `jpeg_quality` gets none. -/
theorem range_checks_witness :
    (Sample.env Sample.scenarioA).asInt "64" = Except.ok 64 ∧
    (MapSection.parseField (Sample.env Sample.scenarioA) (MapSection.new false)
      "texture_size" "64" []).1 = true ∧
    (MapSection.parseField (Sample.env Sample.scenarioA) (MapSection.new false)
      "texture_size" "64" []).2.2 =
      (if (64 : Int) < 1 ∨ (64 : Int) > 32 then
        [] ++ [ValidationMessage.error "'texture_size' must a number between 1 and 32!"]
       else []) ∧
    (MapSection.parseField (Sample.env Sample.scenarioA) (MapSection.new false)
      "jpeg_quality" "64" []).1 = true ∧
    (MapSection.parseField (Sample.env Sample.scenarioA) (MapSection.new false)
      "jpeg_quality" "64" []).2.2 =
      (if (64 : Int) < 0 ∨ (64 : Int) > 100 then
        [] ++ [ValidationMessage.error "'jpeg_quality' must be a number between 0 and 100!"]
       else []) :=
  ⟨by decide,
    range_checks (Sample.env Sample.scenarioA) (MapSection.new false) "64" [] 64 (by decide)⟩

/-- C16 at a map whose rotations string holds the tokens `top-right`, `sideways`,
`top-left`, `top-right`, `up` and which carries the set `{3}` from elsewhere: two Errors,
in token order, and the set `{0, 1}`. -/
theorem rotations_parsed_witness :
    invalidRotationErrors (Sample.env Sample.scenarioA)
        (Sample.mapRotations.rotations.getValue "") =
      [ValidationMessage.error "Invalid rotation 'sideways'!",
       ValidationMessage.error "Invalid rotation 'up'!"] ∧
    (MapSection.postParse (Sample.env Sample.scenarioA) Sample.mapRotations
      Sample.mapPlain []).1.getRotations = [0, 1] ∧
    (∃ req : ValidationList,
      (MapSection.postParse (Sample.env Sample.scenarioA) Sample.mapRotations
          Sample.mapPlain []).2 =
        [] ++ invalidRotationErrors (Sample.env Sample.scenarioA)
          (Sample.mapRotations.rotations.getValue "") ++ req ∧
      ∀ m ∈ req, m = ValidationMessage.error "You have to specify a world ('world')!" ∨
        m = ValidationMessage.error "You have to specify a texture directory ('texture_dir')!") ∧
    (∀ r, r ∈ (MapSection.postParse (Sample.env Sample.scenarioA) Sample.mapRotations
        Sample.mapPlain []).1.getRotations ↔
      ∃ t ∈ tokens (Sample.mapRotations.rotations.getValue ""),
        (Sample.env Sample.scenarioA).stringToRotation t = r ∧ r ≠ -1) :=
  ⟨by decide, by decide,
    (rotations_parsed (Sample.env Sample.scenarioA) Sample.mapRotations Sample.mapPlain []).1,
    (rotations_parsed (Sample.env Sample.scenarioA) Sample.mapRotations
      Sample.mapPlain []).2.2.1⟩

/-- C17 at two map objects with no field set: the global one gets no message, the
non-global one gets both required-field Errors, the one for `world` first. -/
theorem required_fields_checked_witness :
    (MapSection.new true).global = true ∧
    (MapSection.postParse (Sample.env Sample.scenarioA) (MapSection.new true)
        Sample.mapPlain []).2 =
      [] ++ invalidRotationErrors (Sample.env Sample.scenarioA)
        ((MapSection.new true).rotations.getValue "") ∧
    (MapSection.postParse (Sample.env Sample.scenarioA) (MapSection.new true)
        Sample.mapPlain []).2 = [] ∧
    (MapSection.new false).global = false ∧
    (MapSection.postParse (Sample.env Sample.scenarioA) (MapSection.new false)
        Sample.mapPlain []).2 =
      [] ++ invalidRotationErrors (Sample.env Sample.scenarioA)
          ((MapSection.new false).rotations.getValue "") ++
        ((if (MapSection.new false).world.isUnset then
          [ValidationMessage.error "You have to specify a world ('world')!"] else []) ++
        (if (MapSection.new false).texture_dir.isUnset then
          [ValidationMessage.error
            "You have to specify a texture directory ('texture_dir')!"] else [])) ∧
    (MapSection.postParse (Sample.env Sample.scenarioA) (MapSection.new false)
        Sample.mapPlain []).2 =
      [ValidationMessage.error "You have to specify a world ('world')!",
       ValidationMessage.error "You have to specify a texture directory ('texture_dir')!"] :=
  ⟨rfl,
    (required_fields_checked (Sample.env Sample.scenarioA) (MapSection.new true)
      Sample.mapPlain []).1 rfl,
    by decide, rfl,
    (required_fields_checked (Sample.env Sample.scenarioA) (MapSection.new false)
      Sample.mapPlain []).2.1 rfl,
    by decide⟩

/-- C20 at the string `#1a2B3c`, which is accepted: the Color has the string as `hex` and
the values 0x1a, 0x2b, 0x3c of its three character pairs. -/
theorem color_decoded_witness :
    asColor "#1a2B3c" = Except.ok ⟨"#1a2B3c", 0x1a, 0x2b, 0x3c⟩ ∧
    base16Pair '1' 'a' = 0x1a ∧ base16Pair '2' 'B' = 0x2b ∧ base16Pair '3' 'c' = 0x3c ∧
    ((⟨"#1a2B3c", 0x1a, 0x2b, 0x3c⟩ : Color).hex = "#1a2B3c" ∧ "#1a2B3c".data.length = 7 ∧
      ∃ c1 c2 c3 c4 c5 c6 : Char,
        "#1a2B3c".data.get? 1 = some c1 ∧ "#1a2B3c".data.get? 2 = some c2 ∧
        "#1a2B3c".data.get? 3 = some c3 ∧ "#1a2B3c".data.get? 4 = some c4 ∧
        "#1a2B3c".data.get? 5 = some c5 ∧ "#1a2B3c".data.get? 6 = some c6 ∧
        (⟨"#1a2B3c", 0x1a, 0x2b, 0x3c⟩ : Color).red = base16Pair c1 c2 ∧
        (⟨"#1a2B3c", 0x1a, 0x2b, 0x3c⟩ : Color).green = base16Pair c3 c4 ∧
        (⟨"#1a2B3c", 0x1a, 0x2b, 0x3c⟩ : Color).blue = base16Pair c5 c6 ∧
        0 ≤ (⟨"#1a2B3c", 0x1a, 0x2b, 0x3c⟩ : Color).red ∧
        (⟨"#1a2B3c", 0x1a, 0x2b, 0x3c⟩ : Color).red ≤ 255 ∧
        0 ≤ (⟨"#1a2B3c", 0x1a, 0x2b, 0x3c⟩ : Color).green ∧
        (⟨"#1a2B3c", 0x1a, 0x2b, 0x3c⟩ : Color).green ≤ 255 ∧
        0 ≤ (⟨"#1a2B3c", 0x1a, 0x2b, 0x3c⟩ : Color).blue ∧
        (⟨"#1a2B3c", 0x1a, 0x2b, 0x3c⟩ : Color).blue ≤ 255) ∧
    (parseGeneral (Sample.env Sample.scenarioA) Sample.scenarioA "/etc/mapcrafter"
        Sample.fresh []).cfg.background_color.defaultValue
      = some ⟨"#DDDDDD", 0xDD, 0xDD, 0xDD⟩ :=
  ⟨by decide, by decide, by decide, by decide,
    (color_decoded (W := Sample.Sec) (M := Sample.Sec)).1 "#1a2B3c"
      ⟨"#1a2B3c", 0x1a, 0x2b, 0x3c⟩ (by decide),
    (color_decoded (W := Sample.Sec) (M := Sample.Sec)).2.2 (Sample.env Sample.scenarioA)
      Sample.scenarioA "/etc/mapcrafter" Sample.fresh []⟩

/-- The amended C13 at a file with a world, a section `foo:bar` and a map: the parse of the
file without `foo:bar` gives the same result and configuration, and the report of the file
is that of the other with the one scope of `foo:bar` inserted. -/
theorem unknown_sections_do_not_interfere_witness :
    (Sample.envStripped Sample.unknownSectionFile).loadFile "mapcrafter.conf"
      = Except.ok Sample.unknownSectionFile ∧
    (Sample.envStripped Sample.unknownSectionFile).loadFile "stripped.conf"
      = Except.ok (withoutUnknown Sample.unknownSectionFile) ∧
    (Sample.unknownSectionFile.sections.filter isUnknownSection).map unknownScope =
      [("Section 'bar' with type 'foo'", [ValidationMessage.warning "Unknown section type!"])] ∧
    (parse (Sample.envStripped Sample.unknownSectionFile) Sample.sections "stripped.conf"
        Sample.fresh []).ok =
      (parse (Sample.envStripped Sample.unknownSectionFile) Sample.sections "mapcrafter.conf"
        Sample.fresh []).ok ∧
    (parse (Sample.envStripped Sample.unknownSectionFile) Sample.sections "stripped.conf"
        Sample.fresh []).cfg =
      (parse (Sample.envStripped Sample.unknownSectionFile) Sample.sections "mapcrafter.conf"
        Sample.fresh []).cfg ∧
    ∃ A R : ValidationMap,
      (parse (Sample.envStripped Sample.unknownSectionFile) Sample.sections "stripped.conf"
        Sample.fresh []).validation = A ++ R ∧
      (parse (Sample.envStripped Sample.unknownSectionFile) Sample.sections "mapcrafter.conf"
        Sample.fresh []).validation =
        A ++ (if (parseGlobals (Sample.envStripped Sample.unknownSectionFile) Sample.sections
                Sample.unknownSectionFile
                ((Sample.envStripped Sample.unknownSectionFile).parentPath "mapcrafter.conf")
                (parseGeneral (Sample.envStripped Sample.unknownSectionFile)
                  Sample.unknownSectionFile
                  ((Sample.envStripped Sample.unknownSectionFile).parentPath "mapcrafter.conf")
                  Sample.fresh [])).1 = false
              then (Sample.unknownSectionFile.sections.filter isUnknownSection).map unknownScope
              else []) ++ R ∧
      ∀ e ∈ A ++ R, ∀ name type : String,
        e.1 ≠ "Section '" ++ name ++ "' with type '" ++ type ++ "'" :=
  ⟨rfl, rfl, by decide,
    unknown_sections_do_not_interfere (Sample.envStripped Sample.unknownSectionFile)
      Sample.sections "mapcrafter.conf" "stripped.conf" Sample.fresh Sample.unknownSectionFile
      rfl rfl rfl⟩

/-! ## Every stored section was stored by a turn that passed the cross-section checks -/

theorem scope_eq_ownScope (v : ValidationMap) (label : String) (msgs : ValidationList) :
    (if msgs ≠ [] then v ++ [(label, msgs)] else v) = v ++ ownScope label msgs := by
  unfold ownScope
  split <;> simp

theorem storedMap_later {env : Env} {d : String} {P : List INIConfigSection}
    {S0 S fin : PState W M} {m : MapSection} (x : INIConfigSection)
    (h : StoredMap env d P S0 S m) (ha : After S fin) :
    StoredMap env d (P ++ [x]) S0 fin m := by
  obtain ⟨pre, it, post, hsplit, ht, hm, hd, hw, hst, hv, ⟨rest, hrest⟩, hok⟩ := h
  obtain ⟨ext, hext⟩ := ha.report
  refine ⟨pre, it, post ++ [x], by rw [hsplit]; simp, ht, hm, hd, hw, hst, hv,
    ⟨rest ++ ext, ?_⟩, fun he => ha.ok (hok he)⟩
  rw [hext, hrest]
  simp

theorem storedMap_final {env : Env} {d : String} {L : List INIConfigSection}
    {S0 S fin : PState W M} {m : MapSection}
    (h : StoredMap env d L S0 S m) (ha : After S fin) : StoredMap env d L S0 fin m := by
  obtain ⟨pre, it, post, hsplit, ht, hm, hd, hw, hst, hv, ⟨rest, hrest⟩, hok⟩ := h
  obtain ⟨ext, hext⟩ := ha.report
  refine ⟨pre, it, post, hsplit, ht, hm, hd, hw, hst, hv,
    ⟨rest ++ ext, ?_⟩, fun he => ha.ok (hok he)⟩
  rw [hext, hrest]
  simp

/-- Every map that the map loop over `L`, started with no map stored, has stored was stored
by a turn that passed both cross-section checks. -/
theorem mapFold_stored (env : Env) (d : String) (L : List INIConfigSection)
    (S0 : PState W M) (hm0 : S0.cfg.maps = []) :
    ∀ m ∈ (L.foldl (mapStep env d) S0).cfg.maps,
      StoredMap env d L S0 (L.foldl (mapStep env d) S0) m := by
  induction L using List.reverseRecOn with
  | nil =>
      intro m hm
      rw [List.foldl_nil, hm0] at hm
      exact absurd hm (List.not_mem_nil m)
  | append_singleton P x ih =>
      rw [List.foldl_append, List.foldl_cons, List.foldl_nil]
      have hG : (P.foldl (mapStep env d) S0).cfg.map_global = S0.cfg.map_global :=
        (after_foldl (mapStep env d) (mapStep_after env d) P S0).map_global
      have ha := mapStep_after env d (P.foldl (mapStep env d) S0) x
      refine mapStep_cases env d (P.foldl (mapStep env d) S0) x
        (fun r => mapStep env d (P.foldl (mapStep env d) S0) x = r →
          After (P.foldl (mapStep env d) S0) r →
          ∀ m ∈ r.cfg.maps, StoredMap env d (P ++ [x]) S0 r m) ?_ ?_ ?_ ?_ rfl ha
      · intro _ _ har m hm
        exact storedMap_later x (ih m hm) har
      · intro _ _ _ har m hm
        exact storedMap_later x (ih m hm) har
      · intro _ _ _ _ _ har m hm
        exact storedMap_later x (ih m hm) har
      · intro ht hd hw hr har m hm
        rcases List.mem_append.mp hm with h1 | h1
        · exact storedMap_later x (ih m h1) har
        · have hmm : m = (buildMap env d (P.foldl (mapStep env d) S0).cfg.map_global x).2.1 := by
              simpa using h1
          rw [hG] at hmm
          rw [hG] at hw
          refine ⟨P, x, [], rfl, ht, hmm, hd, ?_, ?_, ?_, ⟨[], ?_⟩, ?_⟩
          · rw [hmm]; exact hw
          · rw [hr, hmm, hG]
          · rw [hr, ← hG]
            exact scope_eq_ownScope _ _ _
          · show (if _ then _ else _) = _
            rw [scope_eq_ownScope, hG]
            simp
          · intro herr
            rw [← hG] at herr
            exact and_ok_false_of_hasError herr

theorem storedWorld_later {K : Sections W M} {d : String} {P : List INIConfigSection}
    {S0 S fin : PState W M} {e : String × W} (x : INIConfigSection)
    (h : StoredWorld K d P S0 S e) (ha : After S fin) :
    StoredWorld K d (P ++ [x]) S0 fin e := by
  obtain ⟨pre, it, post, hsplit, ht, hm, hd, hst, hv, ⟨rest, hrest⟩, hok⟩ := h
  obtain ⟨ext, hext⟩ := ha.report
  refine ⟨pre, it, post ++ [x], by rw [hsplit]; simp, ht, hm, hd, hst, hv,
    ⟨rest ++ ext, ?_⟩, fun he => ha.ok (hok he)⟩
  rw [hext, hrest]
  simp

theorem storedWorld_final {K : Sections W M} {d : String} {L : List INIConfigSection}
    {S0 S fin : PState W M} {e : String × W}
    (h : StoredWorld K d L S0 S e) (ha : After S fin) : StoredWorld K d L S0 fin e := by
  obtain ⟨pre, it, post, hsplit, ht, hm, hd, hst, hv, ⟨rest, hrest⟩, hok⟩ := h
  obtain ⟨ext, hext⟩ := ha.report
  refine ⟨pre, it, post, hsplit, ht, hm, hd, hst, hv,
    ⟨rest ++ ext, ?_⟩, fun he => ha.ok (hok he)⟩
  rw [hext, hrest]
  simp

/-- Every entry that the world loop over `L`, started with no world stored, has stored was
stored by a turn that passed the cross-section check. -/
theorem worldFold_stored (K : Sections W M) (d : String) (L : List INIConfigSection)
    (S0 : PState W M) (hw0 : S0.cfg.worlds = []) :
    ∀ e ∈ (L.foldl (worldStep K d) S0).cfg.worlds,
      StoredWorld K d L S0 (L.foldl (worldStep K d) S0) e := by
  induction L using List.reverseRecOn with
  | nil =>
      intro e he
      rw [List.foldl_nil, hw0] at he
      exact absurd he (List.not_mem_nil e)
  | append_singleton P x ih =>
      rw [List.foldl_append, List.foldl_cons, List.foldl_nil]
      have hG : (P.foldl (worldStep K d) S0).cfg.world_global = S0.cfg.world_global :=
        (after_foldl (worldStep K d) (worldStep_after K d) P S0).world_global
      have ha := worldStep_after K d (P.foldl (worldStep K d) S0) x
      refine worldStep_cases K d (P.foldl (worldStep K d) S0) x
        (fun r => worldStep K d (P.foldl (worldStep K d) S0) x = r →
          After (P.foldl (worldStep K d) S0) r →
          ∀ e ∈ r.cfg.worlds, StoredWorld K d (P ++ [x]) S0 r e) ?_ ?_ ?_ rfl ha
      · intro _ _ har e he
        exact storedWorld_later x (ih e he) har
      · intro _ _ _ har e he
        exact storedWorld_later x (ih e he) har
      · intro ht hd hr har e he
        have hset := mapSet_of_absent (P.foldl (worldStep K d) S0).cfg.worlds x.name
          (buildWorld K d (P.foldl (worldStep K d) S0).cfg.world_global x).2.1 hd
        have he' : e ∈ (P.foldl (worldStep K d) S0).cfg.worlds ++
            [(x.name, (buildWorld K d (P.foldl (worldStep K d) S0).cfg.world_global x).2.1)] := by
          rw [← hset]; exact he
        rcases List.mem_append.mp he' with h1 | h1
        · exact storedWorld_later x (ih e h1) har
        · have hee : e = (x.name,
              (buildWorld K d (P.foldl (worldStep K d) S0).cfg.world_global x).2.1) := by
            simpa using h1
          rw [hG] at hee
          refine ⟨P, x, [], rfl, ht, hee, hd, ?_, ?_, ⟨[], ?_⟩, ?_⟩
          · rw [hr, hee, ← hG]
            exact hset
          · rw [hr, ← hG]
            exact scope_eq_ownScope _ _ _
          · show (if _ then _ else _) = _
            rw [scope_eq_ownScope, hG]
            simp
          · intro herr
            rw [← hG] at herr
            exact and_ok_false_of_hasError herr

theorem storedMarker_later {K : Sections W M} {P : List INIConfigSection}
    {S0 S fin : PState W M} {m : M} (x : INIConfigSection)
    (h : StoredMarker K P S0 S m) (ha : After S fin) :
    StoredMarker K (P ++ [x]) S0 fin m := by
  obtain ⟨pre, it, post, hsplit, ht, hm, hd, hst, hv, ⟨rest, hrest⟩, hok⟩ := h
  obtain ⟨ext, hext⟩ := ha.report
  refine ⟨pre, it, post ++ [x], by rw [hsplit]; simp, ht, hm, hd, hst, hv,
    ⟨rest ++ ext, ?_⟩, fun he => ha.ok (hok he)⟩
  rw [hext, hrest]
  simp

/-- Every marker that the marker loop over `L`, started with no marker stored, has stored
was stored by a turn that passed the cross-section check. -/
theorem markerFold_stored (K : Sections W M) (L : List INIConfigSection)
    (S0 : PState W M) (hk0 : S0.cfg.markers = []) :
    ∀ m ∈ (L.foldl (markerStep K) S0).cfg.markers,
      StoredMarker K L S0 (L.foldl (markerStep K) S0) m := by
  induction L using List.reverseRecOn with
  | nil =>
      intro m hm
      rw [List.foldl_nil, hk0] at hm
      exact absurd hm (List.not_mem_nil m)
  | append_singleton P x ih =>
      rw [List.foldl_append, List.foldl_cons, List.foldl_nil]
      have hG : (P.foldl (markerStep K) S0).cfg.marker_global = S0.cfg.marker_global :=
        (after_foldl (markerStep K) (markerStep_after K) P S0).marker_global
      have ha := markerStep_after K (P.foldl (markerStep K) S0) x
      refine markerStep_cases K (P.foldl (markerStep K) S0) x
        (fun r => markerStep K (P.foldl (markerStep K) S0) x = r →
          After (P.foldl (markerStep K) S0) r →
          ∀ m ∈ r.cfg.markers, StoredMarker K (P ++ [x]) S0 r m) ?_ ?_ ?_ rfl ha
      · intro _ _ har m hm
        exact storedMarker_later x (ih m hm) har
      · intro _ _ _ har m hm
        exact storedMarker_later x (ih m hm) har
      · intro ht hd hr har m hm
        rcases List.mem_append.mp hm with h1 | h1
        · exact storedMarker_later x (ih m h1) har
        · have hmm : m = (buildMarker K (P.foldl (markerStep K) S0).cfg.marker_global x).2.1 := by
            simpa using h1
          rw [hG] at hmm
          refine ⟨P, x, [], rfl, ht, hmm, hd, ?_, ?_, ⟨[], ?_⟩, ?_⟩
          · rw [hr, hmm, hG]
          · rw [hr, ← hG]
            exact scope_eq_ownScope _ _ _
          · show (if _ then _ else _) = _
            rw [scope_eq_ownScope, hG]
            simp
          · intro herr
            rw [← hG] at herr
            exact and_ok_false_of_hasError herr

/-! ## C2 (amended): what is stored passed the cross-section checks -/

/-- C2 (amended): after `parse` on a fresh configuration, for a file that loads, every entry
of the final worlds, every map of the final maps sequence and every marker of the final
markers sequence is the object built from a section of its type in the file whose turn
passed the cross-section checks: when its loop reached the section, its name was not in use
(and, for a map, its world was empty or a key of the worlds), the turn stored the object and
recorded exactly the messages of the section parse of that section under its scope (no scope
when there are none), so no "already used" or "does not exist" Error, and the final report
holds that at its place. An Error of the section parse itself does not keep the section
from being stored, but then `parse` returns `false`. -/
theorem stored_sections_accepted (env : Env) (K : Sections W M) (filename : String)
    (w0 : W) (k0 : M) (config : INIConfig)
    (hload : env.loadFile filename = Except.ok config) :
    (∀ e ∈ (parse env K filename (new w0 k0) []).cfg.worlds,
      StoredWorld K (env.parentPath filename) config.sections
        (beforeWorlds env K config (env.parentPath filename) (new w0 k0))
        (parse env K filename (new w0 k0) []) e) ∧
    (∀ m ∈ (parse env K filename (new w0 k0) []).cfg.maps,
      StoredMap env (env.parentPath filename) config.sections
        (beforeMaps env K config (env.parentPath filename) (new w0 k0))
        (parse env K filename (new w0 k0) []) m) ∧
    (∀ m ∈ (parse env K filename (new w0 k0) []).cfg.markers,
      StoredMarker K config.sections
        (beforeMarkers env K config (env.parentPath filename) (new w0 k0))
        (parse env K filename (new w0 k0) []) m) := by
  have hcol := entry_collections env K config (env.parentPath filename) (new w0 k0) []
  have hw : (beforeWorlds env K config (env.parentPath filename) (new w0 k0)).cfg.worlds = [] :=
    hcol.1
  have hm : (beforeMaps env K config (env.parentPath filename) (new w0 k0)).cfg.maps = [] :=
    (worldPass_maps K _ _ _).1.trans hcol.2.1
  have hk : (beforeMarkers env K config (env.parentPath filename) (new w0 k0)).cfg.markers
      = [] :=
    (mapPass_worlds env _ _ _).2.trans ((worldPass_maps K _ _ _).2.trans hcol.2.2)
  rw [parse_loaded env K filename (new w0 k0) [] config hload]
  split
  · refine ⟨?_, ?_, ?_⟩
    · intro e he
      have he' : e ∈ (parseGlobals env K config (env.parentPath filename)
          (parseGeneral env config (env.parentPath filename) (new w0 k0) [])).2.cfg.worlds := he
      rw [hcol.1] at he'
      exact absurd he' (List.not_mem_nil e)
    · intro m hm'
      have he' : m ∈ (parseGlobals env K config (env.parentPath filename)
          (parseGeneral env config (env.parentPath filename) (new w0 k0) [])).2.cfg.maps := hm'
      rw [hcol.2.1] at he'
      exact absurd he' (List.not_mem_nil m)
    · intro m hm'
      have he' : m ∈ (parseGlobals env K config (env.parentPath filename)
          (parseGeneral env config (env.parentPath filename) (new w0 k0) [])).2.cfg.markers := hm'
      rw [hcol.2.2] at he'
      exact absurd he' (List.not_mem_nil m)
  · have hfin : parseNamed env K (env.parentPath filename) config.sections
        (parseGlobals env K config (env.parentPath filename)
          (parseGeneral env config (env.parentPath filename) (new w0 k0) [])).2 =
        markerPass K config.sections
          (beforeMarkers env K config (env.parentPath filename) (new w0 k0)) := rfl
    rw [hfin]
    have hmk := markerPass_after K config.sections
      (beforeMarkers env K config (env.parentPath filename) (new w0 k0))
    have hmp : After (beforeMaps env K config (env.parentPath filename) (new w0 k0))
        (beforeMarkers env K config (env.parentPath filename) (new w0 k0)) :=
      mapPass_after env _ _ _
    refine ⟨?_, ?_, ?_⟩
    · intro e he
      rw [(markerPass_worlds K _ _).1] at he
      have he' : e ∈ (beforeMaps env K config (env.parentPath filename) (new w0 k0)).cfg.worlds :=
        (mapPass_worlds env _ _ _).1 ▸ he
      exact storedWorld_final
        (worldFold_stored K (env.parentPath filename) config.sections _ hw e he')
        (after_trans hmp hmk)
    · intro m hm'
      rw [(markerPass_worlds K _ _).2] at hm'
      exact storedMap_final
        (mapFold_stored env (env.parentPath filename) config.sections _ hm m hm') hmk
    · intro m hm'
      exact markerFold_stored K config.sections _ hk m hm'

/-- The amended C2 at the file whose map has `texture_size = 64`: the stored map was stored
by a turn that passed both cross-section checks, although its scope holds an Error. -/
theorem stored_sections_accepted_witness :
    (Sample.env Sample.bigTextureFile).loadFile "mapcrafter.conf"
      = Except.ok Sample.bigTextureFile ∧
    Sample.mapBig ∈ (Sample.run Sample.bigTextureFile).cfg.maps ∧
    StoredMap (Sample.env Sample.bigTextureFile) "/etc/mapcrafter"
      Sample.bigTextureFile.sections
      (beforeMaps (Sample.env Sample.bigTextureFile) Sample.sections Sample.bigTextureFile
        "/etc/mapcrafter" Sample.fresh)
      (Sample.run Sample.bigTextureFile) Sample.mapBig :=
  ⟨rfl, by decide,
    (stored_sections_accepted (Sample.env Sample.bigTextureFile) Sample.sections
      "mapcrafter.conf" (Sample.sec0 true) (Sample.sec0 false) Sample.bigTextureFile rfl).2.1
      Sample.mapBig (by decide)⟩

end MapcrafterConfig

end Mapcrafter
